import Mathlib

/-!
# Move engine of the shape editor (`src/netedit/GNEMoveElement.cpp`)

A shallow embedding of `GNEMoveOperation`, `GNEMoveOffset`, `GNEMoveResult` and of the four
methods `moveElement`, `commitMove`, `calculateMovementOverLane` and `calculateNewLane`.

Conventions of the embedding:

* a `double` is the rational number it denotes; every `+`, `-` and `*` of the source is the
  exact operation followed by `Geometry.round`, the rounding of the result to a `double`
  (`roundToDouble` for binary64); comparisons, `std::abs` and the change of sign are exact;
  infinities, NaN and subnormal numbers are not modelled;
* a pointer to a lane is a handle (`GNELane`), compared by identity; everything the source reads
  through that pointer (lane shape queries, parent edge, index) is a field of `Geometry`;
* the two callbacks of the moved element (`setMoveShape`, `commitMoveShape`) are recorded, in
  order, in the `calls` of an `Outcome`; a thrown exception is the `thrown` field; the two
  steps are embedded once more on the memory they work on (`moveElementOn`, `commitMoveOn`),
  where the callbacks change the state of the element;
* `std::vector<int>` indices are natural numbers: every statement below is about in-bounds
  indices, and an out-of-range access is reported as `MoveError.IndexOutOfRange`.
-/

namespace GNEMove

/-! ## Geometry primitives (consumed, not defined, by the source file) -/

/-- A point with three `double` coordinates. -/
structure Position where
  x : ℚ
  y : ℚ
  z : ℚ
deriving DecidableEq

/-- A polyline: `PositionVector` is a vector of `Position`. -/
abbrev PositionVector := List Position

namespace Position

/-- Modelled from the spec: the two-argument constructor `Position(x, y)` builds the 1-D
placeholder point "(offset, 0)"; the class `Position` is not among the sources. The third
coordinate is zero. -/
def mk2 (x y : ℚ) : Position := ⟨x, y, 0⟩

/-- Modelled from the spec: `Position::add(dx, dy, dz)` "adds the offset" to a point,
componentwise; the class `Position` is not among the sources. Each of the three sums is a
`double` addition: the exact sum, rounded by `round`. -/
def add (round : ℚ → ℚ) (p : Position) (dx dy dz : ℚ) : Position :=
  ⟨round (p.x + dx), round (p.y + dy), round (p.z + dz)⟩

/-- Modelled from the spec: `Position::distanceSquaredTo2D`, "the squared 2-D distance" between
two points; the class `Position` is not among the sources. -/
def distanceSquaredTo2D (p q : Position) : ℚ :=
  (p.x - q.x) * (p.x - q.x) + (p.y - q.y) * (p.y - q.y)

/-- Difference vector of two points (used to state rigidity). -/
def sub (p q : Position) : Position := ⟨p.x - q.x, p.y - q.y, p.z - q.z⟩

/-- Squared 3-D distance of two points (used to state rigidity). -/
def distanceSquaredTo (p q : Position) : ℚ :=
  (p.x - q.x) * (p.x - q.x) + (p.y - q.y) * (p.y - q.y) + (p.z - q.z) * (p.z - q.z)

end Position

/-- Handle of a lane (`const GNELane*`); two handles are the same lane iff they are equal. -/
structure GNELane where
  id : Nat
deriving DecidableEq

/-- Handle of the undo list (`GNEUndoList*`), only passed on to `commitMoveShape`. -/
structure GNEUndoList where
  id : Nat
deriving DecidableEq

/-- The two queries of the view (`const GNEViewNet* viewNet`) used by the engine. -/
structure GNEViewNet where
  /-- The query `viewNet->snapToActiveGrid(pos)`. -/
  snapToActiveGrid : Position → Position
  /-- The query `viewNet->getPositionInformation()`: the cursor position. -/
  getPositionInformation : Position

/-- The geometry and network queries the engine consumes, and the rounding of its `double`
arithmetic; none of them is defined in the source file, so each is a parameter. -/
structure Geometry where
  /-- The rounding of `double` arithmetic: the `double` that an addition, subtraction or
  multiplication returns for its exact result. -/
  round : ℚ → ℚ
  /-- The constant `Position::INVALID`, the sentinel of an invalid position. -/
  INVALID : Position
  /-- The method `PositionVector::removeDoublePoints(minDist)`, as a function of the shape. -/
  removeDoublePoints : ℚ → PositionVector → PositionVector
  /-- The method `Position::distanceTo2D` (a square root, hence not computed here). -/
  distanceTo2D : Position → Position → ℚ
  /-- The query `lane->getParentEdge()->getNBEdge()->getFinalLength()`. -/
  getFinalLength : GNELane → ℚ
  /-- The query `lane->getLengthGeometryFactor()`. -/
  getLengthGeometryFactor : GNELane → ℚ
  /-- The query `lane->getLaneShape().positionAtOffset2D(pos)`. -/
  positionAtOffset2D : GNELane → ℚ → Position
  /-- The query `lane->getLaneShape().nearest_offset_to_point2D(p, perpendicular)`; the second
  argument defaults to `true` in the source; `-1` means that no perpendicular projection
  exists. -/
  nearest_offset_to_point2D : GNELane → Position → Bool → ℚ
  /-- The query `lane->getIndex()`. -/
  getIndex : GNELane → Int
  /-- The query `lane->getParentEdge()->getLanes()`, in iteration order. -/
  getLanes : GNELane → List GNELane

/-! ## Data model -/

/-- The class `GNEMoveOperation`. The back pointer `moveElement` to the moved element is not a
field: the element only receives callbacks, which are recorded in `Outcome.calls`. -/
structure GNEMoveOperation where
  originalShape : PositionVector := []
  originalGeometryPoints : List Nat := []
  shapeToMove : PositionVector := []
  geometryPointsToMove : List Nat := []
  lane : Option GNELane := none
  originalPosOverLanes : List ℚ := []
  allowChangeLane : Bool := false
deriving DecidableEq

namespace GNEMoveOperation

/-- Constructor `GNEMoveOperation(moveElement, originalPosition)`. -/
def ofPosition (originalPosition : Position) : GNEMoveOperation :=
  { originalShape := [originalPosition], shapeToMove := [originalPosition] }

/-- Constructor `GNEMoveOperation(moveElement, originalShape)`. -/
def ofShape (originalShape : PositionVector) : GNEMoveOperation :=
  { originalShape := originalShape, shapeToMove := originalShape }

/-- Constructor `GNEMoveOperation(moveElement, originalShape, originalgeometryPoints,
shapeToMove, geometryPointsToMove)`. -/
def ofGeometryPoints (originalShape : PositionVector) (originalgeometryPoints : List Nat)
    (shapeToMove : PositionVector) (geometryPointsToMove : List Nat) : GNEMoveOperation :=
  { originalShape := originalShape, originalGeometryPoints := originalgeometryPoints,
    shapeToMove := shapeToMove, geometryPointsToMove := geometryPointsToMove }

/-- Constructor `GNEMoveOperation(moveElement, lane, originalPosOverLanes, allowChangeLane)`. -/
def overLane (lane : GNELane) (originalPosOverLanes : List ℚ) (allowChangeLane : Bool) :
    GNEMoveOperation :=
  { lane := some lane, originalPosOverLanes := originalPosOverLanes,
    allowChangeLane := allowChangeLane }

/-- Constructor `GNEMoveOperation(moveElement, lane, originalPosOverLanes,
geometryPointsToMove)`. -/
def overLaneGeometryPoints (lane : GNELane) (originalPosOverLanes : List ℚ)
    (geometryPointsToMove : List Nat) : GNEMoveOperation :=
  { geometryPointsToMove := geometryPointsToMove, lane := some lane,
    originalPosOverLanes := originalPosOverLanes }

end GNEMoveOperation

/-- The class `GNEMoveOffset`: a displacement with three components. -/
structure GNEMoveOffset where
  x : ℚ := 0
  y : ℚ := 0
  z : ℚ := 0
deriving DecidableEq

namespace GNEMoveOffset

/-- Constructor `GNEMoveOffset(x, y)`. -/
def planar (x y : ℚ) : GNEMoveOffset := { x := x, y := y }

/-- Constructor `GNEMoveOffset(z)`. -/
def elevation (z : ℚ) : GNEMoveOffset := { z := z }

end GNEMoveOffset

/-- The class `GNEMoveResult`; the default value is the one built by the constructor
`GNEMoveResult()`: empty vectors, `laneOffset(0)`, `newLane(nullptr)`. -/
structure GNEMoveResult where
  shapeToUpdate : PositionVector := []
  geometryPointsToMove : List Nat := []
  laneOffset : ℚ := 0
  newLane : Option GNELane := none
deriving DecidableEq

/-- What can be thrown while a move is computed. -/
inductive MoveError where
  /-- The exception of `throw ProcessError(msg)`. -/
  | ProcessError (msg : String)
  /-- An index of `geometryPointsToMove` outside the shape. -/
  | IndexOutOfRange
deriving DecidableEq

/-- A call made on the moved element (`moveOperation->moveElement`). -/
inductive Callback where
  | setMoveShape (moveResult : GNEMoveResult)
  | commitMoveShape (moveResult : GNEMoveResult) (undoList : GNEUndoList)
deriving DecidableEq

/-- What a call of `moveElement` or `commitMove` has done when control leaves it: the callbacks
made, in order; the exception that left the function, if any; and the state of the operation
`*moveOperation` (passed by non-const pointer). -/
structure Outcome where
  calls : List Callback
  thrown : Option MoveError
  operation : GNEMoveOperation
deriving DecidableEq

/-! ## The engine -/

/-- The message of the only `ProcessError` thrown by the engine. -/
def invalidPositionError : MoveError :=
  .ProcessError "trying to move an invalid position"

/-- The loop "move entire shape" of `moveElement` (lines 154-163) and of `commitMove`
(lines 219-228): every point, in order, is checked against `Position::INVALID`, then offset and
snapped. -/
def moveEntireShape (geo : Geometry) (viewNet : GNEViewNet) (offset : GNEMoveOffset) :
    PositionVector → Except MoveError PositionVector
  | [] => .ok []
  | geometryPoint :: rest =>
    if geometryPoint ≠ geo.INVALID then
      match moveEntireShape geo viewNet offset rest with
      | .ok moved =>
        .ok (viewNet.snapToActiveGrid
          (geometryPoint.add geo.round offset.x offset.y offset.z) :: moved)
      | .error e => .error e
    else
      .error invalidPositionError

/-- The loop "move geometry points" of `moveElement` (lines 168-177) and of `commitMove`
(lines 231-240): for every index of `geometryPointsToMove`, in order, the current point of
`shapeToUpdate` at that index is checked against `Position::INVALID`, then offset and snapped
in place. -/
def moveGeometryPoints (geo : Geometry) (viewNet : GNEViewNet) (offset : GNEMoveOffset) :
    List Nat → PositionVector → Except MoveError PositionVector
  | [], shapeToUpdate => .ok shapeToUpdate
  | geometryPointIndex :: rest, shapeToUpdate =>
    match shapeToUpdate[geometryPointIndex]? with
    | none => .error .IndexOutOfRange
    | some geometryPoint =>
      if geometryPoint ≠ geo.INVALID then
        moveGeometryPoints geo viewNet offset rest
          (shapeToUpdate.set geometryPointIndex
            (viewNet.snapToActiveGrid
              (geometryPoint.add geo.round offset.x offset.y offset.z)))
      else
        .error invalidPositionError

/-- The local variable `posOverLaneOffset` of `calculateMovementOverLane` (lines 255-289) for
the lane `lane` of the operation. `front()` and `back()` of an empty vector are undefined in
the source; they read as `0` here, which is immaterial: the shape built from an empty vector is
empty whatever the shift. Every sum, difference and product is rounded (`geo.round`). -/
def posOverLaneOffset (geo : Geometry) (viewNet : GNEViewNet) (lane : GNELane)
    (moveOperation : GNEMoveOperation) (offset : GNEMoveOffset) : ℚ :=
  let front := moveOperation.originalPosOverLanes.headD 0
  let back := moveOperation.originalPosOverLanes.getLastD 0
  let centralPosition := geo.round (geo.round (front + back) * (1 / 2))
  let middleLenght := geo.round (|geo.round (back - front)| * (1 / 2))
  let laneLengt := geo.round (geo.getFinalLength lane * geo.getLengthGeometryFactor lane)
  let lanePositionAtCentralPosition := geo.positionAtOffset2D lane centralPosition
  let lanePositionAtCentralPosition :=
    lanePositionAtCentralPosition.add geo.round offset.x offset.y offset.z
  let lanePositionAtCentralPosition := viewNet.snapToActiveGrid lanePositionAtCentralPosition
  let newPosOverLanePerpendicular :=
    geo.nearest_offset_to_point2D lane lanePositionAtCentralPosition true
  if newPosOverLanePerpendicular = -1 then
    let newPosOverLane := geo.nearest_offset_to_point2D lane lanePositionAtCentralPosition false
    if newPosOverLane = 0 then front else geo.round (back - laneLengt)
  else if geo.round (newPosOverLanePerpendicular - middleLenght) < 0 then front
  else if geo.round (newPosOverLanePerpendicular + middleLenght) > laneLengt then
    geo.round (back - laneLengt)
  else geo.round (centralPosition - newPosOverLanePerpendicular)

/-- The method `GNEMoveElement::calculateMovementOverLane`: the shape of `moveResult` is cleared and
rebuilt from the original positions over the lane. The source dereferences
`moveOperation->lane` unconditionally; both callers test the lane first, and without a lane the
result is left as it is here. -/
def calculateMovementOverLane (moveResult : GNEMoveResult) (geo : Geometry)
    (viewNet : GNEViewNet) (moveOperation : GNEMoveOperation) (offset : GNEMoveOffset) :
    GNEMoveResult :=
  match moveOperation.lane with
  | none => moveResult
  | some lane =>
    let posOverLaneOffset := posOverLaneOffset geo viewNet lane moveOperation offset
    { moveResult with
      shapeToUpdate := moveOperation.originalPosOverLanes.map
        (fun posOverlane => Position.mk2 (geo.round (posOverlane - posOverLaneOffset)) 0) }

/-- Body of the loop over the lanes of the parent edge in `calculateNewLane` (lines 307-328). -/
def calculateNewLaneStep (geo : Geometry) (cursorPosition : Position) (opLane : GNELane)
    (moveResult : GNEMoveResult) (lane : GNELane) : GNEMoveResult :=
  if lane ≠ opLane then
    let offSet := geo.nearest_offset_to_point2D lane cursorPosition true
    let posOverLane := geo.positionAtOffset2D lane offSet
    if posOverLane.distanceSquaredTo2D cursorPosition < 1 then
      let offsetMoveOperationLane := geo.nearest_offset_to_point2D opLane cursorPosition true
      let posOverMoveOperationLane := geo.positionAtOffset2D opLane offsetMoveOperationLane
      let laneOffset := geo.distanceTo2D posOverLane posOverMoveOperationLane
      { moveResult with
        newLane := some lane
        laneOffset := if geo.getIndex opLane < geo.getIndex lane then laneOffset * -1
                      else laneOffset }
    else moveResult
  else moveResult

/-- The method `GNEMoveElement::calculateNewLane`. As in `calculateMovementOverLane`, the lane of the
operation is dereferenced unconditionally by the source. -/
def calculateNewLane (moveResult : GNEMoveResult) (geo : Geometry) (viewNet : GNEViewNet)
    (moveOperation : GNEMoveOperation) : GNEMoveResult :=
  if moveOperation.allowChangeLane then
    match moveOperation.lane with
    | none => moveResult
    | some opLane =>
      let cursorPosition := viewNet.getPositionInformation
      (geo.getLanes opLane).foldl (calculateNewLaneStep geo cursorPosition opLane) moveResult
  else
    { moveResult with newLane := none, laneOffset := 0 }

/-- The method `GNEMoveElement::moveElement`: the preview step. -/
def moveElement (geo : Geometry) (viewNet : GNEViewNet) (moveOperation : GNEMoveOperation)
    (offset : GNEMoveOffset) : Outcome :=
  let moveResult : GNEMoveResult := {}
  let moveResult := { moveResult with geometryPointsToMove := moveOperation.geometryPointsToMove }
  if moveOperation.lane.isSome then
    let moveResult := calculateMovementOverLane moveResult geo viewNet moveOperation offset
    let moveResult := calculateNewLane moveResult geo viewNet moveOperation
    { calls := [.setMoveShape moveResult], thrown := none, operation := moveOperation }
  else if moveOperation.geometryPointsToMove.isEmpty then
    match moveEntireShape geo viewNet offset moveOperation.shapeToMove with
    | .ok shapeToUpdate =>
      { calls := [.setMoveShape { moveResult with shapeToUpdate := shapeToUpdate }],
        thrown := none, operation := moveOperation }
    | .error e => { calls := [], thrown := some e, operation := moveOperation }
  else
    match moveGeometryPoints geo viewNet offset moveOperation.geometryPointsToMove
        moveOperation.shapeToMove with
    | .ok shapeToUpdate =>
      { calls := [.setMoveShape { moveResult with shapeToUpdate := shapeToUpdate }],
        thrown := none, operation := moveOperation }
    | .error e => { calls := [], thrown := some e, operation := moveOperation }

/-- The method `GNEMoveElement::commitMove`: the commit step. -/
def commitMove (geo : Geometry) (viewNet : GNEViewNet) (moveOperation : GNEMoveOperation)
    (offset : GNEMoveOffset) (undoList : GNEUndoList) : Outcome :=
  let moveResult : GNEMoveResult := {}
  if moveOperation.lane.isSome then
    let moveResult := { moveResult with geometryPointsToMove := moveOperation.geometryPointsToMove }
    let originalPosOverLanes : PositionVector :=
      moveOperation.originalPosOverLanes.map (fun posOverlane => Position.mk2 posOverlane 0)
    let moveResult := { moveResult with shapeToUpdate := originalPosOverLanes }
    let restore := Callback.setMoveShape moveResult
    let moveResult := calculateMovementOverLane moveResult geo viewNet moveOperation offset
    let moveResult := calculateNewLane moveResult geo viewNet moveOperation
    { calls := [restore, .commitMoveShape moveResult undoList], thrown := none,
      operation := moveOperation }
  else
    let moveResult := { moveResult with geometryPointsToMove := moveOperation.originalGeometryPoints }
    let moveResult := { moveResult with shapeToUpdate := moveOperation.originalShape }
    let restore := Callback.setMoveShape moveResult
    let moveResult := { moveResult with geometryPointsToMove := moveOperation.geometryPointsToMove }
    let moveResult := { moveResult with shapeToUpdate := moveOperation.shapeToMove }
    if moveOperation.geometryPointsToMove.isEmpty then
      match moveEntireShape geo viewNet offset moveResult.shapeToUpdate with
      | .ok shapeToUpdate =>
        { calls := [restore,
            .commitMoveShape { moveResult with shapeToUpdate := shapeToUpdate } undoList],
          thrown := none, operation := moveOperation }
      | .error e => { calls := [restore], thrown := some e, operation := moveOperation }
    else
      match moveGeometryPoints geo viewNet offset moveOperation.geometryPointsToMove
          moveResult.shapeToUpdate with
      | .ok shapeToUpdate =>
        let shapeToUpdate :=
          if shapeToUpdate.length > 2 then geo.removeDoublePoints 2 shapeToUpdate
          else shapeToUpdate
        { calls := [restore,
            .commitMoveShape { moveResult with shapeToUpdate := shapeToUpdate } undoList],
          thrown := none, operation := moveOperation }
      | .error e => { calls := [restore], thrown := some e, operation := moveOperation }

/-! ## The two steps on the memory they work on

`moveElement` and `commitMove` receive a pointer to the operation, and through it a pointer to
the moved element, whose state the two callbacks change. The two definitions below follow the
source statement by statement once more, this time passing that memory along: whatever the
source could read or write is an argument and a result. -/

/-- The moved element as the engine uses it: its two virtual methods, acting on the state `σ` of
the element (the shape it displays, what it has recorded for undo, ...). They receive the move
result (and the undo list) by reference to a local variable of the step, not the operation. -/
structure GNEMoveElement (σ : Type) where
  /-- The method `setMoveShape(moveResult)`. -/
  setMoveShape : GNEMoveResult → σ → σ
  /-- The method `commitMoveShape(moveResult, undoList)`. -/
  commitMoveShape : GNEMoveResult → GNEUndoList → σ → σ

/-- The memory a step works on: the operation `*moveOperation` and the state of the element
`*moveOperation->moveElement`. -/
structure Memory (σ : Type) where
  operation : GNEMoveOperation
  element : σ

/-- What a step leaves: the memory, the callbacks it has made (in order) and the exception that
left it, if any. -/
structure Step (σ : Type) where
  memory : Memory σ
  calls : List Callback
  thrown : Option MoveError

/-- The method `GNEMoveElement::moveElement`, on the memory. -/
def moveElementOn {σ : Type} (element : GNEMoveElement σ) (geo : Geometry)
    (viewNet : GNEViewNet) (offset : GNEMoveOffset) (memory : Memory σ) : Step σ :=
  let moveOperation := memory.operation
  let moveResult : GNEMoveResult := {}
  let moveResult := { moveResult with geometryPointsToMove := moveOperation.geometryPointsToMove }
  if moveOperation.lane.isSome then
    let moveResult := calculateMovementOverLane moveResult geo viewNet moveOperation offset
    let moveResult := calculateNewLane moveResult geo viewNet moveOperation
    { memory := { memory with element := element.setMoveShape moveResult memory.element },
      calls := [.setMoveShape moveResult], thrown := none }
  else if moveOperation.geometryPointsToMove.isEmpty then
    match moveEntireShape geo viewNet offset moveOperation.shapeToMove with
    | .ok shapeToUpdate =>
      let moveResult := { moveResult with shapeToUpdate := shapeToUpdate }
      { memory := { memory with element := element.setMoveShape moveResult memory.element },
        calls := [.setMoveShape moveResult], thrown := none }
    | .error e => { memory := memory, calls := [], thrown := some e }
  else
    match moveGeometryPoints geo viewNet offset moveOperation.geometryPointsToMove
        moveOperation.shapeToMove with
    | .ok shapeToUpdate =>
      let moveResult := { moveResult with shapeToUpdate := shapeToUpdate }
      { memory := { memory with element := element.setMoveShape moveResult memory.element },
        calls := [.setMoveShape moveResult], thrown := none }
    | .error e => { memory := memory, calls := [], thrown := some e }

/-- The method `GNEMoveElement::commitMove`, on the memory. -/
def commitMoveOn {σ : Type} (element : GNEMoveElement σ) (geo : Geometry)
    (viewNet : GNEViewNet) (offset : GNEMoveOffset) (undoList : GNEUndoList)
    (memory : Memory σ) : Step σ :=
  let moveOperation := memory.operation
  let moveResult : GNEMoveResult := {}
  if moveOperation.lane.isSome then
    let moveResult := { moveResult with geometryPointsToMove := moveOperation.geometryPointsToMove }
    let originalPosOverLanes : PositionVector :=
      moveOperation.originalPosOverLanes.map (fun posOverlane => Position.mk2 posOverlane 0)
    let moveResult := { moveResult with shapeToUpdate := originalPosOverLanes }
    let restore := moveResult
    let restored := element.setMoveShape restore memory.element
    let moveResult := calculateMovementOverLane moveResult geo viewNet moveOperation offset
    let moveResult := calculateNewLane moveResult geo viewNet moveOperation
    { memory := { memory with element := element.commitMoveShape moveResult undoList restored },
      calls := [.setMoveShape restore, .commitMoveShape moveResult undoList], thrown := none }
  else
    let moveResult := { moveResult with geometryPointsToMove := moveOperation.originalGeometryPoints }
    let moveResult := { moveResult with shapeToUpdate := moveOperation.originalShape }
    let restore := moveResult
    let restored := element.setMoveShape restore memory.element
    let moveResult := { moveResult with geometryPointsToMove := moveOperation.geometryPointsToMove }
    let moveResult := { moveResult with shapeToUpdate := moveOperation.shapeToMove }
    if moveOperation.geometryPointsToMove.isEmpty then
      match moveEntireShape geo viewNet offset moveResult.shapeToUpdate with
      | .ok shapeToUpdate =>
        let moveResult := { moveResult with shapeToUpdate := shapeToUpdate }
        { memory :=
            { memory with element := element.commitMoveShape moveResult undoList restored },
          calls := [.setMoveShape restore, .commitMoveShape moveResult undoList],
          thrown := none }
      | .error e =>
        { memory := { memory with element := restored }, calls := [.setMoveShape restore],
          thrown := some e }
    else
      match moveGeometryPoints geo viewNet offset moveOperation.geometryPointsToMove
          moveResult.shapeToUpdate with
      | .ok shapeToUpdate =>
        let shapeToUpdate :=
          if shapeToUpdate.length > 2 then geo.removeDoublePoints 2 shapeToUpdate
          else shapeToUpdate
        let moveResult := { moveResult with shapeToUpdate := shapeToUpdate }
        { memory :=
            { memory with element := element.commitMoveShape moveResult undoList restored },
          calls := [.setMoveShape restore, .commitMoveShape moveResult undoList],
          thrown := none }
      | .error e =>
        { memory := { memory with element := restored }, calls := [.setMoveShape restore],
          thrown := some e }

/-- A sequence of preview steps: each is a call of `moveElement` with the view and the offset
of that moment, on the memory as the previous call left it; an exception ends that step
only. -/
def runPreviewsOn {σ : Type} (element : GNEMoveElement σ) (geo : Geometry) :
    List (GNEViewNet × GNEMoveOffset) → Memory σ → Memory σ
  | [], memory => memory
  | (viewNet, offset) :: rest, memory =>
    runPreviewsOn element geo rest (moveElementOn element geo viewNet offset memory).memory

/-- The effect of a list of callbacks on the state of an element. -/
def applyCalls {σ : Type} (element : GNEMoveElement σ) : List Callback → σ → σ
  | [], state => state
  | .setMoveShape moveResult :: rest, state =>
    applyCalls element rest (element.setMoveShape moveResult state)
  | .commitMoveShape moveResult undoList :: rest, state =>
    applyCalls element rest (element.commitMoveShape moveResult undoList state)

/-! ## Auxiliary definitions used in the statements -/

/-- Offsetting then snapping one point: the body shared by both loops. -/
def offsetAndSnap (geo : Geometry) (viewNet : GNEViewNet) (offset : GNEMoveOffset)
    (p : Position) : Position :=
  viewNet.snapToActiveGrid (p.add geo.round offset.x offset.y offset.z)

/-- The results handed to `commitMoveShape` in a list of callbacks, in order. -/
def committedResults : List Callback → List GNEMoveResult
  | [] => []
  | .setMoveShape _ :: rest => committedResults rest
  | .commitMoveShape moveResult _ :: rest => moveResult :: committedResults rest

/-- The centre of the span `[front, back]` as §4.3 words it ("midpoint of first and last"),
in `double` arithmetic. -/
def centralPosition (round : ℚ → ℚ) (front back : ℚ) : ℚ :=
  round (round (front + back) / 2)

/-- The half-span as §4.3 words it ("half the absolute distance between them"), in `double`
arithmetic. -/
def halfSpan (round : ℚ → ℚ) (front back : ℚ) : ℚ :=
  round (|round (back - front)| / 2)

/-- The shift of §4.3 as the specification words it, from the first and last original
positions, the lane length, the perpendicular projection (if one exists) and the
non-perpendicular projection; every sum and difference is rounded by `round`. -/
def shiftPrecedence (round : ℚ → ℚ) (front back laneLength : ℚ) (perpendicular : Option ℚ)
    (nonPerpendicular : ℚ) : ℚ :=
  let center := centralPosition round front back
  let halfSpan := halfSpan round front back
  match perpendicular with
  | some p =>
    if round (p - halfSpan) < 0 then front
    else if round (p + halfSpan) > laneLength then round (back - laneLength)
    else round (center - p)
  | none => if nonPerpendicular = 0 then front else round (back - laneLength)

/-- The lane length used by `calculateMovementOverLane`: the final length of the parent edge
times the geometry factor of the lane (a `double` product). -/
def laneLength (geo : Geometry) (lane : GNELane) : ℚ :=
  geo.round (geo.getFinalLength lane * geo.getLengthGeometryFactor lane)

/-- The snapped target of `calculateMovementOverLane`: the point of the lane at the centre of
the span `[front, back]`, plus the offset, snapped to the grid. -/
def snappedTarget (geo : Geometry) (viewNet : GNEViewNet) (lane : GNELane) (front back : ℚ)
    (offset : GNEMoveOffset) : Position :=
  viewNet.snapToActiveGrid
    ((geo.positionAtOffset2D lane (centralPosition geo.round front back)).add geo.round
      offset.x offset.y offset.z)

/-- The perpendicular projection of a point on a lane, if one exists (the query answers `-1`
when none does). -/
def perpendicularProjection (geo : Geometry) (lane : GNELane) (target : Position) : Option ℚ :=
  if geo.nearest_offset_to_point2D lane target true = -1 then none
  else some (geo.nearest_offset_to_point2D lane target true)

/-- Squared 2-D distance between the cursor and its projection on a lane, as computed by
`calculateNewLane`. -/
def cursorDistanceSquared (geo : Geometry) (viewNet : GNEViewNet) (lane : GNELane) : ℚ :=
  (geo.positionAtOffset2D lane
    (geo.nearest_offset_to_point2D lane viewNet.getPositionInformation true)).distanceSquaredTo2D
    viewNet.getPositionInformation

/-- The projection of the cursor on a lane, as computed by `calculateNewLane`. -/
def cursorProjection (geo : Geometry) (viewNet : GNEViewNet) (lane : GNELane) : Position :=
  geo.positionAtOffset2D lane
    (geo.nearest_offset_to_point2D lane viewNet.getPositionInformation true)

/-- A lane qualifies for the change of lane: it is not the lane of the operation and the
squared 2-D distance between the cursor and its projection on it is below 1. -/
def qualifies (geo : Geometry) (viewNet : GNEViewNet) (opLane lane : GNELane) : Prop :=
  lane ≠ opLane ∧ cursorDistanceSquared geo viewNet lane < 1

instance (geo : Geometry) (viewNet : GNEViewNet) (opLane lane : GNELane) :
    Decidable (qualifies geo viewNet opLane lane) := by
  unfold qualifies; infer_instance

/-- No operation of `calculateMovementOverLane` is rounded: the centre and the half-span of the
span `[front, back]`, the shift that pins the span to the end of the lane, the two tests and the
shift of an unclamped move (when the perpendicular projection exists), and every position minus
the shift are the exact results. -/
def movementIsExact (geo : Geometry) (viewNet : GNEViewNet) (lane : GNELane)
    (op : GNEMoveOperation) (offset : GNEMoveOffset) (front back : ℚ) : Prop :=
  centralPosition geo.round front back = (front + back) / 2 ∧
  halfSpan geo.round front back = |back - front| / 2 ∧
  geo.round (back - laneLength geo lane) = back - laneLength geo lane ∧
  (∀ p, perpendicularProjection geo lane
      (snappedTarget geo viewNet lane front back offset) = some p →
    geo.round (p - halfSpan geo.round front back) = p - halfSpan geo.round front back ∧
    geo.round (p + halfSpan geo.round front back) = p + halfSpan geo.round front back ∧
    geo.round (centralPosition geo.round front back - p) =
      centralPosition geo.round front back - p) ∧
  ∀ pos ∈ op.originalPosOverLanes,
    geo.round (pos - posOverLaneOffset geo viewNet lane op offset) =
      pos - posOverLaneOffset geo viewNet lane op offset

/-- A point that is about to be offset is invalid: in a move of the whole shape
(`geometryPointsToMove` empty) some point of `shapeToMove` is `Position::INVALID`; in a move
of selected points, `shapeToMove` holds `Position::INVALID` at a selected index. -/
def offsetsInvalidPoint (geo : Geometry) (op : GNEMoveOperation) : Prop :=
  (op.geometryPointsToMove = [] ∧ geo.INVALID ∈ op.shapeToMove) ∨
    ∃ i ∈ op.geometryPointsToMove, op.shapeToMove[i]? = some geo.INVALID

instance (geo : Geometry) (op : GNEMoveOperation) : Decidable (offsetsInvalidPoint geo op) := by
  unfold offsetsInvalidPoint; infer_instance

/-! ## Rounding to binary64 -/

/-- Rounding of a rational to the nearest integer, ties to the even one. -/
def roundHalfEven (x : ℚ) : ℤ :=
  if x - ⌊x⌋ < 1 / 2 then ⌊x⌋
  else if 1 / 2 < x - ⌊x⌋ then ⌊x⌋ + 1
  else if ⌊x⌋ % 2 = 0 then ⌊x⌋ else ⌊x⌋ + 1

/-- Rounding to binary64, round-to-nearest, ties-to-even: `x` is scaled by the power of two
that brings `|x|` into `[2^52, 2^53)`, rounded to an integer and scaled back, so that 53
significant bits are kept. The exponent is not bounded: overflow to infinity and the loss of
precision of subnormal numbers (below `2^-1022`) are not modelled. -/
def roundToDouble (x : ℚ) : ℚ :=
  if x = 0 then 0
  else roundHalfEven (x / 2 ^ (Int.log 2 |x| - 52)) * 2 ^ (Int.log 2 |x| - 52)

/-! ## A concrete scene: straight parallel lanes of length 100, binary64 arithmetic -/

namespace Scene

/-- Modelled from the spec: duplicate-point removal, "collapse consecutive points closer than a
small tolerance"; `PositionVector::removeDoublePoints` is not among the sources. Points closer
than `minDist` to the last kept point are dropped. -/
def dropNear (minDist : ℚ) (last : Position) : PositionVector → PositionVector
  | [] => [last]
  | p :: rest =>
    if last.distanceSquaredTo p < minDist * minDist then dropNear minDist last rest
    else last :: dropNear minDist p rest

/-- Modelled from the spec: duplicate-point removal on a whole shape, "collapse consecutive
points closer than a small tolerance"; `PositionVector::removeDoublePoints` is not among the
sources. -/
def removeDoublePoints (minDist : ℚ) : PositionVector → PositionVector
  | [] => []
  | p :: rest => dropNear minDist p rest

/-- Lane number `k` of the scene runs from `(0, 3k)` to `(100, 3k)`; its final length is 100
and its geometry factor 1. A point projects perpendicularly on a lane iff its `x` lies in
`[0, 100]`. The 2-D distance is given by `|dx| + |dy|`, which is the Euclidean distance for
two points that differ in one coordinate only (all the scene needs). The arithmetic is
binary64. -/
def geometry : Geometry where
  round := roundToDouble
  INVALID := ⟨-1073741824, -1073741824, -1073741824⟩
  removeDoublePoints := removeDoublePoints
  distanceTo2D := fun p q => |p.x - q.x| + |p.y - q.y|
  getFinalLength := fun _ => 100
  getLengthGeometryFactor := fun _ => 1
  positionAtOffset2D := fun lane pos => ⟨pos, 3 * lane.id, 0⟩
  nearest_offset_to_point2D := fun _ p perpendicular =>
    if 0 ≤ p.x ∧ p.x ≤ 100 then p.x
    else if perpendicular then -1
    else if p.x < 0 then 0 else 100
  getIndex := fun lane => lane.id
  getLanes := fun _ => [⟨0⟩, ⟨1⟩, ⟨2⟩]

/-- A view without active grid, with the cursor at `cursor`. -/
def view (cursor : Position) : GNEViewNet where
  snapToActiveGrid := fun p => p
  getPositionInformation := cursor

/-- A polyline of four points. -/
def square : PositionVector := [⟨0, 0, 0⟩, ⟨10, 0, 0⟩, ⟨10, 10, 0⟩, ⟨0, 10, 0⟩]

/-- Moving the second and third point of `square`. -/
def moveTwoPoints : GNEMoveOperation :=
  GNEMoveOperation.ofGeometryPoints square [1] square [1, 2]

/-- Moving the whole of `square`. -/
def moveSquare : GNEMoveOperation := GNEMoveOperation.ofShape square

/-- A shape with an invalid second point, of which only the first point is moved. -/
def moveBesideInvalid : GNEMoveOperation :=
  GNEMoveOperation.ofGeometryPoints square [0] [⟨0, 0, 0⟩, geometry.INVALID, ⟨10, 10, 0⟩] [0]

/-- The span `[10, 30]` on lane 0, lane change not allowed. -/
def spanOnLane : GNEMoveOperation := GNEMoveOperation.overLane ⟨0⟩ [10, 30] false

/-- The span `[10, 30]` on lane 0, lane change allowed. -/
def spanMayChangeLane : GNEMoveOperation := GNEMoveOperation.overLane ⟨0⟩ [10, 30] true

/-- A span longer than the lane: positions `[0, 120]` on lane 0 (length 100). -/
def longSpan : GNEMoveOperation := GNEMoveOperation.overLane ⟨0⟩ [0, 120] false

/-- Positions on lane 0 whose last is not their maximum. -/
def unsortedSpan : GNEMoveOperation := GNEMoveOperation.overLane ⟨0⟩ [10, 50, 30] false

/-- Moving the second point of `square` only. -/
def moveSecondPoint : GNEMoveOperation :=
  GNEMoveOperation.ofGeometryPoints square [1] square [1]

/-- The scene with the lanes half a unit apart: lane `k` runs from `(0, k/2)` to
`(100, k/2)`. -/
def narrowGeometry : Geometry :=
  { geometry with positionAtOffset2D := fun lane pos => ⟨pos, lane.id / 2, 0⟩ }

/-- Moving the invalid second point of a shape. -/
def moveInvalidPoint : GNEMoveOperation :=
  GNEMoveOperation.ofGeometryPoints square [0] [⟨0, 0, 0⟩, geometry.INVALID, ⟨10, 10, 0⟩] [1]

/-- Moving the last point of `square` only. -/
def moveLastPoint : GNEMoveOperation :=
  GNEMoveOperation.ofGeometryPoints square [3] square [3]

/-- The second point of `square` selected twice. -/
def moveSecondPointTwice : GNEMoveOperation :=
  GNEMoveOperation.ofGeometryPoints square [1] square [1, 1]

/-- A span beyond the end of the lane: positions `[150, 170]` on lane 0 (length 100). -/
def spanOffLane : GNEMoveOperation := GNEMoveOperation.overLane ⟨0⟩ [150, 170] false

/-- A span given from its far end: positions `[30, 10]` on lane 0. -/
def reversedSpan : GNEMoveOperation := GNEMoveOperation.overLane ⟨0⟩ [30, 10] false

/-- Two points whose `x` are the adjacent doubles `1` and `1 + 2^-52`. -/
def adjacentPoints : PositionVector := [⟨1, 0, 0⟩, ⟨1 + 1 / 2 ^ 52, 0, 0⟩]

/-- Moving the whole of `adjacentPoints`. -/
def moveAdjacentPoints : GNEMoveOperation := GNEMoveOperation.ofShape adjacentPoints

/-- The first point `(2, 0, 0)` of a shape selected twice. -/
def moveFirstPointTwice : GNEMoveOperation :=
  GNEMoveOperation.ofGeometryPoints [⟨2, 0, 0⟩, ⟨10, 0, 0⟩] [0] [⟨2, 0, 0⟩, ⟨10, 0, 0⟩] [0, 0]

/-- A span between the adjacent doubles `2` and `2 + 2^-51`, on lane 0. -/
def tightSpan : GNEMoveOperation := GNEMoveOperation.overLane ⟨0⟩ [2, 2 + 1 / 2 ^ 51] false

/-- The span `[1 - 2^-53, 3]` on lane 0; its first position is the double just below 1. -/
def spanBelowOne : GNEMoveOperation := GNEMoveOperation.overLane ⟨0⟩ [1 - 1 / 2 ^ 53, 3] false

/-- The span `[2 - 2^-48, 30 + 3 * 2^-48]` on lane 0 (both are doubles). -/
def spanNearEnd : GNEMoveOperation :=
  GNEMoveOperation.overLane ⟨0⟩ [2 - 1 / 2 ^ 48, 30 + 3 / 2 ^ 48] false

/-- An element that displays the last shape it was given and counts the committed changes. -/
def displayElement : GNEMoveElement (PositionVector × Nat) where
  setMoveShape := fun moveResult state => (moveResult.shapeToUpdate, state.2)
  commitMoveShape := fun moveResult _ state => (moveResult.shapeToUpdate, state.2 + 1)

/-- The memory at the start of a drag of `square`: the operation and the element, which
displays `square` and has committed nothing. -/
def squareMemory : Memory (PositionVector × Nat) :=
  { operation := moveSquare, element := (square, 0) }

end Scene

/-! ## Rounding to binary64: how it is evaluated -/

theorem roundHalfEven_down (x : ℚ) (f : ℤ) (h1 : (f : ℚ) ≤ x) (h2 : x < f + 1 / 2) :
    roundHalfEven x = f := by
  have hf : ⌊x⌋ = f := Int.floor_eq_iff.mpr ⟨h1, by linarith⟩
  unfold roundHalfEven
  rw [hf]
  have : x - f < 1 / 2 := by linarith
  rw [if_pos this]

theorem roundHalfEven_up (x : ℚ) (f : ℤ) (h1 : (f : ℚ) + 1 / 2 < x) (h2 : x < f + 1) :
    roundHalfEven x = f + 1 := by
  have hf : ⌊x⌋ = f := Int.floor_eq_iff.mpr ⟨by linarith, h2⟩
  unfold roundHalfEven
  rw [hf]
  have h3 : ¬ x - f < 1 / 2 := by linarith
  have h4 : 1 / 2 < x - f := by linarith
  rw [if_neg h3, if_pos h4]

theorem roundHalfEven_tie (x : ℚ) (f : ℤ) (hx : x = f + 1 / 2) :
    roundHalfEven x = if f % 2 = 0 then f else f + 1 := by
  have hf : ⌊x⌋ = f := Int.floor_eq_iff.mpr ⟨by linarith, by linarith⟩
  unfold roundHalfEven
  rw [hf]
  have h3 : ¬ x - f < 1 / 2 := by linarith
  have h4 : ¬ 1 / 2 < x - f := by linarith
  rw [if_neg h3, if_neg h4]

theorem roundHalfEven_intCast (n : ℤ) : roundHalfEven (n : ℚ) = n :=
  roundHalfEven_down _ n le_rfl (by linarith)

theorem log_eq_of_binade (x : ℚ) (e : ℤ) (h1 : (2 : ℚ) ^ e ≤ |x|)
    (h2 : |x| < 2 ^ (e + 1)) :
    Int.log 2 |x| = e := by
  have hpos : 0 < |x| := lt_of_lt_of_le (by positivity) h1
  have ha : e ≤ Int.log 2 |x| :=
    (Int.zpow_le_iff_le_log (by norm_num) hpos).mp (by exact_mod_cast h1)
  have hb : Int.log 2 |x| < e + 1 :=
    (Int.lt_zpow_iff_log_lt (by norm_num) hpos).mp (by exact_mod_cast h2)
  omega

theorem roundToDouble_eq (x u : ℚ) (e n : ℤ) (hu : u = 2 ^ (e - 52)) (h1 : (2 : ℚ) ^ e ≤ |x|)
    (h2 : |x| < 2 ^ (e + 1)) (hn : roundHalfEven (x / u) = n) : roundToDouble x = n * u := by
  have hx : x ≠ 0 := by
    intro h
    rw [h, abs_zero] at h1
    exact absurd h1 (not_le.mpr (by positivity))
  unfold roundToDouble
  rw [if_neg hx, log_eq_of_binade x e h1 h2, ← hu, hn]

/-- A dyadic rational with at most 53 significant bits is not rounded. -/
theorem roundToDouble_dyadic (m k : ℤ) (hm : |m| < 2 ^ 53) :
    roundToDouble (m * 2 ^ k) = m * 2 ^ k := by
  by_cases h0 : m = 0
  · simp [h0, roundToDouble]
  · have hx : (m : ℚ) * 2 ^ k ≠ 0 := by
      have : (m : ℚ) ≠ 0 := by exact_mod_cast h0
      positivity
    have hpos : 0 < |(m : ℚ) * 2 ^ k| := abs_pos.mpr hx
    have hlt : |(m : ℚ) * 2 ^ k| < 2 ^ (53 + k) := by
      rw [abs_mul, abs_of_pos (show (0 : ℚ) < 2 ^ k by positivity), zpow_add₀ (by norm_num)]
      have : |(m : ℚ)| < 2 ^ (53 : ℤ) := by
        have h : ((|m| : ℤ) : ℚ) < ((2 ^ 53 : ℤ) : ℚ) := by exact_mod_cast hm
        rw [Int.cast_abs] at h
        calc |(m : ℚ)| < ((2 ^ 53 : ℤ) : ℚ) := h
          _ = 2 ^ (53 : ℤ) := by norm_num
      exact mul_lt_mul_of_pos_right this (by positivity)
    have hlog : Int.log 2 |(m : ℚ) * 2 ^ k| < 53 + k :=
      (Int.lt_zpow_iff_log_lt (by norm_num) hpos).mp (by exact_mod_cast hlt)
    obtain ⟨j, hj⟩ : ∃ j : ℕ, (j : ℤ) = 52 + k - Int.log 2 |(m : ℚ) * 2 ^ k| :=
      ⟨(52 + k - Int.log 2 |(m : ℚ) * 2 ^ k|).toNat, Int.toNat_of_nonneg (by omega)⟩
    have hdiv : (m : ℚ) * 2 ^ k / 2 ^ (Int.log 2 |(m : ℚ) * 2 ^ k| - 52) =
        ((m * 2 ^ j : ℤ) : ℚ) := by
      have he : k = (Int.log 2 |(m : ℚ) * 2 ^ k| - 52) + j := by omega
      rw [div_eq_iff (by positivity)]
      push_cast
      conv_lhs => rw [he]
      rw [zpow_add₀ (by norm_num), zpow_natCast]
      ring
    unfold roundToDouble
    rw [if_neg hx, hdiv, roundHalfEven_intCast, ← hdiv]
    exact div_mul_cancel₀ _ (by positivity)

theorem roundToDouble_intCast (n : ℤ) (hn : |n| < 2 ^ 53) : roundToDouble n = n := by
  have := roundToDouble_dyadic n 0 hn
  simpa using this

@[simp]
theorem roundToDouble_zero : roundToDouble 0 = 0 := by simp [roundToDouble]

theorem roundToDouble_natCast (n : ℕ) (hn : n < 2 ^ 53) : roundToDouble (n : ℚ) = n := by
  have := roundToDouble_intCast (n : ℤ)
    (by rw [abs_of_nonneg (by positivity)]; exact_mod_cast hn)
  exact_mod_cast this

@[simp]
theorem roundToDouble_one : roundToDouble 1 = 1 := by
  exact_mod_cast roundToDouble_natCast 1 (by norm_num)

@[simp]
theorem roundToDouble_ofNat (n : ℕ) [n.AtLeastTwo] (hn : n < 2 ^ 53) :
    roundToDouble (no_index (OfNat.ofNat n)) = OfNat.ofNat n := by
  have := roundToDouble_natCast n hn
  simpa using this

@[simp]
theorem roundToDouble_neg_ofNat (n : ℕ) [n.AtLeastTwo] (hn : n < 2 ^ 53) :
    roundToDouble (-(no_index (OfNat.ofNat n))) = -OfNat.ofNat n := by
  have := roundToDouble_intCast (-(n : ℤ))
    (by rw [abs_neg, abs_of_nonneg (by positivity)]; exact_mod_cast hn)
  simpa using this


theorem roundHalfEven_neg (x : ℚ) : roundHalfEven (-x) = -roundHalfEven x := by
  rcases lt_trichotomy (x - ⌊x⌋) (1 / 2) with h | h | h
  · by_cases h0 : x - ⌊x⌋ = 0
    · have hx : x = ((⌊x⌋ : ℤ) : ℚ) := by linarith
      rw [hx, ← Int.cast_neg, roundHalfEven_intCast, roundHalfEven_intCast]
    · have hpos : 0 < x - ⌊x⌋ := lt_of_le_of_ne (by linarith [Int.floor_le x]) (Ne.symm h0)
      rw [roundHalfEven_down x ⌊x⌋ (Int.floor_le x) (by linarith),
        roundHalfEven_up (-x) (-⌊x⌋ - 1) (by push_cast; linarith) (by push_cast; linarith)]
      ring
  · rw [roundHalfEven_tie x ⌊x⌋ (by linarith),
      roundHalfEven_tie (-x) (-⌊x⌋ - 1) (by push_cast; linarith)]
    split_ifs <;> omega
  · rw [roundHalfEven_up x ⌊x⌋ (by linarith) (Int.lt_floor_add_one x),
      roundHalfEven_down (-x) (-⌊x⌋ - 1) (by push_cast; linarith [Int.lt_floor_add_one x])
        (by push_cast; linarith)]
    ring

@[simp]
theorem roundToDouble_neg (x : ℚ) : roundToDouble (-x) = -roundToDouble x := by
  unfold roundToDouble
  by_cases hx : x = 0
  · simp [hx]
  · rw [if_neg hx, if_neg (neg_ne_zero.mpr hx), abs_neg, neg_div, roundHalfEven_neg]
    push_cast
    ring

@[simp]
theorem roundToDouble_ofNat_div (a b : ℕ) [a.AtLeastTwo] [b.AtLeastTwo] (ha : a < 2 ^ 53)
    (hb : 2 ^ 200 % b = 0) :
    roundToDouble (no_index (OfNat.ofNat a) / no_index (OfNat.ofNat b)) =
      OfNat.ofNat a / OfNat.ofNat b := by
  obtain ⟨k, -, hk⟩ := (Nat.dvd_prime_pow Nat.prime_two).mp (Nat.dvd_of_mod_eq_zero hb)
  have h := roundToDouble_dyadic (a : ℤ) (-(k : ℤ))
    (by rw [abs_of_nonneg (by positivity)]; exact_mod_cast ha)
  have hb' : (OfNat.ofNat b : ℚ) = 2 ^ k := by
    have : ((b : ℕ) : ℚ) = ((2 ^ k : ℕ) : ℚ) := by rw [hk]
    simpa using this
  have ha' : (OfNat.ofNat a : ℚ) = ((a : ℤ) : ℚ) := by
    rw [Int.cast_natCast]; exact Nat.cast_eq_ofNat.symm
  rw [hb', ha', div_eq_mul_inv, ← zpow_natCast, ← zpow_neg]
  exact h


@[simp]
theorem roundToDouble_one_div (b : ℕ) [b.AtLeastTwo] (hb : 2 ^ 200 % b = 0) :
    roundToDouble (1 / no_index (OfNat.ofNat b)) = 1 / OfNat.ofNat b := by
  obtain ⟨k, -, hk⟩ := (Nat.dvd_prime_pow Nat.prime_two).mp (Nat.dvd_of_mod_eq_zero hb)
  have h := roundToDouble_dyadic 1 (-(k : ℤ)) (by norm_num)
  have hb' : (OfNat.ofNat b : ℚ) = 2 ^ k := by
    have : ((b : ℕ) : ℚ) = ((2 ^ k : ℕ) : ℚ) := by rw [hk]
    simpa using this
  rw [hb', div_eq_mul_inv, ← zpow_natCast, ← zpow_neg]
  simpa using h

/-! ## Lemmas on the two offsetting loops -/

theorem moveEntireShape_eq (geo : Geometry) (viewNet : GNEViewNet) (offset : GNEMoveOffset)
    (shape : PositionVector) :
    moveEntireShape geo viewNet offset shape =
      if geo.INVALID ∈ shape then .error invalidPositionError
      else .ok (shape.map (offsetAndSnap geo viewNet offset)) := by
  induction shape with
  | nil => simp [moveEntireShape]
  | cons p rest ih =>
    rw [moveEntireShape, ih]
    by_cases hp : p = geo.INVALID
    · simp [hp]
    · have hp' : ¬ geo.INVALID = p := fun h => hp h.symm
      by_cases hr : geo.INVALID ∈ rest
      · simp [hp, hr]
      · simp [hp, hp', hr, offsetAndSnap]

theorem moveGeometryPoints_length (geo : Geometry) (viewNet : GNEViewNet)
    (offset : GNEMoveOffset) :
    ∀ (idxs : List Nat) (shape s : PositionVector),
      moveGeometryPoints geo viewNet offset idxs shape = .ok s → s.length = shape.length := by
  intro idxs
  induction idxs with
  | nil => intro shape s h; simp [moveGeometryPoints] at h; rw [h]
  | cons i rest ih =>
    intro shape s h
    rw [moveGeometryPoints] at h
    cases hi : shape[i]? with
    | none => rw [hi] at h; simp at h
    | some p =>
      rw [hi] at h
      by_cases hp : p = geo.INVALID
      · simp [hp] at h
      · simp only [ne_eq, hp, not_false_eq_true, if_true] at h
        rw [ih _ _ h, List.length_set]

theorem moveGeometryPoints_frame (geo : Geometry) (viewNet : GNEViewNet)
    (offset : GNEMoveOffset) :
    ∀ (idxs : List Nat) (shape s : PositionVector),
      moveGeometryPoints geo viewNet offset idxs shape = .ok s →
      ∀ j, j ∉ idxs → s[j]? = shape[j]? := by
  intro idxs
  induction idxs with
  | nil => intro shape s h j _; simp [moveGeometryPoints] at h; rw [h]
  | cons i rest ih =>
    intro shape s h j hj
    rw [moveGeometryPoints] at h
    cases hi : shape[i]? with
    | none => rw [hi] at h; simp at h
    | some p =>
      rw [hi] at h
      by_cases hp : p = geo.INVALID
      · simp [hp] at h
      · simp only [ne_eq, hp, not_false_eq_true, if_true] at h
        have hji : i ≠ j := fun e => hj (by simp [e])
        have hjr : j ∉ rest := fun e => hj (by simp [e])
        rw [ih _ _ h j hjr, List.getElem?_set_ne hji]

theorem moveGeometryPoints_of_invalid (geo : Geometry) (viewNet : GNEViewNet)
    (offset : GNEMoveOffset) :
    ∀ (idxs : List Nat) (shape : PositionVector), idxs.Nodup →
      (∀ i ∈ idxs, i < shape.length) → (∃ i ∈ idxs, shape[i]? = some geo.INVALID) →
      moveGeometryPoints geo viewNet offset idxs shape = .error invalidPositionError := by
  intro idxs
  induction idxs with
  | nil => intro shape _ _ h; simp at h
  | cons i rest ih =>
    intro shape hnd hb hex
    rw [moveGeometryPoints]
    have hil : i < shape.length := hb i (by simp)
    rw [List.getElem?_eq_getElem hil]
    by_cases hp : shape[i] = geo.INVALID
    · simp [hp]
    · simp only [ne_eq, hp, not_false_eq_true, if_true]
      have hnd' := List.nodup_cons.mp hnd
      apply ih _ hnd'.2
      · intro j hj; rw [List.length_set]; exact hb j (by simp [hj])
      · obtain ⟨j, hj, hinv⟩ := hex
        rcases List.mem_cons.mp hj with rfl | hjr
        · rw [List.getElem?_eq_getElem hil] at hinv
          exact absurd (Option.some.inj hinv) hp
        · refine ⟨j, hjr, ?_⟩
          have hne : i ≠ j := fun e => hnd'.1 (e ▸ hjr)
          rw [List.getElem?_set_ne hne]; exact hinv

theorem moveGeometryPoints_of_valid (geo : Geometry) (viewNet : GNEViewNet)
    (offset : GNEMoveOffset) :
    ∀ (idxs : List Nat) (shape : PositionVector), idxs.Nodup →
      (∀ i ∈ idxs, i < shape.length) → (∀ i ∈ idxs, shape[i]? ≠ some geo.INVALID) →
      ∃ s, moveGeometryPoints geo viewNet offset idxs shape = .ok s := by
  intro idxs
  induction idxs with
  | nil => intro shape _ _ _; exact ⟨shape, by simp [moveGeometryPoints]⟩
  | cons i rest ih =>
    intro shape hnd hb hv
    rw [moveGeometryPoints]
    have hil : i < shape.length := hb i (by simp)
    rw [List.getElem?_eq_getElem hil]
    have hp : shape[i] ≠ geo.INVALID := by
      intro e
      exact hv i (by simp) (by rw [List.getElem?_eq_getElem hil, e])
    simp only [ne_eq, hp, not_false_eq_true, if_true]
    have hnd' := List.nodup_cons.mp hnd
    apply ih _ hnd'.2
    · intro j hj; rw [List.length_set]; exact hb j (by simp [hj])
    · intro j hj
      have hne : i ≠ j := fun e => hnd'.1 (e ▸ hj)
      rw [List.getElem?_set_ne hne]; exact hv j (by simp [hj])

/-! ## The branches of `moveElement` and `commitMove` -/

theorem moveElement_geometryPoints (geo : Geometry) (viewNet : GNEViewNet)
    (op : GNEMoveOperation) (offset : GNEMoveOffset)
    (hlane : op.lane = none) (hne : op.geometryPointsToMove ≠ []) :
    moveElement geo viewNet op offset =
      match moveGeometryPoints geo viewNet offset op.geometryPointsToMove op.shapeToMove with
      | .ok shapeToUpdate =>
        { calls := [.setMoveShape { shapeToUpdate := shapeToUpdate,
                                    geometryPointsToMove := op.geometryPointsToMove }],
          thrown := none, operation := op }
      | .error e => { calls := [], thrown := some e, operation := op } := by
  simp [moveElement, hlane, hne]

theorem moveElement_entireShape (geo : Geometry) (viewNet : GNEViewNet)
    (op : GNEMoveOperation) (offset : GNEMoveOffset)
    (hlane : op.lane = none) (hempty : op.geometryPointsToMove = []) :
    moveElement geo viewNet op offset =
      match moveEntireShape geo viewNet offset op.shapeToMove with
      | .ok shapeToUpdate =>
        { calls := [.setMoveShape { shapeToUpdate := shapeToUpdate,
                                    geometryPointsToMove := [] }],
          thrown := none, operation := op }
      | .error e => { calls := [], thrown := some e, operation := op } := by
  simp [moveElement, hlane, hempty]

theorem commitMove_geometryPoints (geo : Geometry) (viewNet : GNEViewNet)
    (op : GNEMoveOperation) (offset : GNEMoveOffset) (undoList : GNEUndoList)
    (hlane : op.lane = none) (hne : op.geometryPointsToMove ≠ []) :
    commitMove geo viewNet op offset undoList =
      match moveGeometryPoints geo viewNet offset op.geometryPointsToMove op.shapeToMove with
      | .ok shapeToUpdate =>
        { calls := [.setMoveShape { shapeToUpdate := op.originalShape,
                                    geometryPointsToMove := op.originalGeometryPoints },
                    .commitMoveShape
                      { shapeToUpdate :=
                          if shapeToUpdate.length > 2 then geo.removeDoublePoints 2 shapeToUpdate
                          else shapeToUpdate,
                        geometryPointsToMove := op.geometryPointsToMove } undoList],
          thrown := none, operation := op }
      | .error e =>
        { calls := [.setMoveShape { shapeToUpdate := op.originalShape,
                                    geometryPointsToMove := op.originalGeometryPoints }],
          thrown := some e, operation := op } := by
  simp [commitMove, hlane, hne]

theorem commitMove_entireShape (geo : Geometry) (viewNet : GNEViewNet)
    (op : GNEMoveOperation) (offset : GNEMoveOffset) (undoList : GNEUndoList)
    (hlane : op.lane = none) (hempty : op.geometryPointsToMove = []) :
    commitMove geo viewNet op offset undoList =
      match moveEntireShape geo viewNet offset op.shapeToMove with
      | .ok shapeToUpdate =>
        { calls := [.setMoveShape { shapeToUpdate := op.originalShape,
                                    geometryPointsToMove := op.originalGeometryPoints },
                    .commitMoveShape { shapeToUpdate := shapeToUpdate,
                                       geometryPointsToMove := [] } undoList],
          thrown := none, operation := op }
      | .error e =>
        { calls := [.setMoveShape { shapeToUpdate := op.originalShape,
                                    geometryPointsToMove := op.originalGeometryPoints }],
          thrown := some e, operation := op } := by
  simp [commitMove, hlane, hempty]

theorem moveElement_lane (geo : Geometry) (viewNet : GNEViewNet)
    (op : GNEMoveOperation) (offset : GNEMoveOffset) (lane : GNELane)
    (hlane : op.lane = some lane) :
    moveElement geo viewNet op offset =
      { calls := [.setMoveShape
          (calculateNewLane
            (calculateMovementOverLane { geometryPointsToMove := op.geometryPointsToMove }
              geo viewNet op offset) geo viewNet op)],
        thrown := none, operation := op } := by
  simp [moveElement, hlane]

theorem commitMove_lane (geo : Geometry) (viewNet : GNEViewNet)
    (op : GNEMoveOperation) (offset : GNEMoveOffset) (undoList : GNEUndoList) (lane : GNELane)
    (hlane : op.lane = some lane) :
    commitMove geo viewNet op offset undoList =
      { calls := [.setMoveShape
            { shapeToUpdate := op.originalPosOverLanes.map (fun pos => Position.mk2 pos 0),
              geometryPointsToMove := op.geometryPointsToMove },
          .commitMoveShape
            (calculateNewLane
              (calculateMovementOverLane
                { shapeToUpdate := op.originalPosOverLanes.map (fun pos => Position.mk2 pos 0),
                  geometryPointsToMove := op.geometryPointsToMove }
                geo viewNet op offset) geo viewNet op) undoList],
        thrown := none, operation := op } := by
  simp [commitMove, hlane]

/-! ## Free shapes: locality, rigid translation, invalid points -/

/-- C1 (locality of a move of selected geometry points, preview). For an operation without lane
whose non-empty `geometryPointsToMove` are in-bounds indices of `shapeToMove` selecting no
invalid point, for every offset and every view (hence every grid-snap function): every shape
that `moveElement` passes to `setMoveShape` has as many points as `shapeToMove` and agrees with
`shapeToMove` at every index that is not in `geometryPointsToMove`; and when the indices are
pairwise distinct, `moveElement` does pass such a shape. -/
theorem C1_move_locality (geo : Geometry) (viewNet : GNEViewNet) (op : GNEMoveOperation)
    (offset : GNEMoveOffset)
    (hlane : op.lane = none) (hne : op.geometryPointsToMove ≠ [])
    (hbound : ∀ i ∈ op.geometryPointsToMove, i < op.shapeToMove.length)
    (hvalid : ∀ i ∈ op.geometryPointsToMove, op.shapeToMove[i]? ≠ some geo.INVALID) :
    (∀ r, Callback.setMoveShape r ∈ (moveElement geo viewNet op offset).calls →
        r.shapeToUpdate.length = op.shapeToMove.length ∧
        ∀ i, i ∉ op.geometryPointsToMove → r.shapeToUpdate[i]? = op.shapeToMove[i]?) ∧
    (op.geometryPointsToMove.Nodup →
      ∃ r, (moveElement geo viewNet op offset).calls = [Callback.setMoveShape r]) := by
  rw [moveElement_geometryPoints geo viewNet op offset hlane hne]
  constructor
  · intro r hr
    cases hm : moveGeometryPoints geo viewNet offset op.geometryPointsToMove op.shapeToMove with
    | error e => rw [hm] at hr; simp at hr
    | ok s =>
      rw [hm] at hr
      simp only [List.mem_singleton, Callback.setMoveShape.injEq] at hr
      subst hr
      exact ⟨moveGeometryPoints_length geo viewNet offset _ _ _ hm,
        moveGeometryPoints_frame geo viewNet offset _ _ _ hm⟩
  · intro hnd
    obtain ⟨s, hs⟩ := moveGeometryPoints_of_valid geo viewNet offset _ _ hnd hbound hvalid
    rw [hs]
    exact ⟨_, rfl⟩

/-- Witness of C1: moving the second and third point of a square by `(1, 1)`. -/
theorem C1_move_locality_witness :
    Scene.moveTwoPoints.lane = none ∧ Scene.moveTwoPoints.geometryPointsToMove ≠ [] ∧
    (∃ r, (moveElement Scene.geometry (Scene.view ⟨0, 0, 0⟩) Scene.moveTwoPoints
        (GNEMoveOffset.planar 1 1)).calls = [Callback.setMoveShape r]) :=
  ⟨rfl, by simp [Scene.moveTwoPoints, GNEMoveOperation.ofGeometryPoints],
    (C1_move_locality Scene.geometry (Scene.view ⟨0, 0, 0⟩) Scene.moveTwoPoints
      (GNEMoveOffset.planar 1 1) rfl
      (by simp [Scene.moveTwoPoints, GNEMoveOperation.ofGeometryPoints])
      (by simp [Scene.moveTwoPoints, GNEMoveOperation.ofGeometryPoints, Scene.square])
      (by simp [Scene.moveTwoPoints, GNEMoveOperation.ofGeometryPoints, Scene.square,
            Scene.geometry])).2
      (by simp [Scene.moveTwoPoints, GNEMoveOperation.ofGeometryPoints])⟩

/-- The double next above 2 is `2 + 2^-51`: the sum `2 + 2^-52` lies half way and is rounded to
the even neighbour, 2. -/
theorem roundToDouble_two_add_half_ulp : roundToDouble (2 + 1 / 2 ^ 52) = 2 := by
  rw [roundToDouble_eq (2 + 1 / 2 ^ 52) (1 / 2 ^ 51) 1 (2 ^ 52) (by norm_num)
    (by norm_num [abs_of_pos]) (by norm_num [abs_of_pos])
    (by rw [roundHalfEven_tie _ (2 ^ 52) (by norm_num)]; norm_num)]
  norm_num

/-- C2, counterexample (rigid translation as stated). The points `(1, 0, 0)` and
`(1 + 2^-52, 0, 0)`, both valid, are moved as a whole shape by the offset `(1, 0)` without grid
snapping. In binary64 both sums are 2: `moveElement` hands over two equal points, so the
difference vector (and the squared distance) of the two consecutive points is no longer that of
`shapeToMove`. -/
theorem C2_rigid_translation_counterexample :
    Scene.moveAdjacentPoints.lane = none ∧
    Scene.moveAdjacentPoints.geometryPointsToMove = [] ∧
    Scene.moveAdjacentPoints.shapeToMove = [⟨1, 0, 0⟩, ⟨1 + 1 / 2 ^ 52, 0, 0⟩] ∧
    Scene.geometry.INVALID ∉ Scene.moveAdjacentPoints.shapeToMove ∧
    (moveElement Scene.geometry (Scene.view ⟨0, 0, 0⟩) Scene.moveAdjacentPoints
      (GNEMoveOffset.planar 1 0)).calls =
      [Callback.setMoveShape { shapeToUpdate := [⟨2, 0, 0⟩, ⟨2, 0, 0⟩] }] ∧
    Position.sub ⟨2, 0, 0⟩ ⟨2, 0, 0⟩ ≠ Position.sub ⟨1 + 1 / 2 ^ 52, 0, 0⟩ ⟨1, 0, 0⟩ ∧
    Position.distanceSquaredTo ⟨2, 0, 0⟩ ⟨2, 0, 0⟩ ≠
      Position.distanceSquaredTo ⟨1, 0, 0⟩ ⟨1 + 1 / 2 ^ 52, 0, 0⟩ := by
  have h := roundToDouble_two_add_half_ulp
  norm_num at h
  refine ⟨rfl, rfl, rfl, ?_, ?_, ?_, ?_⟩
  · norm_num [Scene.moveAdjacentPoints, GNEMoveOperation.ofShape, Scene.adjacentPoints,
      Scene.geometry]
  · norm_num [moveElement, moveEntireShape, Scene.moveAdjacentPoints,
      GNEMoveOperation.ofShape, Scene.adjacentPoints, Scene.geometry, Scene.view,
      GNEMoveOffset.planar, Position.add, h]
  · norm_num [Position.sub]
  · norm_num [Position.distanceSquaredTo]

/-- C2, as amended (translation of a whole shape). For an operation without lane, with empty
`geometryPointsToMove` and no invalid point in `shapeToMove`, for every offset, when grid
snapping is the identity: `moveElement` passes to `setMoveShape` a shape of the same length as
`shapeToMove` whose i-th point is `shapeToMove[i] + (offset.x, offset.y, offset.z)`, each
coordinate being a `double` sum (rounded); and whenever the sums of two consecutive points are
exact (not rounded), the difference vector and the squared distance of these two points are
those of `shapeToMove`. -/
theorem C2_rigid_translation (geo : Geometry) (viewNet : GNEViewNet) (op : GNEMoveOperation)
    (offset : GNEMoveOffset)
    (hlane : op.lane = none) (hempty : op.geometryPointsToMove = [])
    (hvalid : geo.INVALID ∉ op.shapeToMove)
    (hsnap : ∀ p, viewNet.snapToActiveGrid p = p) :
    ∃ r, (moveElement geo viewNet op offset).calls = [Callback.setMoveShape r] ∧
      r.shapeToUpdate.length = op.shapeToMove.length ∧
      (∀ i : Nat, r.shapeToUpdate[i]? =
        (op.shapeToMove[i]?).map
          (fun p : Position => p.add geo.round offset.x offset.y offset.z)) ∧
      ∀ i p q p' q', op.shapeToMove[i]? = some p → op.shapeToMove[i + 1]? = some q →
        r.shapeToUpdate[i]? = some p' → r.shapeToUpdate[i + 1]? = some q' →
        p.add geo.round offset.x offset.y offset.z =
          ⟨p.x + offset.x, p.y + offset.y, p.z + offset.z⟩ →
        q.add geo.round offset.x offset.y offset.z =
          ⟨q.x + offset.x, q.y + offset.y, q.z + offset.z⟩ →
        q'.sub p' = q.sub p ∧ p'.distanceSquaredTo q' = p.distanceSquaredTo q := by
  rw [moveElement_entireShape geo viewNet op offset hlane hempty, moveEntireShape_eq]
  simp only [hvalid, if_false]
  have hmap : List.map (offsetAndSnap geo viewNet offset) op.shapeToMove =
      List.map (fun p => p.add geo.round offset.x offset.y offset.z) op.shapeToMove := by
    apply List.map_congr_left
    intro p _
    exact hsnap _
  have hget : ∀ i : Nat, (List.map (offsetAndSnap geo viewNet offset) op.shapeToMove)[i]? =
      (op.shapeToMove[i]?).map
        (fun p : Position => p.add geo.round offset.x offset.y offset.z) := by
    intro i; rw [hmap, List.getElem?_map]
  refine ⟨_, rfl, by simp, hget, ?_⟩
  intro i p q p' q' hp hq hp' hq' hpe hqe
  simp only at hp' hq'
  rw [hget, hp] at hp'
  rw [hget, hq] at hq'
  simp only [Option.map_some', Option.some.injEq] at hp' hq'
  rw [hpe] at hp'
  rw [hqe] at hq'
  subst hp' hq'
  constructor
  · simp [Position.sub]
  · simp [Position.distanceSquaredTo]

/-- Witness of C2 as amended: translating a square by `(1, 1)` in a view without grid; the
sums are exact and the second point `(10, 0, 0)` becomes `(11, 1, 0)`. -/
theorem C2_rigid_translation_witness :
    Scene.moveSquare.lane = none ∧ Scene.moveSquare.geometryPointsToMove = [] ∧
    (∃ r, (moveElement Scene.geometry (Scene.view ⟨0, 0, 0⟩) Scene.moveSquare
        (GNEMoveOffset.planar 1 1)).calls = [Callback.setMoveShape r] ∧
      r.shapeToUpdate.length = Scene.moveSquare.shapeToMove.length ∧
      r.shapeToUpdate[1]? = some ⟨11, 1, 0⟩) := by
  obtain ⟨r, hr, hlen, hget, _⟩ := C2_rigid_translation Scene.geometry (Scene.view ⟨0, 0, 0⟩)
    Scene.moveSquare (GNEMoveOffset.planar 1 1) rfl rfl
    (by simp [Scene.moveSquare, GNEMoveOperation.ofShape, Scene.square, Scene.geometry])
    (fun _ => rfl)
  refine ⟨rfl, rfl, r, hr, hlen, ?_⟩
  rw [hget 1]
  norm_num [Scene.moveSquare, GNEMoveOperation.ofShape, Scene.square, Scene.geometry,
    GNEMoveOffset.planar, Position.add]

/-- The loop over selected points fails, with the error of an invalid position, exactly when
a selected point is invalid (pairwise distinct in-bounds indices). -/
theorem moveGeometryPoints_cases (geo : Geometry) (viewNet : GNEViewNet)
    (offset : GNEMoveOffset) (idxs : List Nat) (shape : PositionVector) (hnd : idxs.Nodup)
    (hb : ∀ i ∈ idxs, i < shape.length) :
    ((∃ i ∈ idxs, shape[i]? = some geo.INVALID) ∧
        moveGeometryPoints geo viewNet offset idxs shape = .error invalidPositionError) ∨
    ((¬ ∃ i ∈ idxs, shape[i]? = some geo.INVALID) ∧
        ∃ s, moveGeometryPoints geo viewNet offset idxs shape = .ok s) := by
  by_cases hex : ∃ i ∈ idxs, shape[i]? = some geo.INVALID
  · exact Or.inl ⟨hex, moveGeometryPoints_of_invalid geo viewNet offset idxs shape hnd hb hex⟩
  · refine Or.inr ⟨hex, moveGeometryPoints_of_valid geo viewNet offset idxs shape hnd hb ?_⟩
    intro i hi h
    exact hex ⟨i, hi, h⟩

/-- C3 (an invalid point raises, in both steps). For an operation without lane whose
`geometryPointsToMove` are pairwise distinct in-bounds indices (both hold trivially for a move
of the whole shape), `moveElement` and `commitMove` each throw the `ProcessError` "trying to
move an invalid position" if and only if a point about to be offset is `Position::INVALID`
(whole shape: some point of `shapeToMove`; selected points: a point at a selected index), and
each returns normally if and only if there is no such point; so an invalid point at a
non-selected index causes no failure. -/
theorem C3_invalid_point_raises (geo : Geometry) (viewNet : GNEViewNet)
    (op : GNEMoveOperation) (offset : GNEMoveOffset) (undoList : GNEUndoList)
    (hlane : op.lane = none) (hnd : op.geometryPointsToMove.Nodup)
    (hbound : ∀ i ∈ op.geometryPointsToMove, i < op.shapeToMove.length) :
    ((moveElement geo viewNet op offset).thrown =
        some (MoveError.ProcessError "trying to move an invalid position") ↔
      offsetsInvalidPoint geo op) ∧
    ((moveElement geo viewNet op offset).thrown = none ↔ ¬ offsetsInvalidPoint geo op) ∧
    ((commitMove geo viewNet op offset undoList).thrown =
        some (MoveError.ProcessError "trying to move an invalid position") ↔
      offsetsInvalidPoint geo op) ∧
    ((commitMove geo viewNet op offset undoList).thrown = none ↔
      ¬ offsetsInvalidPoint geo op) := by
  by_cases hempty : op.geometryPointsToMove = []
  · rw [moveElement_entireShape geo viewNet op offset hlane hempty,
      commitMove_entireShape geo viewNet op offset undoList hlane hempty, moveEntireShape_eq]
    by_cases hin : geo.INVALID ∈ op.shapeToMove
    · simp [offsetsInvalidPoint, hempty, hin, invalidPositionError]
    · simp [offsetsInvalidPoint, hempty, hin]
  · rw [moveElement_geometryPoints geo viewNet op offset hlane hempty,
      commitMove_geometryPoints geo viewNet op offset undoList hlane hempty]
    rcases moveGeometryPoints_cases geo viewNet offset _ _ hnd hbound with ⟨hex, hm⟩ | ⟨hex, s, hm⟩
    · have hoff : offsetsInvalidPoint geo op := Or.inr hex
      rw [hm]
      simp [hoff, invalidPositionError]
    · have hoff : ¬ offsetsInvalidPoint geo op := by
        rintro (⟨he, _⟩ | h)
        · exact hempty he
        · exact hex h
      rw [hm]
      simp [hoff]

/-- Witness of C3: an invalid point at a non-selected index; the preview returns normally. -/
theorem C3_invalid_point_raises_witness :
    Scene.moveBesideInvalid.lane = none ∧ Scene.moveBesideInvalid.geometryPointsToMove.Nodup ∧
    (moveElement Scene.geometry (Scene.view ⟨0, 0, 0⟩) Scene.moveBesideInvalid
      (GNEMoveOffset.planar 1 1)).thrown = none :=
  ⟨rfl, by simp [Scene.moveBesideInvalid, GNEMoveOperation.ofGeometryPoints],
    (C3_invalid_point_raises Scene.geometry (Scene.view ⟨0, 0, 0⟩) Scene.moveBesideInvalid
      (GNEMoveOffset.planar 1 1) ⟨0⟩ rfl
      (by simp [Scene.moveBesideInvalid, GNEMoveOperation.ofGeometryPoints])
      (by simp [Scene.moveBesideInvalid, GNEMoveOperation.ofGeometryPoints])).2.1.mpr
      (by simp [offsetsInvalidPoint, Scene.moveBesideInvalid,
            GNEMoveOperation.ofGeometryPoints, Scene.geometry])⟩

/-! ## Commit determinism -/

theorem moveElement_committedResults (geo : Geometry) (viewNet : GNEViewNet)
    (op : GNEMoveOperation) (offset : GNEMoveOffset) :
    committedResults (moveElement geo viewNet op offset).calls = [] := by
  unfold moveElement
  simp only
  split
  · rfl
  · split
    · split <;> rfl
    · split <;> rfl

/-- The step `moveElementOn` makes the callbacks of `moveElement` on the element, and leaves the
operation. -/
theorem moveElementOn_eq {σ : Type} (element : GNEMoveElement σ) (geo : Geometry)
    (viewNet : GNEViewNet) (offset : GNEMoveOffset) (memory : Memory σ) :
    moveElementOn element geo viewNet offset memory =
      { memory :=
          { operation := memory.operation
            element := applyCalls element
              (moveElement geo viewNet memory.operation offset).calls memory.element }
        calls := (moveElement geo viewNet memory.operation offset).calls
        thrown := (moveElement geo viewNet memory.operation offset).thrown } := by
  unfold moveElementOn moveElement
  simp only
  split
  · rfl
  · split
    · split <;> rfl
    · split <;> rfl

/-- The step `commitMoveOn` makes the callbacks of `commitMove` on the element, and leaves the
operation. -/
theorem commitMoveOn_eq {σ : Type} (element : GNEMoveElement σ) (geo : Geometry)
    (viewNet : GNEViewNet) (offset : GNEMoveOffset) (undoList : GNEUndoList)
    (memory : Memory σ) :
    commitMoveOn element geo viewNet offset undoList memory =
      { memory :=
          { operation := memory.operation
            element := applyCalls element
              (commitMove geo viewNet memory.operation offset undoList).calls memory.element }
        calls := (commitMove geo viewNet memory.operation offset undoList).calls
        thrown := (commitMove geo viewNet memory.operation offset undoList).thrown } := by
  unfold commitMoveOn commitMove
  simp only
  split
  · rfl
  · split
    · split <;> rfl
    · split <;> rfl

theorem runPreviewsOn_operation {σ : Type} (element : GNEMoveElement σ) (geo : Geometry)
    (previews : List (GNEViewNet × GNEMoveOffset)) :
    ∀ memory : Memory σ,
      (runPreviewsOn element geo previews memory).operation = memory.operation := by
  induction previews with
  | nil => intro memory; rfl
  | cons step rest ih =>
    intro memory
    obtain ⟨viewNet, offset⟩ := step
    rw [runPreviewsOn, ih, moveElementOn_eq]

/-- C4 (commit determinism). The two steps are run on a memory that holds the operation and the
state of the moved element, which the callbacks (arbitrary methods of the element) change. For
two memories that hold the same operation, whatever the states of the element in them,
`commitMove` makes the same callbacks with the same move results (in particular the same
result goes to `commitMoveShape`) and ends in the same way: the state of the element, hence its
previewed shape, is not read. A call of `moveElement` or `commitMove` leaves the operation as
it was, and `moveElement` never calls `commitMoveShape`. Hence after any sequence of previews
(each with its own view and offset) `commitMove` makes the callbacks, and passes the result, of
a `commitMove` that no preview precedes. -/
theorem C4_commit_determinism {σ : Type} (element : GNEMoveElement σ) (geo : Geometry)
    (previews : List (GNEViewNet × GNEMoveOffset)) (viewNet : GNEViewNet)
    (offset : GNEMoveOffset) (undoList : GNEUndoList) (memory other : Memory σ)
    (hop : other.operation = memory.operation) :
    (commitMoveOn element geo viewNet offset undoList other).calls =
        (commitMoveOn element geo viewNet offset undoList memory).calls ∧
    (commitMoveOn element geo viewNet offset undoList other).thrown =
        (commitMoveOn element geo viewNet offset undoList memory).thrown ∧
    (∀ previewView previewOffset,
      (moveElementOn element geo previewView previewOffset memory).memory.operation =
          memory.operation ∧
      committedResults (moveElementOn element geo previewView previewOffset memory).calls =
          []) ∧
    (commitMoveOn element geo viewNet offset undoList memory).memory.operation =
        memory.operation ∧
    (runPreviewsOn element geo previews memory).operation = memory.operation ∧
    (commitMoveOn element geo viewNet offset undoList
        (runPreviewsOn element geo previews memory)).calls =
      (commitMoveOn element geo viewNet offset undoList memory).calls ∧
    (commitMoveOn element geo viewNet offset undoList
        (runPreviewsOn element geo previews memory)).thrown =
      (commitMoveOn element geo viewNet offset undoList memory).thrown := by
  have hrun := runPreviewsOn_operation element geo previews memory
  refine ⟨?_, ?_, ?_, ?_, hrun, ?_, ?_⟩
  · rw [commitMoveOn_eq, commitMoveOn_eq, hop]
  · rw [commitMoveOn_eq, commitMoveOn_eq, hop]
  · intro previewView previewOffset
    rw [moveElementOn_eq]
    exact ⟨rfl, moveElement_committedResults geo previewView memory.operation previewOffset⟩
  · rw [commitMoveOn_eq]
  · rw [commitMoveOn_eq, commitMoveOn_eq, hrun]
  · rw [commitMoveOn_eq, commitMoveOn_eq, hrun]

/-- Witness of C4: an element that displays the last shape it was given. After a preview by
`(1, 1)` it displays another shape than before, the operation is the same, and the commit by
`(5, 0)` makes the same callbacks from both memories. -/
theorem C4_commit_determinism_witness :
    (moveElementOn Scene.displayElement Scene.geometry (Scene.view ⟨0, 0, 0⟩)
      (GNEMoveOffset.planar 1 1) Scene.squareMemory).memory.operation =
      Scene.squareMemory.operation ∧
    (moveElementOn Scene.displayElement Scene.geometry (Scene.view ⟨0, 0, 0⟩)
      (GNEMoveOffset.planar 1 1) Scene.squareMemory).memory.element =
      ([⟨1, 1, 0⟩, ⟨11, 1, 0⟩, ⟨11, 11, 0⟩, ⟨1, 11, 0⟩], 0) ∧
    Scene.squareMemory.element = (Scene.square, 0) ∧
    (commitMoveOn Scene.displayElement Scene.geometry (Scene.view ⟨0, 0, 0⟩)
      (GNEMoveOffset.planar 5 0) ⟨0⟩
      (moveElementOn Scene.displayElement Scene.geometry (Scene.view ⟨0, 0, 0⟩)
        (GNEMoveOffset.planar 1 1) Scene.squareMemory).memory).calls =
    (commitMoveOn Scene.displayElement Scene.geometry (Scene.view ⟨0, 0, 0⟩)
      (GNEMoveOffset.planar 5 0) ⟨0⟩ Scene.squareMemory).calls := by
  have hop : (moveElementOn Scene.displayElement Scene.geometry (Scene.view ⟨0, 0, 0⟩)
      (GNEMoveOffset.planar 1 1) Scene.squareMemory).memory.operation =
      Scene.squareMemory.operation := by
    rw [moveElementOn_eq]
  refine ⟨hop, ?_, rfl,
    (C4_commit_determinism Scene.displayElement Scene.geometry [] (Scene.view ⟨0, 0, 0⟩)
      (GNEMoveOffset.planar 5 0) ⟨0⟩ Scene.squareMemory _ hop).1⟩
  norm_num [moveElementOn, moveEntireShape, Scene.squareMemory, Scene.moveSquare,
    GNEMoveOperation.ofShape, Scene.square, Scene.geometry, Scene.view, Scene.displayElement,
    GNEMoveOffset.planar, Position.add]

/-! ## Movement over a lane -/

theorem calculateMovementOverLane_shape (moveResult : GNEMoveResult) (geo : Geometry)
    (viewNet : GNEViewNet) (op : GNEMoveOperation) (offset : GNEMoveOffset) (lane : GNELane)
    (hlane : op.lane = some lane) :
    calculateMovementOverLane moveResult geo viewNet op offset =
      { moveResult with
        shapeToUpdate := op.originalPosOverLanes.map
          (fun pos => Position.mk2
            (geo.round (pos - posOverLaneOffset geo viewNet lane op offset)) 0) } := by
  simp [calculateMovementOverLane, hlane]

theorem headD_of_head? {l : List ℚ} {a : ℚ} (h : l.head? = some a) : l.headD 0 = a := by
  cases l with
  | nil => simp at h
  | cons b t => simp at h; simp [h]

theorem getLastD_of_getLast? {l : List ℚ} {a : ℚ} (h : l.getLast? = some a) :
    l.getLastD 0 = a := by
  rw [List.getLastD_eq_getLast?, h]; rfl

/-- The shift computed by the source is the shift worded in the specification. -/
theorem posOverLaneOffset_eq (geo : Geometry) (viewNet : GNEViewNet) (op : GNEMoveOperation)
    (offset : GNEMoveOffset) (lane : GNELane) (front back : ℚ)
    (hfront : op.originalPosOverLanes.head? = some front)
    (hback : op.originalPosOverLanes.getLast? = some back) :
    posOverLaneOffset geo viewNet lane op offset =
      shiftPrecedence geo.round front back (laneLength geo lane)
        (perpendicularProjection geo lane (snappedTarget geo viewNet lane front back offset))
        (geo.nearest_offset_to_point2D lane
          (snappedTarget geo viewNet lane front back offset) false) := by
  simp only [posOverLaneOffset, shiftPrecedence, centralPosition, halfSpan,
    perpendicularProjection, snappedTarget, laneLength, headD_of_head? hfront,
    getLastD_of_getLast? hback, mul_one_div]
  split <;> rfl

/-- The three possible values of the shift, when the operations that lead to it are exact. -/
theorem shiftPrecedence_cases (round : ℚ → ℚ) (front back L : ℚ) (perp : Option ℚ)
    (nonPerp : ℚ) (hfb : front ≤ back)
    (hcentre : centralPosition round front back = (front + back) / 2)
    (hhalf : halfSpan round front back = |back - front| / 2)
    (hpin : round (back - L) = back - L)
    (htest : ∀ p, perp = some p →
      round (p - halfSpan round front back) = p - halfSpan round front back ∧
      round (p + halfSpan round front back) = p + halfSpan round front back ∧
      round (centralPosition round front back - p) = centralPosition round front back - p) :
    shiftPrecedence round front back L perp nonPerp = front ∨
    shiftPrecedence round front back L perp nonPerp = back - L ∨
    ∃ p, perp = some p ∧ 0 ≤ p - (back - front) / 2 ∧ p + (back - front) / 2 ≤ L ∧
      shiftPrecedence round front back L perp nonPerp = (front + back) / 2 - p := by
  have habs : |back - front| = back - front := abs_of_nonneg (by linarith)
  cases perp with
  | none =>
    simp only [shiftPrecedence, hpin]
    by_cases h0 : nonPerp = 0
    · left; simp [h0]
    · right; left; simp [h0]
  | some p =>
    obtain ⟨h1, h2, h3⟩ := htest p rfl
    rw [hhalf, habs] at h1 h2
    rw [hcentre] at h3
    simp only [shiftPrecedence, hpin, hcentre, hhalf, habs, h1, h2, h3]
    by_cases hlow : p - (back - front) / 2 < 0
    · left; simp [hlow]
    · by_cases hhigh : p + (back - front) / 2 > L
      · right; left; simp [hlow, hhigh]
      · right; right
        exact ⟨p, rfl, not_lt.mp hlow, not_lt.mp hhigh, by simp [hlow, hhigh]⟩

theorem mem_of_head? {l : List ℚ} {front : ℚ} (hfront : l.head? = some front) :
    front ∈ l := by
  cases l with
  | nil => simp at hfront
  | cons b t => simp at hfront; simp [hfront]

theorem mem_of_getLast? {l : List ℚ} {back : ℚ} (hback : l.getLast? = some back) :
    back ∈ l :=
  List.mem_of_getLast?_eq_some hback

/-- Bounds of the exact differences `pos - shift` under the conditions on the span. -/
theorem moved_positions_bounds (round : ℚ → ℚ) (front back L : ℚ) (perp : Option ℚ)
    (nonPerp pos : ℚ) (hf : front ≤ pos) (hb : pos ≤ back) (hspan : back - front ≤ L)
    (hcentre : centralPosition round front back = (front + back) / 2)
    (hhalf : halfSpan round front back = |back - front| / 2)
    (hpin : round (back - L) = back - L)
    (htest : ∀ p, perp = some p →
      round (p - halfSpan round front back) = p - halfSpan round front back ∧
      round (p + halfSpan round front back) = p + halfSpan round front back ∧
      round (centralPosition round front back - p) = centralPosition round front back - p) :
    0 ≤ pos - shiftPrecedence round front back L perp nonPerp ∧
    pos - shiftPrecedence round front back L perp nonPerp ≤ L := by
  rcases shiftPrecedence_cases round front back L perp nonPerp (le_trans hf hb) hcentre hhalf
    hpin htest with h | h | ⟨p, _, h1, h2, h⟩
  · rw [h]; constructor <;> linarith
  · rw [h]; constructor <;> linarith
  · rw [h]; constructor <;> linarith

/-- The shape produced when no operation is rounded: every position lies in `[0, L]`. -/
theorem exact_movement_bounds (moveResult : GNEMoveResult) (geo : Geometry)
    (viewNet : GNEViewNet) (op : GNEMoveOperation) (offset : GNEMoveOffset) (lane : GNELane)
    (front back : ℚ)
    (hlane : op.lane = some lane)
    (hfront : op.originalPosOverLanes.head? = some front)
    (hback : op.originalPosOverLanes.getLast? = some back)
    (hbetween : ∀ pos ∈ op.originalPosOverLanes, front ≤ pos ∧ pos ≤ back)
    (hspan : back - front ≤ laneLength geo lane)
    (hexact : movementIsExact geo viewNet lane op offset front back) :
    ∀ pt ∈ (calculateMovementOverLane moveResult geo viewNet op offset).shapeToUpdate,
      0 ≤ pt.x ∧ pt.x ≤ laneLength geo lane := by
  obtain ⟨hcentre, hhalf, hpin, htest, hres⟩ := hexact
  rw [calculateMovementOverLane_shape moveResult geo viewNet op offset lane hlane]
  intro pt hpt
  simp only [List.mem_map] at hpt
  obtain ⟨pos, hpos, rfl⟩ := hpt
  have hb := hbetween pos hpos
  simp only [Position.mk2, hres pos hpos]
  rw [posOverLaneOffset_eq geo viewNet op offset lane front back hfront hback]
  exact moved_positions_bounds geo.round front back _ _ _ pos hb.1 hb.2 hspan hcentre hhalf
    hpin htest

/-! ### Three moves in binary64 -/

/-- The sum `4 + 2^-51` lies half way between the doubles `4` and `4 + 2^-50`. -/
theorem roundToDouble_four_add_half_ulp : roundToDouble (4 + 1 / 2 ^ 51) = 4 := by
  rw [roundToDouble_eq (4 + 1 / 2 ^ 51) (1 / 2 ^ 50) 2 (2 ^ 52) (by norm_num)
    (by norm_num [abs_of_pos]) (by norm_num [abs_of_pos])
    (by rw [roundHalfEven_tie _ (2 ^ 52) (by norm_num)]; norm_num)]
  norm_num

/-- The span `[2, 2 + 2^-51]` moved by `(-2^-52, 0)`: the centre is 2, the projection
`2 - 2^-52`, the half-span `2^-52`, the move is not clamped and the shift is `2^-52`; the
positions produced are `2 - 2^-52` and `2`. -/
theorem tightSpan_shape :
    (calculateMovementOverLane {} Scene.geometry (Scene.view ⟨0, 0, 0⟩) Scene.tightSpan
      (GNEMoveOffset.planar (-(1 / 2 ^ 52)) 0)).shapeToUpdate =
      [⟨2 - 1 / 2 ^ 52, 0, 0⟩, ⟨2, 0, 0⟩] := by
  have h1 := roundToDouble_two_add_half_ulp
  have h2 := roundToDouble_four_add_half_ulp
  norm_num at h1 h2
  norm_num [calculateMovementOverLane, posOverLaneOffset, Scene.tightSpan,
    GNEMoveOperation.overLane, Scene.geometry, Scene.view, GNEMoveOffset.planar, Position.add,
    Position.mk2, h1, h2, abs_of_pos, abs_of_neg]

/-- The perpendicular projection in the move of `tightSpan` is `2 - 2^-52`. -/
theorem tightSpan_projection :
    perpendicularProjection Scene.geometry ⟨0⟩
      (snappedTarget Scene.geometry (Scene.view ⟨0, 0, 0⟩) ⟨0⟩ 2 (2 + 1 / 2 ^ 51)
        (GNEMoveOffset.planar (-(1 / 2 ^ 52)) 0)) = some (2 - 1 / 2 ^ 52) := by
  have h2 := roundToDouble_four_add_half_ulp
  norm_num at h2
  norm_num [perpendicularProjection, snappedTarget, centralPosition, Scene.geometry,
    Scene.view, GNEMoveOffset.planar, Position.add, h2]

/-- The sum `4 - 2^-53` is rounded to 4. -/
theorem roundToDouble_four_sub : roundToDouble (4 - 1 / 2 ^ 53) = 4 := by
  rw [roundToDouble_eq (4 - 1 / 2 ^ 53) (1 / 2 ^ 51) 1 (2 ^ 53) (by norm_num)
    (by norm_num [abs_of_pos]) (by norm_num [abs_of_pos])
    (by rw [roundHalfEven_up _ (2 ^ 53 - 1) (by norm_num) (by norm_num)]; norm_num)]
  norm_num

/-- The difference `2 + 2^-53` is rounded to 2. -/
theorem roundToDouble_two_add : roundToDouble (2 + 1 / 2 ^ 53) = 2 := by
  rw [roundToDouble_eq (2 + 1 / 2 ^ 53) (1 / 2 ^ 51) 1 (2 ^ 52) (by norm_num)
    (by norm_num [abs_of_pos]) (by norm_num [abs_of_pos])
    (roundHalfEven_down _ _ (by norm_num) (by norm_num))]
  norm_num

/-- The span `[1 - 2^-53, 3]` moved by `(-1, 0)`: the centre is rounded to 2 and the half-span
to 1, the projection is 1, the move is not clamped and the shift is 1; the positions produced
are `-2^-53` and `2`. -/
theorem spanBelowOne_shape :
    (calculateMovementOverLane {} Scene.geometry (Scene.view ⟨0, 0, 0⟩) Scene.spanBelowOne
      (GNEMoveOffset.planar (-1) 0)).shapeToUpdate =
      [⟨-(1 / 2 ^ 53), 0, 0⟩, ⟨2, 0, 0⟩] := by
  have h1 := roundToDouble_four_sub
  have h2 := roundToDouble_two_add
  norm_num at h1 h2
  norm_num [calculateMovementOverLane, posOverLaneOffset, Scene.spanBelowOne,
    GNEMoveOperation.overLane, Scene.geometry, Scene.view, GNEMoveOffset.planar, Position.add,
    Position.mk2, h1, h2, abs_of_pos, abs_of_neg]

/-- Six roundings near 64..128, where the doubles are `2^-46` apart. -/
theorem roundToDouble_near_hundred :
    roundToDouble (86 + 1 / 2 ^ 48) = 86 ∧
    roundToDouble (72 - 1 / 2 ^ 47) = 72 ∧
    roundToDouble (100 + 1 / 2 ^ 47) = 100 ∧
    roundToDouble (70 - 1 / 2 ^ 48) = 70 ∧
    roundToDouble (72 - 1 / 2 ^ 48) = 72 ∧
    roundToDouble (100 + 3 / 2 ^ 48) = 100 + 1 / 2 ^ 46 := by
  refine ⟨?_, ?_, ?_, ?_, ?_, ?_⟩
  · rw [roundToDouble_eq (86 + 1 / 2 ^ 48) (1 / 2 ^ 46) 6 (86 * 2 ^ 46) (by norm_num)
      (by norm_num [abs_of_pos]) (by norm_num [abs_of_pos])
      (roundHalfEven_down _ _ (by norm_num) (by norm_num))]
    norm_num
  · rw [roundToDouble_eq (72 - 1 / 2 ^ 47) (1 / 2 ^ 46) 6 (72 * 2 ^ 46) (by norm_num)
      (by norm_num [abs_of_pos]) (by norm_num [abs_of_pos])
      (by rw [roundHalfEven_tie _ (72 * 2 ^ 46 - 1) (by norm_num)]; norm_num)]
    norm_num
  · rw [roundToDouble_eq (100 + 1 / 2 ^ 47) (1 / 2 ^ 46) 6 (100 * 2 ^ 46) (by norm_num)
      (by norm_num [abs_of_pos]) (by norm_num [abs_of_pos])
      (by rw [roundHalfEven_tie _ (100 * 2 ^ 46) (by norm_num)]; norm_num)]
    norm_num
  · rw [roundToDouble_eq (70 - 1 / 2 ^ 48) (1 / 2 ^ 46) 6 (70 * 2 ^ 46) (by norm_num)
      (by norm_num [abs_of_pos]) (by norm_num [abs_of_pos])
      (by rw [roundHalfEven_up _ (70 * 2 ^ 46 - 1) (by norm_num) (by norm_num)]; norm_num)]
    norm_num
  · rw [roundToDouble_eq (72 - 1 / 2 ^ 48) (1 / 2 ^ 46) 6 (72 * 2 ^ 46) (by norm_num)
      (by norm_num [abs_of_pos]) (by norm_num [abs_of_pos])
      (by rw [roundHalfEven_up _ (72 * 2 ^ 46 - 1) (by norm_num) (by norm_num)]; norm_num)]
    norm_num
  · rw [roundToDouble_eq (100 + 3 / 2 ^ 48) (1 / 2 ^ 46) 6 (100 * 2 ^ 46 + 1) (by norm_num)
      (by norm_num [abs_of_pos]) (by norm_num [abs_of_pos])
      (by rw [roundHalfEven_up _ (100 * 2 ^ 46) (by norm_num) (by norm_num)])]
    norm_num

/-- The span `[2 - 2^-48, 30 + 3 * 2^-48]` moved by `(70, 0)` on a lane of length 100: the
centre is `16 + 2^-48`, the projection 86, the half-span `14 + 2^-47`; `p + H` is rounded to
100, so the move is not clamped; the shift `centre - p` is rounded to `-70`; the positions
produced are `72` and `100 + 2^-46`. -/
theorem spanNearEnd_shape :
    (calculateMovementOverLane {} Scene.geometry (Scene.view ⟨0, 0, 0⟩) Scene.spanNearEnd
      (GNEMoveOffset.planar 70 0)).shapeToUpdate =
      [⟨72, 0, 0⟩, ⟨100 + 1 / 2 ^ 46, 0, 0⟩] := by
  obtain ⟨h1, h2, h3, h4, h5, h6⟩ := roundToDouble_near_hundred
  norm_num at h1 h2 h3 h4 h5 h6
  norm_num [calculateMovementOverLane, posOverLaneOffset, Scene.spanNearEnd,
    GNEMoveOperation.overLane, Scene.geometry, Scene.view, GNEMoveOffset.planar, Position.add,
    Position.mk2, h1, h2, h3, h4, h5, h6, abs_of_pos, abs_of_neg]

theorem scene_laneLength : laneLength Scene.geometry ⟨0⟩ = 100 := by
  norm_num [laneLength, Scene.geometry]

/-- The perpendicular projection in the move of the span `[10, 30]` by `(75, 0)` is 95. -/
theorem spanOnLane_projection :
    perpendicularProjection Scene.geometry ⟨0⟩
      (snappedTarget Scene.geometry (Scene.view ⟨0, 0, 0⟩) ⟨0⟩ 10 30
        (GNEMoveOffset.planar 75 0)) = some 95 := by
  norm_num [perpendicularProjection, snappedTarget, centralPosition, Scene.geometry,
    Scene.view, GNEMoveOffset.planar, Position.add]

/-- In binary64 no operation of the move of the span `[10, 30]` by `(75, 0)` is rounded. -/
theorem spanOnLane_exact :
    movementIsExact Scene.geometry (Scene.view ⟨0, 0, 0⟩) ⟨0⟩ Scene.spanOnLane
      (GNEMoveOffset.planar 75 0) 10 30 := by
  refine ⟨?_, ?_, ?_, ?_, ?_⟩
  · norm_num [centralPosition, Scene.geometry]
  · norm_num [halfSpan, Scene.geometry, abs_of_pos]
  · norm_num [laneLength, Scene.geometry]
  · intro p hp
    rw [spanOnLane_projection] at hp
    obtain rfl := Option.some.inj hp
    norm_num [centralPosition, halfSpan, Scene.geometry, abs_of_pos]
  · have hs : posOverLaneOffset Scene.geometry (Scene.view ⟨0, 0, 0⟩) ⟨0⟩ Scene.spanOnLane
        (GNEMoveOffset.planar 75 0) = -70 := by
      norm_num [posOverLaneOffset, Scene.spanOnLane, GNEMoveOperation.overLane,
        Scene.geometry, Scene.view, GNEMoveOffset.planar, Position.add, abs_of_pos]
    rw [hs]
    intro pos hpos
    simp only [Scene.spanOnLane, GNEMoveOperation.overLane, List.mem_cons, List.mem_singleton,
      List.not_mem_nil, or_false] at hpos
    rcases hpos with rfl | rfl <;> norm_num [Scene.geometry]

/-- C5, counterexample (reference clamp as stated). On a lane of length 100, in binary64: the
span `[0, 120]` moved with offset `(-30, 0)` yields the positions `{0, 120}`; the positions
`[10, 50, 30]` moved with offset `(75, 0)` yield `{80, 120, 100}`; and the ordered span
`[2 - 2^-48, 30 + 3 * 2^-48]`, shorter than the lane, moved with offset `(70, 0)` yields
`{72, 100 + 2^-46}`, because `p + H = 100 + 2^-47` is rounded to 100 and the shift to `-70`.
In the three cases a produced position is outside `[0, L]`. -/
theorem C5_reference_clamp_counterexample :
    (Scene.longSpan.lane = some ⟨0⟩ ∧ Scene.longSpan.originalPosOverLanes ≠ [] ∧
      laneLength Scene.geometry ⟨0⟩ = 100 ∧
      (calculateMovementOverLane {} Scene.geometry (Scene.view ⟨0, 0, 0⟩) Scene.longSpan
        (GNEMoveOffset.planar (-30) 0)).shapeToUpdate = [⟨0, 0, 0⟩, ⟨120, 0, 0⟩] ∧
      ¬ ∀ pt ∈ (calculateMovementOverLane {} Scene.geometry (Scene.view ⟨0, 0, 0⟩)
          Scene.longSpan (GNEMoveOffset.planar (-30) 0)).shapeToUpdate,
        0 ≤ pt.x ∧ pt.x ≤ laneLength Scene.geometry ⟨0⟩) ∧
    (Scene.unsortedSpan.lane = some ⟨0⟩ ∧ Scene.unsortedSpan.originalPosOverLanes ≠ [] ∧
      (calculateMovementOverLane {} Scene.geometry (Scene.view ⟨0, 0, 0⟩) Scene.unsortedSpan
        (GNEMoveOffset.planar 75 0)).shapeToUpdate
        = [⟨80, 0, 0⟩, ⟨120, 0, 0⟩, ⟨100, 0, 0⟩] ∧
      ¬ ∀ pt ∈ (calculateMovementOverLane {} Scene.geometry (Scene.view ⟨0, 0, 0⟩)
          Scene.unsortedSpan (GNEMoveOffset.planar 75 0)).shapeToUpdate,
        0 ≤ pt.x ∧ pt.x ≤ laneLength Scene.geometry ⟨0⟩) ∧
    (Scene.spanNearEnd.lane = some ⟨0⟩ ∧
      Scene.spanNearEnd.originalPosOverLanes = [2 - 1 / 2 ^ 48, 30 + 3 / 2 ^ 48] ∧
      (30 + 3 / 2 ^ 48 : ℚ) - (2 - 1 / 2 ^ 48) ≤ laneLength Scene.geometry ⟨0⟩ ∧
      (calculateMovementOverLane {} Scene.geometry (Scene.view ⟨0, 0, 0⟩) Scene.spanNearEnd
        (GNEMoveOffset.planar 70 0)).shapeToUpdate = [⟨72, 0, 0⟩, ⟨100 + 1 / 2 ^ 46, 0, 0⟩] ∧
      ¬ ∀ pt ∈ (calculateMovementOverLane {} Scene.geometry (Scene.view ⟨0, 0, 0⟩)
          Scene.spanNearEnd (GNEMoveOffset.planar 70 0)).shapeToUpdate,
        0 ≤ pt.x ∧ pt.x ≤ laneLength Scene.geometry ⟨0⟩) := by
  have hL : laneLength Scene.geometry ⟨0⟩ = 100 := scene_laneLength
  have h1 : (calculateMovementOverLane {} Scene.geometry (Scene.view ⟨0, 0, 0⟩)
      Scene.longSpan (GNEMoveOffset.planar (-30) 0)).shapeToUpdate
      = [⟨0, 0, 0⟩, ⟨120, 0, 0⟩] := by
    rw [calculateMovementOverLane_shape _ _ _ _ _ ⟨0⟩ rfl]
    norm_num [posOverLaneOffset, Scene.longSpan, GNEMoveOperation.overLane, Scene.geometry,
      Scene.view, GNEMoveOffset.planar, Position.add, Position.mk2]
  have h2 : (calculateMovementOverLane {} Scene.geometry (Scene.view ⟨0, 0, 0⟩)
      Scene.unsortedSpan (GNEMoveOffset.planar 75 0)).shapeToUpdate
      = [⟨80, 0, 0⟩, ⟨120, 0, 0⟩, ⟨100, 0, 0⟩] := by
    rw [calculateMovementOverLane_shape _ _ _ _ _ ⟨0⟩ rfl]
    norm_num [posOverLaneOffset, Scene.unsortedSpan, GNEMoveOperation.overLane, Scene.geometry,
      Scene.view, GNEMoveOffset.planar, Position.add, Position.mk2]
  have h3 := spanNearEnd_shape
  refine ⟨⟨rfl, ?_, hL, h1, ?_⟩, ⟨rfl, ?_, h2, ?_⟩, ⟨rfl, rfl, ?_, h3, ?_⟩⟩
  · simp [Scene.longSpan, GNEMoveOperation.overLane]
  · rw [h1, hL]
    intro h
    have := (h ⟨120, 0, 0⟩ (by simp)).2
    norm_num at this
  · simp [Scene.unsortedSpan, GNEMoveOperation.overLane]
  · rw [h2, hL]
    intro h
    have := (h ⟨120, 0, 0⟩ (by simp)).2
    norm_num at this
  · rw [hL]; norm_num
  · rw [h3, hL]
    intro h
    have := (h ⟨100 + 1 / 2 ^ 46, 0, 0⟩ (by simp)).2
    norm_num at this

/-- C5, as amended (reference clamp). For a lane-constrained operation whose original positions
all lie between the first (`front`) and the last (`back`) of them, with `back - front` at most
the lane length `L`, and for every offset for which no operation of the computation is rounded
(`movementIsExact`): every position produced by `calculateMovementOverLane` lies in `[0, L]`;
and with `H = |back - front| / 2`, when the perpendicular projection `p` of the snapped target
is below `H` the first position is `0`, and when `p` is above `L - H` the last position is
`L`. -/
theorem C5_reference_clamp (moveResult : GNEMoveResult) (geo : Geometry) (viewNet : GNEViewNet)
    (op : GNEMoveOperation) (offset : GNEMoveOffset) (lane : GNELane) (front back : ℚ)
    (hlane : op.lane = some lane)
    (hfront : op.originalPosOverLanes.head? = some front)
    (hback : op.originalPosOverLanes.getLast? = some back)
    (hbetween : ∀ pos ∈ op.originalPosOverLanes, front ≤ pos ∧ pos ≤ back)
    (hspan : back - front ≤ laneLength geo lane)
    (hexact : movementIsExact geo viewNet lane op offset front back) :
    (∀ pt ∈ (calculateMovementOverLane moveResult geo viewNet op offset).shapeToUpdate,
      0 ≤ pt.x ∧ pt.x ≤ laneLength geo lane) ∧
    (∀ p, perpendicularProjection geo lane
        (snappedTarget geo viewNet lane front back offset) = some p →
      (p < |back - front| / 2 →
        (calculateMovementOverLane moveResult geo viewNet op offset).shapeToUpdate.head? =
          some (Position.mk2 0 0)) ∧
      (laneLength geo lane - |back - front| / 2 < p →
        (calculateMovementOverLane moveResult geo viewNet op offset).shapeToUpdate.getLast? =
          some (Position.mk2 (laneLength geo lane) 0))) := by
  refine ⟨exact_movement_bounds moveResult geo viewNet op offset lane front back hlane hfront
    hback hbetween hspan hexact, ?_⟩
  obtain ⟨_, hhalf, hpin, htest, hres⟩ := hexact
  have hfb : front ≤ back := (hbetween front (mem_of_head? hfront)).2
  have habs : |back - front| = back - front := abs_of_nonneg (by linarith)
  have hshift := posOverLaneOffset_eq geo viewNet op offset lane front back hfront hback
  rw [calculateMovementOverLane_shape moveResult geo viewNet op offset lane hlane]
  intro p hp
  obtain ⟨h1, h2, _⟩ := htest p hp
  rw [hp] at hshift
  constructor
  · intro hlt
    have hs : posOverLaneOffset geo viewNet lane op offset = front := by
      have : geo.round (p - halfSpan geo.round front back) < 0 := by
        rw [h1, hhalf]; linarith
      rw [hshift]
      simp [shiftPrecedence, this]
    have hr := hres front (mem_of_head? hfront)
    rw [hs, sub_self] at hr
    simp only [List.head?_map, hfront, hs, Option.map_some', sub_self, hr]
  · intro hgt
    have hs : posOverLaneOffset geo viewNet lane op offset = back - laneLength geo lane := by
      have h3 : ¬ geo.round (p - halfSpan geo.round front back) < 0 := by
        rw [h1, hhalf, habs]; rw [habs] at hgt; linarith
      have h4 : geo.round (p + halfSpan geo.round front back) > laneLength geo lane := by
        rw [h2, hhalf]; linarith
      rw [hshift]
      simp [shiftPrecedence, h3, h4, hpin]
    have hr := hres back (mem_of_getLast? hback)
    rw [hs, sub_sub_cancel] at hr
    simp only [List.getLast?_map, hback, hs, Option.map_some', sub_sub_cancel, hr]

/-- Witness of C5 as amended: the span `[10, 30]` on a lane of length 100, moved by
`(75, 0)` in binary64, where every operation is exact, stays within the lane. -/
theorem C5_reference_clamp_witness :
    Scene.spanOnLane.lane = some ⟨0⟩ ∧
    (30 : ℚ) - 10 ≤ laneLength Scene.geometry ⟨0⟩ ∧
    movementIsExact Scene.geometry (Scene.view ⟨0, 0, 0⟩) ⟨0⟩ Scene.spanOnLane
      (GNEMoveOffset.planar 75 0) 10 30 ∧
    (∀ pt ∈ (calculateMovementOverLane {} Scene.geometry (Scene.view ⟨0, 0, 0⟩)
        Scene.spanOnLane (GNEMoveOffset.planar 75 0)).shapeToUpdate,
      0 ≤ pt.x ∧ pt.x ≤ laneLength Scene.geometry ⟨0⟩) :=
  ⟨rfl, by norm_num [laneLength, Scene.geometry], spanOnLane_exact,
    (C5_reference_clamp {} Scene.geometry (Scene.view ⟨0, 0, 0⟩) Scene.spanOnLane
      (GNEMoveOffset.planar 75 0) ⟨0⟩ 10 30 rfl rfl rfl
      (by norm_num [Scene.spanOnLane, GNEMoveOperation.overLane])
      (by norm_num [laneLength, Scene.geometry]) spanOnLane_exact).1⟩

/-- C6 (precedence of the shift). For a lane-constrained operation with first and last original
positions `front` and `back`, the shift `posOverLaneOffset` subtracted from every position is
the one worded in the specification (`shiftPrecedence`): with `H = |back - front| / 2`,
`center = (front + back) / 2` and `L` the lane length, when the perpendicular projection
exists at `p`: `front` if `p - H < 0`, otherwise `back - L` if `p + H > L`, otherwise
`center - p`; when it does not exist (the query answers `-1`): `front` if the
non-perpendicular projection is `0`, and `back - L` otherwise. The shape produced is every
original position minus that shift. Every sum, difference and product is the `double` one. -/
theorem C6_shift_precedence (moveResult : GNEMoveResult) (geo : Geometry)
    (viewNet : GNEViewNet) (op : GNEMoveOperation) (offset : GNEMoveOffset) (lane : GNELane)
    (front back : ℚ)
    (hlane : op.lane = some lane)
    (hfront : op.originalPosOverLanes.head? = some front)
    (hback : op.originalPosOverLanes.getLast? = some back) :
    posOverLaneOffset geo viewNet lane op offset =
      shiftPrecedence geo.round front back (laneLength geo lane)
        (perpendicularProjection geo lane (snappedTarget geo viewNet lane front back offset))
        (geo.nearest_offset_to_point2D lane
          (snappedTarget geo viewNet lane front back offset) false) ∧
    (calculateMovementOverLane moveResult geo viewNet op offset).shapeToUpdate =
      op.originalPosOverLanes.map (fun pos => Position.mk2
        (geo.round (pos - shiftPrecedence geo.round front back (laneLength geo lane)
          (perpendicularProjection geo lane (snappedTarget geo viewNet lane front back offset))
          (geo.nearest_offset_to_point2D lane
            (snappedTarget geo viewNet lane front back offset) false))) 0) := by
  have h := posOverLaneOffset_eq geo viewNet op offset lane front back hfront hback
  refine ⟨h, ?_⟩
  rw [calculateMovementOverLane_shape moveResult geo viewNet op offset lane hlane, h]

/-- Witness of C6, the example of the specification: lane length 100, positions `{10, 30}`,
perpendicular projection 95 (the centre 20 moved by 75); the shift is `-70` and the resulting
positions are `{80, 100}`. -/
theorem C6_shift_precedence_witness :
    Scene.spanOnLane.lane = some ⟨0⟩ ∧
    laneLength Scene.geometry ⟨0⟩ = 100 ∧
    perpendicularProjection Scene.geometry ⟨0⟩
      (snappedTarget Scene.geometry (Scene.view ⟨0, 0, 0⟩) ⟨0⟩ 10 30
        (GNEMoveOffset.planar 75 0)) = some 95 ∧
    posOverLaneOffset Scene.geometry (Scene.view ⟨0, 0, 0⟩) ⟨0⟩ Scene.spanOnLane
      (GNEMoveOffset.planar 75 0) = -70 ∧
    (calculateMovementOverLane {} Scene.geometry (Scene.view ⟨0, 0, 0⟩) Scene.spanOnLane
      (GNEMoveOffset.planar 75 0)).shapeToUpdate = [⟨80, 0, 0⟩, ⟨100, 0, 0⟩] := by
  have h := C6_shift_precedence {} Scene.geometry (Scene.view ⟨0, 0, 0⟩) Scene.spanOnLane
    (GNEMoveOffset.planar 75 0) ⟨0⟩ 10 30 rfl rfl rfl
  have hL : laneLength Scene.geometry ⟨0⟩ = 100 := by norm_num [laneLength, Scene.geometry]
  have hp : perpendicularProjection Scene.geometry ⟨0⟩
      (snappedTarget Scene.geometry (Scene.view ⟨0, 0, 0⟩) ⟨0⟩ 10 30
        (GNEMoveOffset.planar 75 0)) = some 95 := spanOnLane_projection
  have hs : shiftPrecedence Scene.geometry.round 10 30 100 (some 95)
      (Scene.geometry.nearest_offset_to_point2D ⟨0⟩
        (snappedTarget Scene.geometry (Scene.view ⟨0, 0, 0⟩) ⟨0⟩ 10 30
          (GNEMoveOffset.planar 75 0)) false) = -70 := by
    norm_num [shiftPrecedence, centralPosition, halfSpan, Scene.geometry]
  rw [hL, hp, hs] at h
  refine ⟨rfl, hL, hp, h.1, ?_⟩
  rw [h.2]
  norm_num [Scene.spanOnLane, GNEMoveOperation.overLane, Position.mk2, Scene.geometry]

/-- C7, counterexample (rigid 1-D translation as stated). In binary64, the span
`[2, 2 + 2^-51]` moved by `(-2^-52, 0)` yields the positions `2 - 2^-52` and `2`: they are
`2^-52` apart while the original positions are `2^-51` apart, so no single shift `s` gives
`result[i].x = originalPosOverLanes[i] - s` for both. -/
theorem C7_rigid_lane_translation_counterexample :
    Scene.tightSpan.lane = some ⟨0⟩ ∧
    Scene.tightSpan.originalPosOverLanes = [2, 2 + 1 / 2 ^ 51] ∧
    (calculateMovementOverLane {} Scene.geometry (Scene.view ⟨0, 0, 0⟩) Scene.tightSpan
      (GNEMoveOffset.planar (-(1 / 2 ^ 52)) 0)).shapeToUpdate =
      [⟨2 - 1 / 2 ^ 52, 0, 0⟩, ⟨2, 0, 0⟩] ∧
    ((2 : ℚ) - (2 - 1 / 2 ^ 52) ≠ (2 + 1 / 2 ^ 51) - 2) ∧
    ¬ ∃ s : ℚ, ∀ i : Nat,
      (calculateMovementOverLane {} Scene.geometry (Scene.view ⟨0, 0, 0⟩) Scene.tightSpan
        (GNEMoveOffset.planar (-(1 / 2 ^ 52)) 0)).shapeToUpdate[i]? =
      (Scene.tightSpan.originalPosOverLanes[i]?).map
        (fun pos : ℚ => (⟨pos - s, 0, 0⟩ : Position)) := by
  refine ⟨rfl, rfl, tightSpan_shape, by norm_num, ?_⟩
  rintro ⟨s, hs⟩
  have h0 := hs 0
  have h1 := hs 1
  rw [tightSpan_shape] at h0 h1
  simp only [Scene.tightSpan, GNEMoveOperation.overLane, List.getElem?_cons_zero,
    List.getElem?_cons_succ, Option.map_some', Option.some.injEq, Position.mk.injEq,
    and_true] at h0 h1
  norm_num at h0 h1
  linarith

/-- C7, as amended (1-D translation by a single, rounded subtraction). For a lane-constrained
operation with non-empty `originalPosOverLanes` and every offset there is a single shift `s`
such that, whatever `moveResult` held before the call, the shape produced by
`calculateMovementOverLane` has one point per original position, in the same order, the i-th
being `(round (originalPosOverLanes[i] - s), 0)` with `y = 0` (and `z = 0`), where `round` is
the rounding of the `double` subtraction; the differences of the `x` coordinates of two result
points are the differences of the original positions whenever the two subtractions are exact.
The other fields of `moveResult` are kept. -/
theorem C7_rigid_lane_translation (geo : Geometry) (viewNet : GNEViewNet)
    (op : GNEMoveOperation) (offset : GNEMoveOffset) (lane : GNELane)
    (hlane : op.lane = some lane) (_hne : op.originalPosOverLanes ≠ []) :
    ∃ s : ℚ, ∀ moveResult : GNEMoveResult,
      (calculateMovementOverLane moveResult geo viewNet op offset).shapeToUpdate.length =
        op.originalPosOverLanes.length ∧
      (∀ i : Nat, (calculateMovementOverLane moveResult geo viewNet op offset).shapeToUpdate[i]? =
        (op.originalPosOverLanes[i]?).map
          (fun pos : ℚ => (⟨geo.round (pos - s), 0, 0⟩ : Position))) ∧
      (∀ (i j : Nat) (pi pj : ℚ) (ri rj : Position),
        op.originalPosOverLanes[i]? = some pi → op.originalPosOverLanes[j]? = some pj →
        (calculateMovementOverLane moveResult geo viewNet op offset).shapeToUpdate[i]? = some ri →
        (calculateMovementOverLane moveResult geo viewNet op offset).shapeToUpdate[j]? = some rj →
        ri.y = 0 ∧ rj.y = 0 ∧
        (geo.round (pi - s) = pi - s → geo.round (pj - s) = pj - s →
          ri.x - rj.x = pi - pj)) ∧
      (calculateMovementOverLane moveResult geo viewNet op offset).geometryPointsToMove =
        moveResult.geometryPointsToMove ∧
      (calculateMovementOverLane moveResult geo viewNet op offset).newLane =
        moveResult.newLane ∧
      (calculateMovementOverLane moveResult geo viewNet op offset).laneOffset =
        moveResult.laneOffset := by
  refine ⟨posOverLaneOffset geo viewNet lane op offset, fun moveResult => ?_⟩
  rw [calculateMovementOverLane_shape moveResult geo viewNet op offset lane hlane]
  have hget : ∀ i : Nat, (op.originalPosOverLanes.map (fun pos => Position.mk2
      (geo.round (pos - posOverLaneOffset geo viewNet lane op offset)) 0))[i]? =
      (op.originalPosOverLanes[i]?).map (fun pos : ℚ =>
        (⟨geo.round (pos - posOverLaneOffset geo viewNet lane op offset), 0, 0⟩ : Position)) := by
    intro i; rw [List.getElem?_map]; rfl
  refine ⟨by simp, hget, ?_, rfl, rfl, rfl⟩
  intro i j pi pj ri rj hpi hpj hri hrj
  simp only at hri hrj
  rw [hget, hpi] at hri
  rw [hget, hpj] at hrj
  simp only [Option.map_some', Option.some.injEq] at hri hrj
  subst hri hrj
  refine ⟨rfl, rfl, fun hi hj => ?_⟩
  simp only [hi, hj]
  ring

/-- Witness of C7 as amended: the span `[10, 30]` moved by `(75, 0)`; a shape held before is
discarded. -/
theorem C7_rigid_lane_translation_witness :
    Scene.spanOnLane.lane = some ⟨0⟩ ∧ Scene.spanOnLane.originalPosOverLanes ≠ [] ∧
    (∃ s : ℚ, (calculateMovementOverLane { shapeToUpdate := Scene.square } Scene.geometry
        (Scene.view ⟨0, 0, 0⟩) Scene.spanOnLane (GNEMoveOffset.planar 75 0)).shapeToUpdate[1]?
        = some ⟨Scene.geometry.round (30 - s), 0, 0⟩) :=
  ⟨rfl, by simp [Scene.spanOnLane, GNEMoveOperation.overLane],
    (C7_rigid_lane_translation Scene.geometry (Scene.view ⟨0, 0, 0⟩) Scene.spanOnLane
      (GNEMoveOffset.planar 75 0) ⟨0⟩ rfl
      (by simp [Scene.spanOnLane, GNEMoveOperation.overLane])).imp
      (fun _ h => by
        rw [(h { shapeToUpdate := Scene.square }).2.1 1]
        simp [Scene.spanOnLane, GNEMoveOperation.overLane])⟩

/-! ## Duplicate points -/

/-- C8 (duplicate points are collapsed on commit only). For a move of selected points (no lane,
non-empty in-bounds `geometryPointsToMove`, no invalid selected point) and every offset: every
shape that `moveElement` passes to `setMoveShape` has exactly as many points as `shapeToMove`
(nothing is removed in the preview), and `commitMove` then makes two callbacks, the second
being `commitMoveShape` with that same offset-and-snapped shape after `removeDoublePoints(2)`
when it has more than 2 points, and with that shape unchanged when it has 2 or fewer; when the
indices are pairwise distinct, `moveElement` does pass such a shape. -/
theorem C8_duplicate_collapse_on_commit (geo : Geometry) (viewNet : GNEViewNet)
    (op : GNEMoveOperation) (offset : GNEMoveOffset) (undoList : GNEUndoList)
    (hlane : op.lane = none) (hne : op.geometryPointsToMove ≠ [])
    (hbound : ∀ i ∈ op.geometryPointsToMove, i < op.shapeToMove.length)
    (hvalid : ∀ i ∈ op.geometryPointsToMove, op.shapeToMove[i]? ≠ some geo.INVALID) :
    (∀ r, Callback.setMoveShape r ∈ (moveElement geo viewNet op offset).calls →
      r.shapeToUpdate.length = op.shapeToMove.length ∧
      ∃ restore final, (commitMove geo viewNet op offset undoList).calls =
          [Callback.setMoveShape restore, Callback.commitMoveShape final undoList] ∧
        (2 < r.shapeToUpdate.length →
          final = { r with shapeToUpdate := geo.removeDoublePoints 2 r.shapeToUpdate }) ∧
        (r.shapeToUpdate.length ≤ 2 → final = r)) ∧
    (op.geometryPointsToMove.Nodup →
      ∃ r, (moveElement geo viewNet op offset).calls = [Callback.setMoveShape r]) := by
  rw [moveElement_geometryPoints geo viewNet op offset hlane hne,
    commitMove_geometryPoints geo viewNet op offset undoList hlane hne]
  constructor
  · intro r hr
    cases hm : moveGeometryPoints geo viewNet offset op.geometryPointsToMove op.shapeToMove with
    | error e => rw [hm] at hr; simp at hr
    | ok s =>
      rw [hm] at hr
      simp only [List.mem_singleton, Callback.setMoveShape.injEq] at hr
      subst hr
      refine ⟨moveGeometryPoints_length geo viewNet offset _ _ _ hm, _, _, rfl, ?_, ?_⟩
      · intro h; simp [h]
      · intro h
        have : ¬ s.length > 2 := by simp only at h; omega
        simp [this]
  · intro hnd
    obtain ⟨s, hs⟩ := moveGeometryPoints_of_valid geo viewNet offset _ _ hnd hbound hvalid
    rw [hs]
    exact ⟨_, rfl⟩

/-- Witness of C8: the second point of a square is dragged onto the first. The preview keeps
four points, two of them coincident; the commit hands over three points. -/
theorem C8_duplicate_collapse_on_commit_witness :
    Scene.moveSecondPoint.lane = none ∧ Scene.moveSecondPoint.geometryPointsToMove ≠ [] ∧
    (moveElement Scene.geometry (Scene.view ⟨0, 0, 0⟩) Scene.moveSecondPoint
      (GNEMoveOffset.planar (-10) 0)).calls =
      [Callback.setMoveShape
        { shapeToUpdate := [⟨0, 0, 0⟩, ⟨0, 0, 0⟩, ⟨10, 10, 0⟩, ⟨0, 10, 0⟩],
          geometryPointsToMove := [1] }] ∧
    (∃ restore, (commitMove Scene.geometry (Scene.view ⟨0, 0, 0⟩) Scene.moveSecondPoint
      (GNEMoveOffset.planar (-10) 0) ⟨0⟩).calls =
      [Callback.setMoveShape restore,
        Callback.commitMoveShape
          { shapeToUpdate := [⟨0, 0, 0⟩, ⟨10, 10, 0⟩, ⟨0, 10, 0⟩],
            geometryPointsToMove := [1] } ⟨0⟩]) := by
  have hpre : (moveElement Scene.geometry (Scene.view ⟨0, 0, 0⟩) Scene.moveSecondPoint
      (GNEMoveOffset.planar (-10) 0)).calls =
      [Callback.setMoveShape
        { shapeToUpdate := [⟨0, 0, 0⟩, ⟨0, 0, 0⟩, ⟨10, 10, 0⟩, ⟨0, 10, 0⟩],
          geometryPointsToMove := [1] }] := by
    norm_num [moveElement, moveGeometryPoints, Scene.moveSecondPoint,
      GNEMoveOperation.ofGeometryPoints, Scene.square, Scene.geometry, Scene.view,
      GNEMoveOffset.planar, Position.add]
  have hne : Scene.moveSecondPoint.geometryPointsToMove ≠ [] := by
    simp [Scene.moveSecondPoint, GNEMoveOperation.ofGeometryPoints]
  obtain ⟨_, restore, final, hcalls, hmore, _⟩ :=
    (C8_duplicate_collapse_on_commit Scene.geometry (Scene.view ⟨0, 0, 0⟩)
      Scene.moveSecondPoint (GNEMoveOffset.planar (-10) 0) ⟨0⟩ rfl hne
      (by simp [Scene.moveSecondPoint, GNEMoveOperation.ofGeometryPoints, Scene.square])
      (by simp [Scene.moveSecondPoint, GNEMoveOperation.ofGeometryPoints, Scene.square,
            Scene.geometry])).1 _ (by rw [hpre]; exact List.mem_singleton.mpr rfl)
  refine ⟨rfl, hne, hpre, restore, ?_⟩
  rw [hcalls, hmore (by simp)]
  norm_num [Scene.geometry, Scene.removeDoublePoints, Scene.dropNear,
    Position.distanceSquaredTo]

/-! ## Change of lane -/

/-- A step of the loop of `calculateNewLane` keeps a new lane that differs from the lane of
the operation. -/
theorem calculateNewLaneStep_keeps (geo : Geometry) (cursor : Position) (opLane : GNELane)
    (r : GNEMoveResult) (lane : GNELane)
    (h : ∃ l, r.newLane = some l ∧ l ≠ opLane) :
    ∃ l, (calculateNewLaneStep geo cursor opLane r lane).newLane = some l ∧ l ≠ opLane := by
  unfold calculateNewLaneStep
  by_cases hl : lane = opLane
  · simp [hl, h]
  · by_cases hd : ((geo.positionAtOffset2D lane
        (geo.nearest_offset_to_point2D lane cursor true)).distanceSquaredTo2D cursor) < 1
    · simp [hl, hd]
    · simp [hl, hd, h]

theorem calculateNewLane_foldl_keeps (geo : Geometry) (cursor : Position) (opLane : GNELane)
    (lanes : List GNELane) :
    ∀ r : GNEMoveResult, (∃ l, r.newLane = some l ∧ l ≠ opLane) →
      ∃ l, (lanes.foldl (calculateNewLaneStep geo cursor opLane) r).newLane = some l ∧
        l ≠ opLane := by
  induction lanes with
  | nil => intro r h; exact h
  | cons lane rest ih =>
    intro r h
    exact ih _ (calculateNewLaneStep_keeps geo cursor opLane r lane h)

theorem calculateNewLane_foldl_found (geo : Geometry) (cursor : Position) (opLane : GNELane)
    (lanes : List GNELane) :
    ∀ r : GNEMoveResult,
      (∃ lane ∈ lanes, lane ≠ opLane ∧ (geo.positionAtOffset2D lane
        (geo.nearest_offset_to_point2D lane cursor true)).distanceSquaredTo2D cursor < 1) →
      ∃ l, (lanes.foldl (calculateNewLaneStep geo cursor opLane) r).newLane = some l ∧
        l ≠ opLane := by
  induction lanes with
  | nil => intro r h; simp at h
  | cons lane rest ih =>
    intro r h
    obtain ⟨l, hl, hne, hd⟩ := h
    rcases List.mem_cons.mp hl with rfl | hrest
    · rw [List.foldl_cons]
      apply calculateNewLane_foldl_keeps
      refine ⟨l, ?_, hne⟩
      simp [calculateNewLaneStep, hne, hd]
    · exact ih _ ⟨l, hrest, hne, hd⟩

theorem calculateNewLane_foldl_none (geo : Geometry) (cursor : Position) (opLane : GNELane)
    (lanes : List GNELane) :
    ∀ r : GNEMoveResult,
      (∀ lane ∈ lanes, lane ≠ opLane → 1 ≤ (geo.positionAtOffset2D lane
        (geo.nearest_offset_to_point2D lane cursor true)).distanceSquaredTo2D cursor) →
      lanes.foldl (calculateNewLaneStep geo cursor opLane) r = r := by
  induction lanes with
  | nil => intro r _; rfl
  | cons lane rest ih =>
    intro r h
    have hstep : calculateNewLaneStep geo cursor opLane r lane = r := by
      unfold calculateNewLaneStep
      by_cases hl : lane = opLane
      · simp [hl]
      · have := h lane (by simp) hl
        simp [hl, not_lt.mpr this]
    rw [List.foldl_cons, hstep]
    exact ih r (fun l hl => h l (by simp [hl]))

/-- C9 (threshold of the change of lane). For a lane-constrained operation with
`allowChangeLane` set and a move result that carries no new lane and lane offset 0 (as a fresh
one does): (a) if for some lane of the parent edge other than the lane of the operation the
squared 2-D distance between the cursor and its projection on that lane is 0, then
`calculateNewLane` sets `newLane` to a lane different from the lane of the operation; (b) if
for every lane of the parent edge other than the lane of the operation that squared distance
is at least 1, then `calculateNewLane` leaves `newLane` unset and `laneOffset` 0. -/
theorem C9_lane_change_threshold (moveResult : GNEMoveResult) (geo : Geometry)
    (viewNet : GNEViewNet) (op : GNEMoveOperation) (opLane : GNELane)
    (hlane : op.lane = some opLane) (hallow : op.allowChangeLane = true)
    (hnew : moveResult.newLane = none) (hoff : moveResult.laneOffset = 0) :
    ((∃ lane ∈ geo.getLanes opLane, lane ≠ opLane ∧
        cursorDistanceSquared geo viewNet lane = 0) →
      ∃ l, (calculateNewLane moveResult geo viewNet op).newLane = some l ∧ l ≠ opLane) ∧
    ((∀ lane ∈ geo.getLanes opLane, lane ≠ opLane →
        1 ≤ cursorDistanceSquared geo viewNet lane) →
      (calculateNewLane moveResult geo viewNet op).newLane = none ∧
      (calculateNewLane moveResult geo viewNet op).laneOffset = 0) := by
  have hcalc : calculateNewLane moveResult geo viewNet op =
      (geo.getLanes opLane).foldl
        (calculateNewLaneStep geo viewNet.getPositionInformation opLane) moveResult := by
    simp [calculateNewLane, hlane, hallow]
  rw [hcalc]
  constructor
  · rintro ⟨lane, hmem, hne, hd⟩
    apply calculateNewLane_foldl_found
    refine ⟨lane, hmem, hne, ?_⟩
    have : (geo.positionAtOffset2D lane (geo.nearest_offset_to_point2D lane
        viewNet.getPositionInformation true)).distanceSquaredTo2D
        viewNet.getPositionInformation = 0 := hd
    rw [this]; norm_num
  · intro h
    rw [calculateNewLane_foldl_none geo _ opLane _ moveResult h]
    exact ⟨hnew, hoff⟩

/-- Witness of C9: the operation is on lane 0 and the cursor lies on lane 1. -/
theorem C9_lane_change_threshold_witness :
    Scene.spanMayChangeLane.lane = some ⟨0⟩ ∧ Scene.spanMayChangeLane.allowChangeLane = true ∧
    cursorDistanceSquared Scene.geometry (Scene.view ⟨50, 3, 0⟩) ⟨1⟩ = 0 ∧
    (∃ l, (calculateNewLane {} Scene.geometry (Scene.view ⟨50, 3, 0⟩)
      Scene.spanMayChangeLane).newLane = some l ∧ l ≠ ⟨0⟩) := by
  have hd : cursorDistanceSquared Scene.geometry (Scene.view ⟨50, 3, 0⟩) ⟨1⟩ = 0 := by
    norm_num [cursorDistanceSquared, Scene.geometry, Scene.view, Position.distanceSquaredTo2D]
  exact ⟨rfl, rfl, hd,
    (C9_lane_change_threshold {} Scene.geometry (Scene.view ⟨50, 3, 0⟩)
      Scene.spanMayChangeLane ⟨0⟩ rfl rfl rfl rfl).1
      ⟨⟨1⟩, by simp [Scene.geometry], by simp, hd⟩⟩

/-- C10 (a disallowed change of lane clears the result). For an operation with
`allowChangeLane` false and every incoming move result (also one that carries a new lane and a
non-zero lane offset), `calculateNewLane` returns with `newLane` unset and `laneOffset` 0 and
leaves `shapeToUpdate` and `geometryPointsToMove` unchanged; hence a lane-constrained preview
or commit of such an operation hands over a result without new lane and with lane offset 0. -/
theorem C10_lane_change_disallowed (geo : Geometry) (viewNet : GNEViewNet)
    (op : GNEMoveOperation) (offset : GNEMoveOffset) (undoList : GNEUndoList)
    (hallow : op.allowChangeLane = false) :
    (∀ moveResult : GNEMoveResult,
      (calculateNewLane moveResult geo viewNet op).newLane = none ∧
      (calculateNewLane moveResult geo viewNet op).laneOffset = 0 ∧
      (calculateNewLane moveResult geo viewNet op).shapeToUpdate = moveResult.shapeToUpdate ∧
      (calculateNewLane moveResult geo viewNet op).geometryPointsToMove =
        moveResult.geometryPointsToMove) ∧
    (∀ lane, op.lane = some lane →
      (∃ r, (moveElement geo viewNet op offset).calls = [Callback.setMoveShape r] ∧
        r.newLane = none ∧ r.laneOffset = 0) ∧
      (∃ restore r, (commitMove geo viewNet op offset undoList).calls =
          [Callback.setMoveShape restore, Callback.commitMoveShape r undoList] ∧
        restore.newLane = none ∧ restore.laneOffset = 0 ∧
        r.newLane = none ∧ r.laneOffset = 0)) := by
  have hcalc : ∀ moveResult : GNEMoveResult,
      calculateNewLane moveResult geo viewNet op =
        { moveResult with newLane := none, laneOffset := 0 } := by
    intro moveResult
    simp [calculateNewLane, hallow]
  constructor
  · intro moveResult
    rw [hcalc]
    exact ⟨rfl, rfl, rfl, rfl⟩
  · intro lane hlane
    rw [moveElement_lane geo viewNet op offset lane hlane,
      commitMove_lane geo viewNet op offset undoList lane hlane]
    simp only [hcalc]
    exact ⟨⟨_, rfl, rfl, rfl⟩, ⟨_, _, rfl, rfl, rfl, rfl, rfl⟩⟩

/-- Witness of C10: a result that carries lane 1 and offset 3 is cleared. -/
theorem C10_lane_change_disallowed_witness :
    Scene.spanOnLane.allowChangeLane = false ∧
    (calculateNewLane { newLane := some ⟨1⟩, laneOffset := 3 } Scene.geometry
      (Scene.view ⟨50, 3, 0⟩) Scene.spanOnLane).newLane = none ∧
    (calculateNewLane { newLane := some ⟨1⟩, laneOffset := 3 } Scene.geometry
      (Scene.view ⟨50, 3, 0⟩) Scene.spanOnLane).laneOffset = 0 :=
  ⟨rfl,
    ((C10_lane_change_disallowed Scene.geometry (Scene.view ⟨50, 3, 0⟩) Scene.spanOnLane
      (GNEMoveOffset.planar 0 0) ⟨0⟩ rfl).1 { newLane := some ⟨1⟩, laneOffset := 3 }).1,
    ((C10_lane_change_disallowed Scene.geometry (Scene.view ⟨50, 3, 0⟩) Scene.spanOnLane
      (GNEMoveOffset.planar 0 0) ⟨0⟩ rfl).1 { newLane := some ⟨1⟩, laneOffset := 3 }).2.1⟩

/-! ## Change of lane: offset and ties -/

/-- A step of the loop on a qualifying lane. -/
theorem calculateNewLaneStep_qualifies (geo : Geometry) (viewNet : GNEViewNet)
    (opLane : GNELane) (r : GNEMoveResult) (lane : GNELane)
    (h : qualifies geo viewNet opLane lane) :
    calculateNewLaneStep geo viewNet.getPositionInformation opLane r lane =
      { r with
        newLane := some lane
        laneOffset :=
          if geo.getIndex opLane < geo.getIndex lane then
            geo.distanceTo2D (cursorProjection geo viewNet lane)
              (cursorProjection geo viewNet opLane) * -1
          else
            geo.distanceTo2D (cursorProjection geo viewNet lane)
              (cursorProjection geo viewNet opLane) } := by
  have hd : (geo.positionAtOffset2D lane (geo.nearest_offset_to_point2D lane
      viewNet.getPositionInformation true)).distanceSquaredTo2D
      viewNet.getPositionInformation < 1 := h.2
  simp [calculateNewLaneStep, h.1, hd, cursorProjection]

/-- A step of the loop on a lane that does not qualify. -/
theorem calculateNewLaneStep_not_qualifies (geo : Geometry) (viewNet : GNEViewNet)
    (opLane : GNELane) (r : GNEMoveResult) (lane : GNELane)
    (h : ¬ qualifies geo viewNet opLane lane) :
    calculateNewLaneStep geo viewNet.getPositionInformation opLane r lane = r := by
  unfold calculateNewLaneStep
  by_cases hl : lane = opLane
  · simp [hl]
  · have hd : ¬ (geo.positionAtOffset2D lane (geo.nearest_offset_to_point2D lane
        viewNet.getPositionInformation true)).distanceSquaredTo2D
        viewNet.getPositionInformation < 1 := fun hd => h ⟨hl, hd⟩
    simp [hl, hd]

theorem calculateNewLane_foldl_not_qualifies (geo : Geometry) (viewNet : GNEViewNet)
    (opLane : GNELane) (lanes : List GNELane) (r : GNEMoveResult)
    (h : ∀ lane ∈ lanes, ¬ qualifies geo viewNet opLane lane) :
    lanes.foldl (calculateNewLaneStep geo viewNet.getPositionInformation opLane) r = r := by
  induction lanes with
  | nil => rfl
  | cons lane rest ih =>
    rw [List.foldl_cons, calculateNewLaneStep_not_qualifies geo viewNet opLane r lane
      (h lane (by simp))]
    exact ih (fun l hl => h l (by simp [hl]))

/-- The loop keeps: a new lane carried by the result comes with the offset computed for it. -/
theorem calculateNewLane_foldl_offset (geo : Geometry) (viewNet : GNEViewNet)
    (opLane : GNELane) (lanes : List GNELane) :
    ∀ r : GNEMoveResult,
      (∀ l, r.newLane = some l → qualifies geo viewNet opLane l ∧ r.laneOffset =
        if geo.getIndex opLane < geo.getIndex l then
          geo.distanceTo2D (cursorProjection geo viewNet l)
            (cursorProjection geo viewNet opLane) * -1
        else
          geo.distanceTo2D (cursorProjection geo viewNet l)
            (cursorProjection geo viewNet opLane)) →
      ∀ l, (lanes.foldl (calculateNewLaneStep geo viewNet.getPositionInformation opLane)
          r).newLane = some l →
        qualifies geo viewNet opLane l ∧
        (lanes.foldl (calculateNewLaneStep geo viewNet.getPositionInformation opLane)
          r).laneOffset =
          if geo.getIndex opLane < geo.getIndex l then
            geo.distanceTo2D (cursorProjection geo viewNet l)
              (cursorProjection geo viewNet opLane) * -1
          else
            geo.distanceTo2D (cursorProjection geo viewNet l)
              (cursorProjection geo viewNet opLane) := by
  induction lanes with
  | nil => intro r h; exact h
  | cons lane rest ih =>
    intro r h
    rw [List.foldl_cons]
    apply ih
    by_cases hq : qualifies geo viewNet opLane lane
    · rw [calculateNewLaneStep_qualifies geo viewNet opLane r lane hq]
      intro l hl
      simp only [Option.some.injEq] at hl
      subst hl
      exact ⟨hq, rfl⟩
    · rw [calculateNewLaneStep_not_qualifies geo viewNet opLane r lane hq]
      exact h

theorem calculateNewLane_allowed (moveResult : GNEMoveResult) (geo : Geometry)
    (viewNet : GNEViewNet) (op : GNEMoveOperation) (opLane : GNELane)
    (hlane : op.lane = some opLane) (hallow : op.allowChangeLane = true) :
    calculateNewLane moveResult geo viewNet op =
      (geo.getLanes opLane).foldl
        (calculateNewLaneStep geo viewNet.getPositionInformation opLane) moveResult := by
  simp [calculateNewLane, hlane, hallow]

/-- C11 (sign of the lateral offset). For a lane-constrained operation with `allowChangeLane`
set, a move result that carries no new lane on entry, and a 2-D distance that is never
negative: whenever `calculateNewLane` selects a new lane `l`, that lane is another lane whose
squared cursor distance is below 1, the magnitude of `laneOffset` is the 2-D distance between
the projection of the cursor on `l` and its projection on the lane of the operation, and
`laneOffset` is `≤ 0` if the index of the lane of the operation is smaller than the index of
`l`, and `≥ 0` otherwise. -/
theorem C11_lateral_offset_sign (moveResult : GNEMoveResult) (geo : Geometry)
    (viewNet : GNEViewNet) (op : GNEMoveOperation) (opLane l : GNELane)
    (hlane : op.lane = some opLane) (hallow : op.allowChangeLane = true)
    (hnew : moveResult.newLane = none)
    (hdist : ∀ p q, 0 ≤ geo.distanceTo2D p q)
    (hsel : (calculateNewLane moveResult geo viewNet op).newLane = some l) :
    qualifies geo viewNet opLane l ∧
    |(calculateNewLane moveResult geo viewNet op).laneOffset| =
      geo.distanceTo2D (cursorProjection geo viewNet l) (cursorProjection geo viewNet opLane) ∧
    (geo.getIndex opLane < geo.getIndex l →
      (calculateNewLane moveResult geo viewNet op).laneOffset ≤ 0) ∧
    (¬ geo.getIndex opLane < geo.getIndex l →
      0 ≤ (calculateNewLane moveResult geo viewNet op).laneOffset) := by
  rw [calculateNewLane_allowed moveResult geo viewNet op opLane hlane hallow] at hsel ⊢
  have h := calculateNewLane_foldl_offset geo viewNet opLane (geo.getLanes opLane) moveResult
    (by intro l hl; rw [hnew] at hl; simp at hl) l hsel
  have hd := hdist (cursorProjection geo viewNet l) (cursorProjection geo viewNet opLane)
  refine ⟨h.1, ?_, ?_, ?_⟩
  · rw [h.2]
    by_cases hi : geo.getIndex opLane < geo.getIndex l
    · simp only [hi, if_true, mul_neg, mul_one, abs_neg]
      exact abs_of_nonneg hd
    · simp only [hi, if_false]
      exact abs_of_nonneg hd
  · intro hi
    rw [h.2]
    simp only [hi, if_true]
    linarith
  · intro hi
    rw [h.2]
    simp only [hi, if_false]
    exact hd

/-- The loop of `calculateNewLane` changes neither the shape nor the indices. -/
theorem calculateNewLane_foldl_frame (geo : Geometry) (viewNet : GNEViewNet)
    (opLane : GNELane) (lanes : List GNELane) :
    ∀ r : GNEMoveResult,
      (lanes.foldl (calculateNewLaneStep geo viewNet.getPositionInformation opLane)
        r).shapeToUpdate = r.shapeToUpdate ∧
      (lanes.foldl (calculateNewLaneStep geo viewNet.getPositionInformation opLane)
        r).geometryPointsToMove = r.geometryPointsToMove := by
  induction lanes with
  | nil => intro r; exact ⟨rfl, rfl⟩
  | cons lane rest ih =>
    intro r
    rw [List.foldl_cons, (ih _).1, (ih _).2]
    by_cases hq : qualifies geo viewNet opLane lane
    · rw [calculateNewLaneStep_qualifies geo viewNet opLane _ lane hq]
      exact ⟨rfl, rfl⟩
    · rw [calculateNewLaneStep_not_qualifies geo viewNet opLane _ lane hq]
      exact ⟨rfl, rfl⟩

/-- Whatever the operation, `calculateNewLane` changes neither the shape nor the indices. -/
theorem calculateNewLane_frame (moveResult : GNEMoveResult) (geo : Geometry)
    (viewNet : GNEViewNet) (op : GNEMoveOperation) :
    (calculateNewLane moveResult geo viewNet op).shapeToUpdate = moveResult.shapeToUpdate ∧
    (calculateNewLane moveResult geo viewNet op).geometryPointsToMove =
      moveResult.geometryPointsToMove := by
  unfold calculateNewLane
  by_cases hallow : op.allowChangeLane = true
  · cases hlane : op.lane with
    | none => simp [hallow]
    | some opLane =>
      simp only [hallow, if_true]
      exact calculateNewLane_foldl_frame geo viewNet opLane _ moveResult
  · simp [hallow]

/-- Witness of C11: the operation is on lane 0 (index 0), the cursor lies on lane 1 (index 1);
the lane offset is not positive. -/
theorem C11_lateral_offset_sign_witness :
    Scene.spanMayChangeLane.lane = some ⟨0⟩ ∧ Scene.spanMayChangeLane.allowChangeLane = true ∧
    (calculateNewLane {} Scene.geometry (Scene.view ⟨50, 3, 0⟩)
      Scene.spanMayChangeLane).newLane = some ⟨1⟩ ∧
    (calculateNewLane {} Scene.geometry (Scene.view ⟨50, 3, 0⟩)
      Scene.spanMayChangeLane).laneOffset ≤ 0 := by
  have hsel : (calculateNewLane {} Scene.geometry (Scene.view ⟨50, 3, 0⟩)
      Scene.spanMayChangeLane).newLane = some ⟨1⟩ := by
    norm_num [calculateNewLane, calculateNewLaneStep, Scene.spanMayChangeLane,
      GNEMoveOperation.overLane, Scene.geometry, Scene.view, Position.distanceSquaredTo2D]
  refine ⟨rfl, rfl, hsel, ?_⟩
  exact (C11_lateral_offset_sign {} Scene.geometry (Scene.view ⟨50, 3, 0⟩)
    Scene.spanMayChangeLane ⟨0⟩ ⟨1⟩ rfl rfl rfl
    (by intro p q; simp only [Scene.geometry]; positivity) hsel).2.2.1
    (by norm_num [Scene.geometry])

/-- C16 (ties in the change of lane). For a lane-constrained operation with `allowChangeLane`
set and any incoming move result: if `l` is the last lane, in the iteration order of the lanes
of the parent edge, that qualifies (another lane than that of the operation, with squared
cursor distance below 1; no lane after it qualifies), then `calculateNewLane` sets `newLane`
to `l`, and `laneOffset` is the one computed for `l`: the 2-D distance between the projections
of the cursor on `l` and on the lane of the operation, negated if the index of the lane of the
operation is smaller than the index of `l`; earlier qualifying lanes do not matter. -/
theorem C16_last_qualifying_lane (moveResult : GNEMoveResult) (geo : Geometry)
    (viewNet : GNEViewNet) (op : GNEMoveOperation) (opLane l : GNELane)
    (before after : List GNELane)
    (hlane : op.lane = some opLane) (hallow : op.allowChangeLane = true)
    (hlanes : geo.getLanes opLane = before ++ l :: after)
    (hl : qualifies geo viewNet opLane l)
    (hafter : ∀ lane ∈ after, ¬ qualifies geo viewNet opLane lane) :
    (calculateNewLane moveResult geo viewNet op).newLane = some l ∧
    (calculateNewLane moveResult geo viewNet op).laneOffset =
      (if geo.getIndex opLane < geo.getIndex l then
        -(geo.distanceTo2D (cursorProjection geo viewNet l)
          (cursorProjection geo viewNet opLane))
      else
        geo.distanceTo2D (cursorProjection geo viewNet l)
          (cursorProjection geo viewNet opLane)) ∧
    (calculateNewLane moveResult geo viewNet op).shapeToUpdate = moveResult.shapeToUpdate ∧
    (calculateNewLane moveResult geo viewNet op).geometryPointsToMove =
      moveResult.geometryPointsToMove := by
  rw [calculateNewLane_allowed moveResult geo viewNet op opLane hlane hallow, hlanes,
    List.foldl_append, List.foldl_cons,
    calculateNewLane_foldl_not_qualifies geo viewNet opLane after _ hafter,
    calculateNewLaneStep_qualifies geo viewNet opLane _ l hl]
  refine ⟨rfl, ?_, ?_, ?_⟩
  · by_cases hi : geo.getIndex opLane < geo.getIndex l
    · simp [hi]
    · simp [hi]
  · exact (calculateNewLane_foldl_frame geo viewNet opLane before moveResult).1
  · exact (calculateNewLane_foldl_frame geo viewNet opLane before moveResult).2

/-- Witness of C16: lanes half a unit apart, operation on lane 0, cursor between lanes 1 and 2.
Both qualify; the last one, lane 2, is taken, with the offset computed for it. -/
theorem C16_last_qualifying_lane_witness :
    Scene.spanMayChangeLane.lane = some ⟨0⟩ ∧ Scene.spanMayChangeLane.allowChangeLane = true ∧
    qualifies Scene.narrowGeometry (Scene.view ⟨50, 3 / 4, 0⟩) ⟨0⟩ ⟨1⟩ ∧
    qualifies Scene.narrowGeometry (Scene.view ⟨50, 3 / 4, 0⟩) ⟨0⟩ ⟨2⟩ ∧
    (calculateNewLane {} Scene.narrowGeometry (Scene.view ⟨50, 3 / 4, 0⟩)
      Scene.spanMayChangeLane).newLane = some ⟨2⟩ ∧
    (calculateNewLane {} Scene.narrowGeometry (Scene.view ⟨50, 3 / 4, 0⟩)
      Scene.spanMayChangeLane).laneOffset = -1 := by
  have h1 : qualifies Scene.narrowGeometry (Scene.view ⟨50, 3 / 4, 0⟩) ⟨0⟩ ⟨1⟩ := by
    norm_num [qualifies, cursorDistanceSquared, Scene.narrowGeometry, Scene.geometry,
      Scene.view, Position.distanceSquaredTo2D]
  have h2 : qualifies Scene.narrowGeometry (Scene.view ⟨50, 3 / 4, 0⟩) ⟨0⟩ ⟨2⟩ := by
    norm_num [qualifies, cursorDistanceSquared, Scene.narrowGeometry, Scene.geometry,
      Scene.view, Position.distanceSquaredTo2D]
  have h := C16_last_qualifying_lane {} Scene.narrowGeometry (Scene.view ⟨50, 3 / 4, 0⟩)
    Scene.spanMayChangeLane ⟨0⟩ ⟨2⟩ [⟨0⟩, ⟨1⟩] [] rfl rfl rfl h2 (by simp)
  refine ⟨rfl, rfl, h1, h2, h.1, ?_⟩
  rw [h.2.1]
  norm_num [cursorProjection, Scene.narrowGeometry, Scene.geometry, Scene.view]

/-! ## The callbacks of the two steps -/

theorem moveElement_calls_length (geo : Geometry) (viewNet : GNEViewNet)
    (op : GNEMoveOperation) (offset : GNEMoveOffset) :
    (moveElement geo viewNet op offset).calls.length ≤ 1 := by
  unfold moveElement
  simp only
  split
  · simp
  · split
    · split <;> simp
    · split <;> simp

/-- C12 (callbacks of the commit). For a free-shape operation whose moved points are all valid
(no lane, pairwise distinct in-bounds indices, no point about to be offset is invalid),
`commitMove` makes exactly two callbacks, in this order: `setMoveShape` with
`shapeToUpdate = originalShape` and `geometryPointsToMove = originalGeometryPoints`, then
`commitMoveShape` with the final result (whose `geometryPointsToMove` are those of the
operation) and the given undo list. For a lane-constrained operation the first callback
carries the points `(pos, 0)` for each `pos` of `originalPosOverLanes`, in order, and the
`geometryPointsToMove` of the operation. In both cases `moveElement` makes exactly one
callback, `setMoveShape`; it never makes more than one callback and never calls
`commitMoveShape`. -/
theorem C12_commit_callbacks (geo : Geometry) (viewNet : GNEViewNet) (op : GNEMoveOperation)
    (offset : GNEMoveOffset) (undoList : GNEUndoList) :
    (op.lane = none → op.geometryPointsToMove.Nodup →
      (∀ i ∈ op.geometryPointsToMove, i < op.shapeToMove.length) →
      ¬ offsetsInvalidPoint geo op →
      (∃ final, (commitMove geo viewNet op offset undoList).calls =
          [Callback.setMoveShape { shapeToUpdate := op.originalShape,
                                   geometryPointsToMove := op.originalGeometryPoints },
           Callback.commitMoveShape final undoList] ∧
        final.geometryPointsToMove = op.geometryPointsToMove) ∧
      ∃ r, (moveElement geo viewNet op offset).calls = [Callback.setMoveShape r]) ∧
    (∀ lane, op.lane = some lane →
      (∃ final, (commitMove geo viewNet op offset undoList).calls =
          [Callback.setMoveShape
            { shapeToUpdate := op.originalPosOverLanes.map (fun pos => (⟨pos, 0, 0⟩ : Position)),
              geometryPointsToMove := op.geometryPointsToMove },
           Callback.commitMoveShape final undoList] ∧
        final.geometryPointsToMove = op.geometryPointsToMove) ∧
      ∃ r, (moveElement geo viewNet op offset).calls = [Callback.setMoveShape r]) ∧
    (moveElement geo viewNet op offset).calls.length ≤ 1 ∧
    committedResults (moveElement geo viewNet op offset).calls = [] := by
  refine ⟨?_, ?_, moveElement_calls_length geo viewNet op offset,
    moveElement_committedResults geo viewNet op offset⟩
  · intro hlane hnd hbound hvalid
    by_cases hempty : op.geometryPointsToMove = []
    · rw [moveElement_entireShape geo viewNet op offset hlane hempty,
        commitMove_entireShape geo viewNet op offset undoList hlane hempty, moveEntireShape_eq]
      have hin : geo.INVALID ∉ op.shapeToMove := fun hin => hvalid (Or.inl ⟨hempty, hin⟩)
      simp only [hin, if_false]
      exact ⟨⟨_, rfl, hempty.symm⟩, _, rfl⟩
    · rw [moveElement_geometryPoints geo viewNet op offset hlane hempty,
        commitMove_geometryPoints geo viewNet op offset undoList hlane hempty]
      obtain ⟨s, hs⟩ := moveGeometryPoints_of_valid geo viewNet offset _ _ hnd hbound
        (fun i hi h => hvalid (Or.inr ⟨i, hi, h⟩))
      rw [hs]
      exact ⟨⟨_, rfl, rfl⟩, _, rfl⟩
  · intro lane hlane
    rw [moveElement_lane geo viewNet op offset lane hlane,
      commitMove_lane geo viewNet op offset undoList lane hlane]
    refine ⟨⟨_, rfl, ?_⟩, _, rfl⟩
    rw [(calculateNewLane_frame _ geo viewNet op).2,
      calculateMovementOverLane_shape _ geo viewNet op offset lane hlane]

/-- Witness of C12: committing the move of two points of a square. -/
theorem C12_commit_callbacks_witness :
    Scene.moveTwoPoints.lane = none ∧ Scene.moveTwoPoints.geometryPointsToMove.Nodup ∧
    ¬ offsetsInvalidPoint Scene.geometry Scene.moveTwoPoints ∧
    (∃ final, (commitMove Scene.geometry (Scene.view ⟨0, 0, 0⟩) Scene.moveTwoPoints
        (GNEMoveOffset.planar 1 1) ⟨0⟩).calls =
        [Callback.setMoveShape { shapeToUpdate := Scene.square, geometryPointsToMove := [1] },
         Callback.commitMoveShape final ⟨0⟩] ∧
      final.geometryPointsToMove = [1, 2]) := by
  have hnd : Scene.moveTwoPoints.geometryPointsToMove.Nodup := by
    simp [Scene.moveTwoPoints, GNEMoveOperation.ofGeometryPoints]
  have hv : ¬ offsetsInvalidPoint Scene.geometry Scene.moveTwoPoints := by
    simp [offsetsInvalidPoint, Scene.moveTwoPoints, GNEMoveOperation.ofGeometryPoints,
      Scene.square, Scene.geometry]
  exact ⟨rfl, hnd, hv,
    ((C12_commit_callbacks Scene.geometry (Scene.view ⟨0, 0, 0⟩) Scene.moveTwoPoints
      (GNEMoveOffset.planar 1 1) ⟨0⟩).1 rfl hnd
      (by simp [Scene.moveTwoPoints, GNEMoveOperation.ofGeometryPoints, Scene.square]) hv).1⟩

/-- C13 (preview and commit share one computation). For an operation that is lane-constrained,
or that moves a whole shape (no lane, `geometryPointsToMove` empty, no invalid point), and for
every offset, view and lane geometry: the move result that `commitMove` passes to
`commitMoveShape` is equal (in all fields: `shapeToUpdate`, `geometryPointsToMove`, `newLane`,
`laneOffset`) to the one that `moveElement` passes to `setMoveShape`; in particular no
duplicate-point removal is applied to it. -/
theorem C13_preview_commit_agree (geo : Geometry) (viewNet : GNEViewNet)
    (op : GNEMoveOperation) (offset : GNEMoveOffset) (undoList : GNEUndoList)
    (h : (∃ lane, op.lane = some lane) ∨
      (op.lane = none ∧ op.geometryPointsToMove = [] ∧ geo.INVALID ∉ op.shapeToMove)) :
    ∃ r restore,
      (moveElement geo viewNet op offset).calls = [Callback.setMoveShape r] ∧
      (commitMove geo viewNet op offset undoList).calls =
        [Callback.setMoveShape restore, Callback.commitMoveShape r undoList] := by
  rcases h with ⟨lane, hlane⟩ | ⟨hlane, hempty, hin⟩
  · rw [moveElement_lane geo viewNet op offset lane hlane,
      commitMove_lane geo viewNet op offset undoList lane hlane]
    refine ⟨_, { shapeToUpdate := op.originalPosOverLanes.map (fun pos => Position.mk2 pos 0),
                 geometryPointsToMove := op.geometryPointsToMove }, rfl, ?_⟩
    rw [calculateMovementOverLane_shape _ geo viewNet op offset lane hlane,
      calculateMovementOverLane_shape _ geo viewNet op offset lane hlane]
  · rw [moveElement_entireShape geo viewNet op offset hlane hempty,
      commitMove_entireShape geo viewNet op offset undoList hlane hempty, moveEntireShape_eq]
    simp only [hin, if_false]
    exact ⟨_, _, rfl, rfl⟩

/-- Witness of C13: the span `[10, 30]` on lane 0, moved by `(75, 0)`. -/
theorem C13_preview_commit_agree_witness :
    Scene.spanOnLane.lane = some ⟨0⟩ ∧
    (∃ r restore,
      (moveElement Scene.geometry (Scene.view ⟨0, 0, 0⟩) Scene.spanOnLane
        (GNEMoveOffset.planar 75 0)).calls = [Callback.setMoveShape r] ∧
      (commitMove Scene.geometry (Scene.view ⟨0, 0, 0⟩) Scene.spanOnLane
        (GNEMoveOffset.planar 75 0) ⟨0⟩).calls =
        [Callback.setMoveShape restore, Callback.commitMoveShape r ⟨0⟩]) :=
  ⟨rfl, C13_preview_commit_agree Scene.geometry (Scene.view ⟨0, 0, 0⟩) Scene.spanOnLane
    (GNEMoveOffset.planar 75 0) ⟨0⟩ (Or.inl ⟨⟨0⟩, rfl⟩)⟩

/-- C15 (no result is delivered on failure). When `moveElement` leaves with an exception (the
only one it throws on in-bounds indices being that of an invalid point), it has made no
callback at all; when `commitMove` leaves with an exception, it has not called
`commitMoveShape`, and the only callback made is the `setMoveShape` that carries
`originalShape` and `originalGeometryPoints`. -/
theorem C15_no_result_on_failure (geo : Geometry) (viewNet : GNEViewNet)
    (op : GNEMoveOperation) (offset : GNEMoveOffset) (undoList : GNEUndoList) :
    (∀ e, (moveElement geo viewNet op offset).thrown = some e →
      (moveElement geo viewNet op offset).calls = []) ∧
    (∀ e, (commitMove geo viewNet op offset undoList).thrown = some e →
      (commitMove geo viewNet op offset undoList).calls =
        [Callback.setMoveShape { shapeToUpdate := op.originalShape,
                                 geometryPointsToMove := op.originalGeometryPoints }] ∧
      committedResults (commitMove geo viewNet op offset undoList).calls = []) := by
  cases hlane : op.lane with
  | some lane =>
    rw [moveElement_lane geo viewNet op offset lane hlane,
      commitMove_lane geo viewNet op offset undoList lane hlane]
    constructor
    · intro e he; simp at he
    · intro e he; simp at he
  | none =>
    by_cases hempty : op.geometryPointsToMove = []
    · rw [moveElement_entireShape geo viewNet op offset hlane hempty,
        commitMove_entireShape geo viewNet op offset undoList hlane hempty]
      cases moveEntireShape geo viewNet offset op.shapeToMove with
      | error e0 => exact ⟨fun _ _ => rfl, fun _ _ => ⟨rfl, rfl⟩⟩
      | ok s =>
        constructor
        · intro e he; simp at he
        · intro e he; simp at he
    · rw [moveElement_geometryPoints geo viewNet op offset hlane hempty,
        commitMove_geometryPoints geo viewNet op offset undoList hlane hempty]
      cases moveGeometryPoints geo viewNet offset op.geometryPointsToMove op.shapeToMove with
      | error e0 => exact ⟨fun _ _ => rfl, fun _ _ => ⟨rfl, rfl⟩⟩
      | ok s =>
        constructor
        · intro e he; simp at he
        · intro e he; simp at he

/-- Witness of C15: the selected point is invalid; the preview throws and makes no callback. -/
theorem C15_no_result_on_failure_witness :
    (moveElement Scene.geometry (Scene.view ⟨0, 0, 0⟩) Scene.moveInvalidPoint
      (GNEMoveOffset.planar 1 1)).thrown =
      some (MoveError.ProcessError "trying to move an invalid position") ∧
    (moveElement Scene.geometry (Scene.view ⟨0, 0, 0⟩) Scene.moveInvalidPoint
      (GNEMoveOffset.planar 1 1)).calls = [] := by
  have hthrown : (moveElement Scene.geometry (Scene.view ⟨0, 0, 0⟩) Scene.moveInvalidPoint
      (GNEMoveOffset.planar 1 1)).thrown =
      some (MoveError.ProcessError "trying to move an invalid position") := by
    simp [moveElement, moveGeometryPoints, Scene.moveInvalidPoint,
      GNEMoveOperation.ofGeometryPoints, invalidPositionError]
  exact ⟨hthrown,
    (C15_no_result_on_failure Scene.geometry (Scene.view ⟨0, 0, 0⟩) Scene.moveInvalidPoint
      (GNEMoveOffset.planar 1 1) ⟨0⟩).1 _ hthrown⟩

/-! ## Selected points and repeated indices -/

/-- After the loop over the indices, the point at `i` is the body of the loop applied as many
times as `i` occurs among the indices. -/
theorem moveGeometryPoints_iterate (geo : Geometry) (viewNet : GNEViewNet)
    (offset : GNEMoveOffset) :
    ∀ (idxs : List Nat) (shape s : PositionVector),
      moveGeometryPoints geo viewNet offset idxs shape = .ok s →
      ∀ i : Nat, s[i]? = (shape[i]?).map (offsetAndSnap geo viewNet offset)^[idxs.count i] := by
  intro idxs
  induction idxs with
  | nil =>
    intro shape s h i
    simp [moveGeometryPoints] at h
    simp [h]
  | cons j rest ih =>
    intro shape s h i
    rw [moveGeometryPoints] at h
    cases hj : shape[j]? with
    | none => rw [hj] at h; simp at h
    | some p =>
      rw [hj] at h
      by_cases hp : p = geo.INVALID
      · simp [hp] at h
      · simp only [ne_eq, hp, not_false_eq_true, if_true] at h
        rw [ih _ _ h i]
        by_cases hij : i = j
        · subst hij
          have hlt : i < shape.length := by
            rcases Nat.lt_or_ge i shape.length with hlt | hge
            · exact hlt
            · rw [List.getElem?_eq_none hge] at hj; simp at hj
          rw [List.getElem?_set_self hlt, hj, List.count_cons_self]
          simp only [Option.map_some', Function.iterate_succ_apply]
          rfl
        · rw [List.getElem?_set_ne (fun e => hij e.symm), List.count_cons_of_ne hij]

/-- The loop over the indices succeeds when no point it meets is invalid: neither a selected
point of the shape nor any of its intermediate values. -/
theorem moveGeometryPoints_of_iterates_valid (geo : Geometry) (viewNet : GNEViewNet)
    (offset : GNEMoveOffset) :
    ∀ (idxs : List Nat) (shape : PositionVector),
      (∀ i ∈ idxs, i < shape.length) →
      (∀ i ∈ idxs, ∀ p, shape[i]? = some p → ∀ n, n < idxs.count i →
        (offsetAndSnap geo viewNet offset)^[n] p ≠ geo.INVALID) →
      ∃ s, moveGeometryPoints geo viewNet offset idxs shape = .ok s := by
  intro idxs
  induction idxs with
  | nil => intro shape _ _; exact ⟨shape, by simp [moveGeometryPoints]⟩
  | cons j rest ih =>
    intro shape hb hv
    rw [moveGeometryPoints]
    have hjl : j < shape.length := hb j (by simp)
    have hj : shape[j]? = some shape[j] := List.getElem?_eq_getElem hjl
    rw [hj]
    have hp : shape[j] ≠ geo.INVALID := by
      have := hv j (by simp) shape[j] hj 0 (by simp)
      simpa using this
    simp only [ne_eq, hp, not_false_eq_true, if_true]
    apply ih
    · intro i hi; rw [List.length_set]; exact hb i (by simp [hi])
    · intro i hi q hq n hn
      by_cases hij : i = j
      · subst hij
        rw [List.getElem?_set_self hjl] at hq
        simp only [Option.some.injEq] at hq
        subst hq
        have := hv i (by simp) shape[i] hj (n + 1) (by rw [List.count_cons_self]; omega)
        rwa [Function.iterate_succ_apply] at this
      · rw [List.getElem?_set_ne (fun e => hij e.symm)] at hq
        exact hv i (by simp [hi]) q hq n (by rw [List.count_cons_of_ne hij]; exact hn)

/-- When none of the `k` additions is rounded, `k` applications of the offset add `k` times
the offset. -/
theorem iterate_add (round : ℚ → ℚ) (x y z : ℚ) (k : Nat) (p : Position)
    (hexact : ∀ n : Nat, n < k →
      (⟨p.x + n * x, p.y + n * y, p.z + n * z⟩ : Position).add round x y z =
        ⟨p.x + (n + 1 : Nat) * x, p.y + (n + 1 : Nat) * y, p.z + (n + 1 : Nat) * z⟩) :
    (fun q : Position => q.add round x y z)^[k] p =
      ⟨p.x + k * x, p.y + k * y, p.z + k * z⟩ := by
  induction k with
  | zero => simp
  | succ n ih =>
    rw [Function.iterate_succ_apply', ih (fun m hm => hexact m (Nat.lt_succ_of_lt hm))]
    exact hexact n (Nat.lt_succ_self n)

/-- C14 (selected points of a move). For an operation without lane whose
`geometryPointsToMove` are pairwise distinct in-bounds indices and of which no point about to
be offset is invalid, for every offset and every view (hence every grid-snap function `snap`),
`moveElement` passes to `setMoveShape` a shape in which the point at every selected index `i`
is `snap(shapeToMove[i] + (offset.x, offset.y, offset.z))`; in a move of the whole shape
(`geometryPointsToMove` empty) this holds at every index. -/
theorem C14_selected_points (geo : Geometry) (viewNet : GNEViewNet) (op : GNEMoveOperation)
    (offset : GNEMoveOffset)
    (hlane : op.lane = none) (hnd : op.geometryPointsToMove.Nodup)
    (hbound : ∀ i ∈ op.geometryPointsToMove, i < op.shapeToMove.length)
    (hvalid : ¬ offsetsInvalidPoint geo op) :
    ∃ r, (moveElement geo viewNet op offset).calls = [Callback.setMoveShape r] ∧
      (∀ i ∈ op.geometryPointsToMove, r.shapeToUpdate[i]? =
        (op.shapeToMove[i]?).map (fun p : Position =>
          viewNet.snapToActiveGrid (p.add geo.round offset.x offset.y offset.z))) ∧
      (op.geometryPointsToMove = [] → ∀ i : Nat, r.shapeToUpdate[i]? =
        (op.shapeToMove[i]?).map (fun p : Position =>
          viewNet.snapToActiveGrid (p.add geo.round offset.x offset.y offset.z))) := by
  by_cases hempty : op.geometryPointsToMove = []
  · rw [moveElement_entireShape geo viewNet op offset hlane hempty, moveEntireShape_eq]
    have hin : geo.INVALID ∉ op.shapeToMove := fun hin => hvalid (Or.inl ⟨hempty, hin⟩)
    simp only [hin, if_false]
    refine ⟨_, rfl, ?_, ?_⟩
    · intro i hi; rw [hempty] at hi; simp at hi
    · intro _ i
      simp only [List.getElem?_map]
      rfl
  · rw [moveElement_geometryPoints geo viewNet op offset hlane hempty]
    obtain ⟨s, hs⟩ := moveGeometryPoints_of_valid geo viewNet offset _ _ hnd hbound
      (fun i hi h => hvalid (Or.inr ⟨i, hi, h⟩))
    rw [hs]
    refine ⟨_, rfl, ?_, fun h => absurd h hempty⟩
    intro i hi
    simp only
    rw [moveGeometryPoints_iterate geo viewNet offset _ _ _ hs i,
      List.count_eq_one_of_mem hnd hi, Function.iterate_one]
    rfl

/-- Witness of C14: the second and third point of a square moved by `(1, 1)`; the third point
`(10, 10)` becomes `(11, 11)`. -/
theorem C14_selected_points_witness :
    Scene.moveTwoPoints.lane = none ∧ Scene.moveTwoPoints.geometryPointsToMove.Nodup ∧
    ¬ offsetsInvalidPoint Scene.geometry Scene.moveTwoPoints ∧
    (∃ r, (moveElement Scene.geometry (Scene.view ⟨0, 0, 0⟩) Scene.moveTwoPoints
        (GNEMoveOffset.planar 1 1)).calls = [Callback.setMoveShape r] ∧
      r.shapeToUpdate[2]? = some ⟨11, 11, 0⟩) := by
  have hnd : Scene.moveTwoPoints.geometryPointsToMove.Nodup := by
    simp [Scene.moveTwoPoints, GNEMoveOperation.ofGeometryPoints]
  have hv : ¬ offsetsInvalidPoint Scene.geometry Scene.moveTwoPoints := by
    simp [offsetsInvalidPoint, Scene.moveTwoPoints, GNEMoveOperation.ofGeometryPoints,
      Scene.square, Scene.geometry]
  obtain ⟨r, hr, hsel, _⟩ := C14_selected_points Scene.geometry (Scene.view ⟨0, 0, 0⟩)
    Scene.moveTwoPoints (GNEMoveOffset.planar 1 1) rfl hnd
    (by simp [Scene.moveTwoPoints, GNEMoveOperation.ofGeometryPoints, Scene.square]) hv
  refine ⟨rfl, hnd, hv, r, hr, ?_⟩
  rw [hsel 2 (by simp [Scene.moveTwoPoints, GNEMoveOperation.ofGeometryPoints])]
  norm_num [Scene.moveTwoPoints, GNEMoveOperation.ofGeometryPoints, Scene.square, Scene.view,
    Scene.geometry, GNEMoveOffset.planar, Position.add]

/-- In binary64 the first point `(2, 0, 0)`, selected twice and moved by `(2^-52, 0)`, stays at
`(2, 0, 0)`: the sum `2 + 2^-52` is rounded to 2 at each of the two additions. -/
theorem moveFirstPointTwice_calls :
    (moveElement Scene.geometry (Scene.view ⟨0, 0, 0⟩) Scene.moveFirstPointTwice
      (GNEMoveOffset.planar (1 / 2 ^ 52) 0)).calls =
      [Callback.setMoveShape
        { shapeToUpdate := [⟨2, 0, 0⟩, ⟨10, 0, 0⟩], geometryPointsToMove := [0, 0] }] := by
  have h1 := roundToDouble_two_add_half_ulp
  norm_num at h1
  norm_num [moveElement, moveGeometryPoints, Scene.moveFirstPointTwice,
    GNEMoveOperation.ofGeometryPoints, Scene.geometry, Scene.view, GNEMoveOffset.planar,
    Position.add, h1]

/-- C20, counterexample (repeated indices, as stated). In binary64, with identity snapping, the
first point `(2, 0, 0)` of a shape is selected twice (`k = 2`) and moved by the non-zero offset
`(2^-52, 0, 0)`: the point passed to `setMoveShape` is `(2, 0, 0)`, which is not
`shapeToMove[0] + 2 * offset = (2 + 2^-51, 0, 0)`, and it is equal to the single application of
the offset although the index is not selected once only. -/
theorem C20_repeated_indices_counterexample :
    Scene.moveFirstPointTwice.lane = none ∧
    Scene.moveFirstPointTwice.geometryPointsToMove = [0, 0] ∧
    Scene.moveFirstPointTwice.shapeToMove[0]? = some ⟨2, 0, 0⟩ ∧
    (∀ p, (Scene.view ⟨0, 0, 0⟩).snapToActiveGrid p = p) ∧
    (moveElement Scene.geometry (Scene.view ⟨0, 0, 0⟩) Scene.moveFirstPointTwice
      (GNEMoveOffset.planar (1 / 2 ^ 52) 0)).calls =
      [Callback.setMoveShape
        { shapeToUpdate := [⟨2, 0, 0⟩, ⟨10, 0, 0⟩], geometryPointsToMove := [0, 0] }] ∧
    (⟨2, 0, 0⟩ : Position) ≠ ⟨2 + 2 * (1 / 2 ^ 52), 0 + 2 * 0, 0 + 2 * 0⟩ ∧
    (⟨2, 0, 0⟩ : Position) =
      offsetAndSnap Scene.geometry (Scene.view ⟨0, 0, 0⟩) (GNEMoveOffset.planar (1 / 2 ^ 52) 0)
        ⟨2, 0, 0⟩ ∧
    Scene.moveFirstPointTwice.geometryPointsToMove.count 0 = 2 ∧
    (GNEMoveOffset.planar (1 / 2 ^ 52) 0).x ≠ 0 := by
  have h1 := roundToDouble_two_add_half_ulp
  norm_num at h1
  refine ⟨rfl, rfl, rfl, fun _ => rfl, moveFirstPointTwice_calls, ?_, ?_, ?_, ?_⟩
  · norm_num
  · norm_num [offsetAndSnap, Scene.geometry, Scene.view, GNEMoveOffset.planar, Position.add, h1]
  · simp [Scene.moveFirstPointTwice, GNEMoveOperation.ofGeometryPoints]
  · norm_num [GNEMoveOffset.planar]

/-- C20, as amended (repeated indices are offset repeatedly). For a move of selected points (no
lane, non-empty in-bounds `geometryPointsToMove`) in which an index `i` occurs `k` times: in
every shape that `moveElement` passes to `setMoveShape`, the point at `i` is the `k`-fold
application of (add the offset in `double`, then snap) to `shapeToMove[i]`; such a shape is
passed when no point met on the way (a selected point or one of its intermediate values) is
`Position::INVALID`; and with identity snapping, when none of the `k` additions is rounded, the
point at `i` is `shapeToMove[i] + k * offset`, which for `k ≥ 1` is the single application
`shapeToMove[i] + offset` only if `k = 1` or the offset is zero. -/
theorem C20_repeated_indices (geo : Geometry) (viewNet : GNEViewNet) (op : GNEMoveOperation)
    (offset : GNEMoveOffset)
    (hlane : op.lane = none) (hne : op.geometryPointsToMove ≠ [])
    (hbound : ∀ i ∈ op.geometryPointsToMove, i < op.shapeToMove.length) :
    (∀ r, Callback.setMoveShape r ∈ (moveElement geo viewNet op offset).calls →
      ∀ i : Nat, r.shapeToUpdate[i]? =
        (op.shapeToMove[i]?).map
          (offsetAndSnap geo viewNet offset)^[op.geometryPointsToMove.count i]) ∧
    ((∀ i ∈ op.geometryPointsToMove, ∀ p, op.shapeToMove[i]? = some p →
        ∀ n, n < op.geometryPointsToMove.count i →
          (offsetAndSnap geo viewNet offset)^[n] p ≠ geo.INVALID) →
      ∃ r, (moveElement geo viewNet op offset).calls = [Callback.setMoveShape r]) ∧
    ((∀ p, viewNet.snapToActiveGrid p = p) →
      ∀ r, Callback.setMoveShape r ∈ (moveElement geo viewNet op offset).calls →
      ∀ (i : Nat) (p : Position), op.shapeToMove[i]? = some p →
        (∀ n : Nat, n < op.geometryPointsToMove.count i →
          (⟨p.x + n * offset.x, p.y + n * offset.y, p.z + n * offset.z⟩ : Position).add
              geo.round offset.x offset.y offset.z =
            ⟨p.x + (n + 1 : Nat) * offset.x, p.y + (n + 1 : Nat) * offset.y,
              p.z + (n + 1 : Nat) * offset.z⟩) →
        r.shapeToUpdate[i]? = some
          ⟨p.x + op.geometryPointsToMove.count i * offset.x,
           p.y + op.geometryPointsToMove.count i * offset.y,
           p.z + op.geometryPointsToMove.count i * offset.z⟩ ∧
        (1 ≤ op.geometryPointsToMove.count i →
          ((⟨p.x + op.geometryPointsToMove.count i * offset.x,
             p.y + op.geometryPointsToMove.count i * offset.y,
             p.z + op.geometryPointsToMove.count i * offset.z⟩ : Position) =
              p.add geo.round offset.x offset.y offset.z ↔
            op.geometryPointsToMove.count i = 1 ∨
              (offset.x = 0 ∧ offset.y = 0 ∧ offset.z = 0)))) := by
  rw [moveElement_geometryPoints geo viewNet op offset hlane hne]
  have hpass : ∀ r, Callback.setMoveShape r ∈
      (match moveGeometryPoints geo viewNet offset op.geometryPointsToMove op.shapeToMove with
        | .ok shapeToUpdate =>
          ({ calls := [Callback.setMoveShape
              { shapeToUpdate := shapeToUpdate,
                geometryPointsToMove := op.geometryPointsToMove }],
             thrown := none, operation := op } : Outcome)
        | .error e => { calls := [], thrown := some e, operation := op }).calls →
      ∀ i : Nat, r.shapeToUpdate[i]? =
        (op.shapeToMove[i]?).map
          (offsetAndSnap geo viewNet offset)^[op.geometryPointsToMove.count i] := by
    intro r hr
    cases hm : moveGeometryPoints geo viewNet offset op.geometryPointsToMove
        op.shapeToMove with
    | error e => rw [hm] at hr; simp at hr
    | ok s =>
      rw [hm] at hr
      simp only [List.mem_singleton, Callback.setMoveShape.injEq] at hr
      subst hr
      exact moveGeometryPoints_iterate geo viewNet offset _ _ _ hm
  refine ⟨hpass, ?_, ?_⟩
  · intro hv
    obtain ⟨s, hs⟩ := moveGeometryPoints_of_iterates_valid geo viewNet offset _ _ hbound hv
    rw [hs]
    exact ⟨_, rfl⟩
  · intro hsnap r hr i p hp hexact
    have hf : offsetAndSnap geo viewNet offset =
        fun q : Position => q.add geo.round offset.x offset.y offset.z := by
      funext q
      exact hsnap _
    constructor
    · rw [hpass r hr i, hp, hf, Option.map_some', iterate_add _ _ _ _ _ _ hexact]
    · intro hk
      have hone := hexact 0 hk
      simp only [Nat.cast_zero, zero_mul, add_zero, zero_add, Nat.cast_one, one_mul] at hone
      rw [show p.add geo.round offset.x offset.y offset.z =
        ⟨p.x + offset.x, p.y + offset.y, p.z + offset.z⟩ from hone]
      simp only [Position.mk.injEq, add_right_inj]
      have hcast : ((op.geometryPointsToMove.count i : ℕ) : ℚ) = 1 ↔
          op.geometryPointsToMove.count i = 1 := by
        exact_mod_cast Iff.rfl
      have hmul : ∀ x : ℚ, ((op.geometryPointsToMove.count i : ℕ) : ℚ) * x = x ↔
          op.geometryPointsToMove.count i = 1 ∨ x = 0 := by
        intro x
        rw [← hcast]
        constructor
        · intro h
          by_cases hx : x = 0
          · exact Or.inr hx
          · left
            have : (((op.geometryPointsToMove.count i : ℕ) : ℚ) - 1) * x = 0 := by
              rw [sub_mul, h]; ring
            rcases mul_eq_zero.mp this with h0 | h0
            · linarith
            · exact absurd h0 hx
        · rintro (h | h)
          · rw [h, one_mul]
          · rw [h, mul_zero]
      rw [hmul, hmul, hmul]
      tauto

/-- Witness of C20 as amended: the second point `(10, 0)` of a square is selected twice and
moved by `(1, 1)`; the two additions are exact in binary64 and the point ends at `(12, 2)`. -/
theorem C20_repeated_indices_witness :
    Scene.moveSecondPointTwice.lane = none ∧
    Scene.moveSecondPointTwice.geometryPointsToMove = [1, 1] ∧
    (∃ r, (moveElement Scene.geometry (Scene.view ⟨0, 0, 0⟩) Scene.moveSecondPointTwice
        (GNEMoveOffset.planar 1 1)).calls = [Callback.setMoveShape r] ∧
      r.shapeToUpdate[1]? = some ⟨12, 2, 0⟩) := by
  have hpre : (moveElement Scene.geometry (Scene.view ⟨0, 0, 0⟩) Scene.moveSecondPointTwice
      (GNEMoveOffset.planar 1 1)).calls =
      [Callback.setMoveShape
        { shapeToUpdate := [⟨0, 0, 0⟩, ⟨12, 2, 0⟩, ⟨10, 10, 0⟩, ⟨0, 10, 0⟩],
          geometryPointsToMove := [1, 1] }] := by
    norm_num [moveElement, moveGeometryPoints, Scene.moveSecondPointTwice,
      GNEMoveOperation.ofGeometryPoints, Scene.square, Scene.geometry, Scene.view,
      GNEMoveOffset.planar, Position.add]
  have hexact : ∀ n : Nat,
      n < Scene.moveSecondPointTwice.geometryPointsToMove.count 1 →
      (⟨(⟨10, 0, 0⟩ : Position).x + n * (GNEMoveOffset.planar 1 1).x,
        (⟨10, 0, 0⟩ : Position).y + n * (GNEMoveOffset.planar 1 1).y,
        (⟨10, 0, 0⟩ : Position).z + n * (GNEMoveOffset.planar 1 1).z⟩ : Position).add
          Scene.geometry.round (GNEMoveOffset.planar 1 1).x (GNEMoveOffset.planar 1 1).y
          (GNEMoveOffset.planar 1 1).z =
        ⟨(⟨10, 0, 0⟩ : Position).x + (n + 1 : Nat) * (GNEMoveOffset.planar 1 1).x,
          (⟨10, 0, 0⟩ : Position).y + (n + 1 : Nat) * (GNEMoveOffset.planar 1 1).y,
          (⟨10, 0, 0⟩ : Position).z + (n + 1 : Nat) * (GNEMoveOffset.planar 1 1).z⟩ := by
    intro n hn
    have hn2 : n < 2 := by
      simpa [Scene.moveSecondPointTwice, GNEMoveOperation.ofGeometryPoints] using hn
    interval_cases n <;>
      norm_num [Scene.geometry, GNEMoveOffset.planar, Position.add]
  have h := (C20_repeated_indices Scene.geometry (Scene.view ⟨0, 0, 0⟩)
    Scene.moveSecondPointTwice (GNEMoveOffset.planar 1 1) rfl
    (by simp [Scene.moveSecondPointTwice, GNEMoveOperation.ofGeometryPoints])
    (by simp [Scene.moveSecondPointTwice, GNEMoveOperation.ofGeometryPoints,
          Scene.square])).2.2 (fun _ => rfl) _
    (by rw [hpre]; exact List.mem_singleton.mpr rfl) 1 ⟨10, 0, 0⟩ rfl hexact
  refine ⟨rfl, rfl, _, hpre, ?_⟩
  rw [h.1]
  norm_num [Scene.moveSecondPointTwice, GNEMoveOperation.ofGeometryPoints,
    GNEMoveOffset.planar]

/-! ## Movement over a lane: sufficient conditions and re-centring -/

/-- In binary64 no operation of the move of the span `[150, 170]` by `(0, 0)` is rounded; the
target has no perpendicular projection on the lane. -/
theorem spanOffLane_exact :
    movementIsExact Scene.geometry (Scene.view ⟨0, 0, 0⟩) ⟨0⟩ Scene.spanOffLane
      (GNEMoveOffset.planar 0 0) 150 170 := by
  refine ⟨?_, ?_, ?_, ?_, ?_⟩
  · norm_num [centralPosition, Scene.geometry]
  · norm_num [halfSpan, Scene.geometry, abs_of_pos]
  · norm_num [laneLength, Scene.geometry]
  · intro p hp
    have hnone : perpendicularProjection Scene.geometry ⟨0⟩
        (snappedTarget Scene.geometry (Scene.view ⟨0, 0, 0⟩) ⟨0⟩ 150 170
          (GNEMoveOffset.planar 0 0)) = none := by
      norm_num [perpendicularProjection, snappedTarget, centralPosition, Scene.geometry,
        Scene.view, GNEMoveOffset.planar, Position.add]
    rw [hnone] at hp
    exact absurd hp (by simp)
  · have hs : posOverLaneOffset Scene.geometry (Scene.view ⟨0, 0, 0⟩) ⟨0⟩ Scene.spanOffLane
        (GNEMoveOffset.planar 0 0) = 70 := by
      norm_num [posOverLaneOffset, Scene.spanOffLane, GNEMoveOperation.overLane,
        Scene.geometry, Scene.view, GNEMoveOffset.planar, Position.add, abs_of_pos]
    rw [hs]
    intro pos hpos
    simp only [Scene.spanOffLane, GNEMoveOperation.overLane, List.mem_cons, List.mem_singleton,
      List.not_mem_nil, or_false] at hpos
    rcases hpos with rfl | rfl <;> norm_num [Scene.geometry]

/-- C17, counterexample (sufficient conditions for the clamp, as stated). In binary64, on a
lane of length 100, the ordered span `[1 - 2^-53, 3]` (shorter than the lane) moved by
`(-1, 0)`: the centre is rounded to 2 and the half-span to 1, the projection is 1, the test
`p - H < 0` fails and the shift is 1; the first position produced is `-2^-53 < 0`. -/
theorem C17_clamp_sufficient_counterexample :
    Scene.spanBelowOne.lane = some ⟨0⟩ ∧
    Scene.spanBelowOne.originalPosOverLanes = [1 - 1 / 2 ^ 53, 3] ∧
    (∀ pos ∈ Scene.spanBelowOne.originalPosOverLanes, (1 - 1 / 2 ^ 53 : ℚ) ≤ pos ∧ pos ≤ 3) ∧
    (3 : ℚ) - (1 - 1 / 2 ^ 53) ≤ laneLength Scene.geometry ⟨0⟩ ∧
    (calculateMovementOverLane {} Scene.geometry (Scene.view ⟨0, 0, 0⟩) Scene.spanBelowOne
      (GNEMoveOffset.planar (-1) 0)).shapeToUpdate = [⟨-(1 / 2 ^ 53), 0, 0⟩, ⟨2, 0, 0⟩] ∧
    ¬ ∀ pt ∈ (calculateMovementOverLane {} Scene.geometry (Scene.view ⟨0, 0, 0⟩)
        Scene.spanBelowOne (GNEMoveOffset.planar (-1) 0)).shapeToUpdate,
      0 ≤ pt.x ∧ pt.x ≤ laneLength Scene.geometry ⟨0⟩ := by
  refine ⟨rfl, rfl, ?_, ?_, spanBelowOne_shape, ?_⟩
  · norm_num [Scene.spanBelowOne, GNEMoveOperation.overLane]
  · rw [scene_laneLength]; norm_num
  · rw [spanBelowOne_shape]
    intro h
    have := (h ⟨-(1 / 2 ^ 53), 0, 0⟩ (by simp)).1
    norm_num at this

/-- C17, as amended (sufficient conditions for the clamp). For a lane-constrained operation
whose original positions all satisfy `front ≤ pos ≤ back` (the first is the minimum, the last
the maximum) with `back - front ≤ L`, for every offset, every view and every answer of the two
projection queries (perpendicular projection found or not) for which no operation of the
computation is rounded (`movementIsExact`), every position produced by
`calculateMovementOverLane` lies in `[0, L]`. Nothing is assumed on where the original
positions lie with respect to `[0, L]`. -/
theorem C17_clamp_sufficient (moveResult : GNEMoveResult) (geo : Geometry)
    (viewNet : GNEViewNet) (op : GNEMoveOperation) (offset : GNEMoveOffset) (lane : GNELane)
    (front back : ℚ)
    (hlane : op.lane = some lane)
    (hfront : op.originalPosOverLanes.head? = some front)
    (hback : op.originalPosOverLanes.getLast? = some back)
    (hbetween : ∀ pos ∈ op.originalPosOverLanes, front ≤ pos ∧ pos ≤ back)
    (hspan : back - front ≤ laneLength geo lane)
    (hexact : movementIsExact geo viewNet lane op offset front back) :
    (calculateMovementOverLane moveResult geo viewNet op offset).shapeToUpdate.length =
      op.originalPosOverLanes.length ∧
    ∀ pt ∈ (calculateMovementOverLane moveResult geo viewNet op offset).shapeToUpdate,
      0 ≤ pt.x ∧ pt.x ≤ laneLength geo lane := by
  refine ⟨?_, exact_movement_bounds moveResult geo viewNet op offset lane front back hlane
    hfront hback hbetween hspan hexact⟩
  rw [calculateMovementOverLane_shape moveResult geo viewNet op offset lane hlane]
  simp

/-- Witness of C17 as amended: the span `[150, 170]`, beyond the end of a lane of length 100,
is brought back to `{80, 100}`; no operation is rounded in binary64. -/
theorem C17_clamp_sufficient_witness :
    Scene.spanOffLane.lane = some ⟨0⟩ ∧
    (170 : ℚ) - 150 ≤ laneLength Scene.geometry ⟨0⟩ ∧
    movementIsExact Scene.geometry (Scene.view ⟨0, 0, 0⟩) ⟨0⟩ Scene.spanOffLane
      (GNEMoveOffset.planar 0 0) 150 170 ∧
    (∀ pt ∈ (calculateMovementOverLane {} Scene.geometry (Scene.view ⟨0, 0, 0⟩)
        Scene.spanOffLane (GNEMoveOffset.planar 0 0)).shapeToUpdate,
      0 ≤ pt.x ∧ pt.x ≤ laneLength Scene.geometry ⟨0⟩) :=
  ⟨rfl, by norm_num [laneLength, Scene.geometry], spanOffLane_exact,
    (C17_clamp_sufficient {} Scene.geometry (Scene.view ⟨0, 0, 0⟩) Scene.spanOffLane
      (GNEMoveOffset.planar 0 0) ⟨0⟩ 150 170 rfl rfl rfl
      (by norm_num [Scene.spanOffLane, GNEMoveOperation.overLane])
      (by norm_num [laneLength, Scene.geometry]) spanOffLane_exact).2⟩

/-- C18, counterexample (re-centring as stated). In binary64, the span `[2, 2 + 2^-51]` moved
by `(-2^-52, 0)`: the perpendicular projection is `p = 2 - 2^-52`, with `H = 2^-52`,
`p - H ≥ 0` and `p + H ≤ L = 100`; the first and last positions produced are `2 - 2^-52` and
`2`, whose midpoint `2 - 2^-53` is not `p`. -/
theorem C18_recentred_on_projection_counterexample :
    Scene.tightSpan.lane = some ⟨0⟩ ∧
    Scene.tightSpan.originalPosOverLanes = [2, 2 + 1 / 2 ^ 51] ∧
    perpendicularProjection Scene.geometry ⟨0⟩
      (snappedTarget Scene.geometry (Scene.view ⟨0, 0, 0⟩) ⟨0⟩ 2 (2 + 1 / 2 ^ 51)
        (GNEMoveOffset.planar (-(1 / 2 ^ 52)) 0)) = some (2 - 1 / 2 ^ 52) ∧
    (0 : ℚ) ≤ (2 - 1 / 2 ^ 52) - |(2 + 1 / 2 ^ 51) - 2| / 2 ∧
    ((2 - 1 / 2 ^ 52) + |(2 + 1 / 2 ^ 51) - 2| / 2 : ℚ) ≤ laneLength Scene.geometry ⟨0⟩ ∧
    (calculateMovementOverLane {} Scene.geometry (Scene.view ⟨0, 0, 0⟩) Scene.tightSpan
      (GNEMoveOffset.planar (-(1 / 2 ^ 52)) 0)).shapeToUpdate.head? =
      some ⟨2 - 1 / 2 ^ 52, 0, 0⟩ ∧
    (calculateMovementOverLane {} Scene.geometry (Scene.view ⟨0, 0, 0⟩) Scene.tightSpan
      (GNEMoveOffset.planar (-(1 / 2 ^ 52)) 0)).shapeToUpdate.getLast? = some ⟨2, 0, 0⟩ ∧
    (((2 - 1 / 2 ^ 52) + 2) / 2 : ℚ) ≠ 2 - 1 / 2 ^ 52 := by
  refine ⟨rfl, rfl, tightSpan_projection, ?_, ?_, ?_, ?_, ?_⟩
  · norm_num [abs_of_pos]
  · rw [scene_laneLength]; norm_num [abs_of_pos]
  · rw [tightSpan_shape]; rfl
  · rw [tightSpan_shape]; rfl
  · norm_num

/-- C18, as amended (an unclamped move re-centres the span on the projection). For a
lane-constrained operation with first and last original positions `front` and `back` (in
either order) and an offset for which the perpendicular projection `p` of the snapped target
exists and the move is not clamped (in `double`, `p - H < 0` and `p + H > L` are both false,
where `H` is the half-span and `L` the lane length): when the centre of the span, the shift
`centre - p` and the two subtractions `front - shift` and `back - shift` are not rounded, the
midpoint of the first and last positions produced by `calculateMovementOverLane` is exactly
`p`. -/
theorem C18_recentred_on_projection (moveResult : GNEMoveResult) (geo : Geometry)
    (viewNet : GNEViewNet) (op : GNEMoveOperation) (offset : GNEMoveOffset) (lane : GNELane)
    (front back p : ℚ)
    (hlane : op.lane = some lane)
    (hfront : op.originalPosOverLanes.head? = some front)
    (hback : op.originalPosOverLanes.getLast? = some back)
    (hp : perpendicularProjection geo lane
      (snappedTarget geo viewNet lane front back offset) = some p)
    (hlow : 0 ≤ geo.round (p - halfSpan geo.round front back))
    (hhigh : geo.round (p + halfSpan geo.round front back) ≤ laneLength geo lane)
    (hcentre : centralPosition geo.round front back = (front + back) / 2)
    (hshift : geo.round ((front + back) / 2 - p) = (front + back) / 2 - p)
    (hfirst : geo.round (front - ((front + back) / 2 - p)) = front - ((front + back) / 2 - p))
    (hlast : geo.round (back - ((front + back) / 2 - p)) = back - ((front + back) / 2 - p)) :
    ∃ first last,
      (calculateMovementOverLane moveResult geo viewNet op offset).shapeToUpdate.head? =
        some first ∧
      (calculateMovementOverLane moveResult geo viewNet op offset).shapeToUpdate.getLast? =
        some last ∧
      (first.x + last.x) / 2 = p := by
  rw [calculateMovementOverLane_shape moveResult geo viewNet op offset lane hlane,
    posOverLaneOffset_eq geo viewNet op offset lane front back hfront hback, hp]
  have hs : shiftPrecedence geo.round front back (laneLength geo lane) (some p)
      (geo.nearest_offset_to_point2D lane
        (snappedTarget geo viewNet lane front back offset) false) =
      (front + back) / 2 - p := by
    simp [shiftPrecedence, not_lt.mpr hlow, not_lt.mpr hhigh, hcentre, hshift]
  rw [hs]
  refine ⟨_, _, by rw [List.head?_map, hfront]; rfl,
    by rw [List.getLast?_map, hback]; rfl, ?_⟩
  simp only [Position.mk2, hfirst, hlast]
  ring

/-- Witness of C18 as amended: the span given as `[30, 10]` moved by `(30, 0)`: the projection
is 50, no operation is rounded in binary64 and the positions produced are `{60, 40}`. -/
theorem C18_recentred_on_projection_witness :
    Scene.reversedSpan.lane = some ⟨0⟩ ∧
    perpendicularProjection Scene.geometry ⟨0⟩
      (snappedTarget Scene.geometry (Scene.view ⟨0, 0, 0⟩) ⟨0⟩ 30 10
        (GNEMoveOffset.planar 30 0)) = some 50 ∧
    (∃ first last,
      (calculateMovementOverLane {} Scene.geometry (Scene.view ⟨0, 0, 0⟩) Scene.reversedSpan
        (GNEMoveOffset.planar 30 0)).shapeToUpdate.head? = some first ∧
      (calculateMovementOverLane {} Scene.geometry (Scene.view ⟨0, 0, 0⟩) Scene.reversedSpan
        (GNEMoveOffset.planar 30 0)).shapeToUpdate.getLast? = some last ∧
      (first.x + last.x) / 2 = 50) := by
  have hp : perpendicularProjection Scene.geometry ⟨0⟩
      (snappedTarget Scene.geometry (Scene.view ⟨0, 0, 0⟩) ⟨0⟩ 30 10
        (GNEMoveOffset.planar 30 0)) = some 50 := by
    norm_num [perpendicularProjection, snappedTarget, centralPosition, Scene.geometry,
      Scene.view, GNEMoveOffset.planar, Position.add]
  exact ⟨rfl, hp,
    C18_recentred_on_projection {} Scene.geometry (Scene.view ⟨0, 0, 0⟩) Scene.reversedSpan
      (GNEMoveOffset.planar 30 0) ⟨0⟩ 30 10 50 rfl rfl rfl hp
      (by norm_num [halfSpan, Scene.geometry, abs_of_neg])
      (by norm_num [halfSpan, laneLength, Scene.geometry, abs_of_neg])
      (by norm_num [centralPosition, Scene.geometry])
      (by norm_num [Scene.geometry])
      (by norm_num [Scene.geometry])
      (by norm_num [Scene.geometry])⟩

/-! ## Indices of the committed result -/

/-- C19, counterexample (indices in bounds after commit, as stated). The last point of a square
(index 3, in bounds, valid) is dragged by `(10, 0)` onto the third point. Duplicate removal
leaves three points, and `commitMove` hands them to `commitMoveShape` together with the index
list `[3]`, which is no index of a shape of three points. -/
theorem C19_indices_in_bounds_counterexample :
    Scene.moveLastPoint.lane = none ∧
    Scene.moveLastPoint.geometryPointsToMove = [3] ∧
    Scene.moveLastPoint.shapeToMove.length = 4 ∧
    Scene.moveLastPoint.shapeToMove[3]? ≠ some Scene.geometry.INVALID ∧
    (commitMove Scene.geometry (Scene.view ⟨0, 0, 0⟩) Scene.moveLastPoint
      (GNEMoveOffset.planar 10 0) ⟨0⟩).calls =
      [Callback.setMoveShape { shapeToUpdate := Scene.square, geometryPointsToMove := [3] },
        Callback.commitMoveShape
          { shapeToUpdate := [⟨0, 0, 0⟩, ⟨10, 0, 0⟩, ⟨10, 10, 0⟩],
            geometryPointsToMove := [3] } ⟨0⟩] ∧
    ¬ ∀ i ∈ ([3] : List Nat),
        i < ([⟨0, 0, 0⟩, ⟨10, 0, 0⟩, ⟨10, 10, 0⟩] : PositionVector).length := by
  refine ⟨rfl, rfl, rfl, ?_, ?_, ?_⟩
  · simp [Scene.moveLastPoint, GNEMoveOperation.ofGeometryPoints, Scene.square,
      Scene.geometry]
  · norm_num [commitMove, moveGeometryPoints, Scene.moveLastPoint,
      GNEMoveOperation.ofGeometryPoints, Scene.square, Scene.geometry, Scene.view,
      GNEMoveOffset.planar, Position.add, Scene.removeDoublePoints, Scene.dropNear,
      Position.distanceSquaredTo]
  · simp

/-- C19, as amended (indices of the committed result). For a move of selected points (no lane,
non-empty in-bounds `geometryPointsToMove`, no invalid selected point): the move result that
`commitMove` passes to `commitMoveShape` carries the `geometryPointsToMove` of the operation,
and each of them is a valid index into the offset-and-snapped shape before duplicate-point
removal, which is the shape `moveElement` previews and has as many points as `shapeToMove`; it
is a valid index into the `shapeToUpdate` of that result whenever duplicate-point removal is
not applied (at most 2 points) or removes no point. With pairwise distinct indices
`commitMove` does pass a result. -/
theorem C19_indices_in_bounds (geo : Geometry) (viewNet : GNEViewNet) (op : GNEMoveOperation)
    (offset : GNEMoveOffset) (undoList : GNEUndoList)
    (hlane : op.lane = none) (hne : op.geometryPointsToMove ≠ [])
    (hbound : ∀ i ∈ op.geometryPointsToMove, i < op.shapeToMove.length)
    (hvalid : ∀ i ∈ op.geometryPointsToMove, op.shapeToMove[i]? ≠ some geo.INVALID) :
    (∀ r u, Callback.commitMoveShape r u ∈ (commitMove geo viewNet op offset undoList).calls →
      r.geometryPointsToMove = op.geometryPointsToMove ∧
      ∃ preview, (moveElement geo viewNet op offset).calls = [Callback.setMoveShape preview] ∧
        preview.shapeToUpdate.length = op.shapeToMove.length ∧
        (∀ i ∈ r.geometryPointsToMove, i < preview.shapeToUpdate.length) ∧
        ((preview.shapeToUpdate.length ≤ 2 ∨
            (geo.removeDoublePoints 2 preview.shapeToUpdate).length =
              preview.shapeToUpdate.length) →
          ∀ i ∈ r.geometryPointsToMove, i < r.shapeToUpdate.length)) ∧
    (op.geometryPointsToMove.Nodup →
      ∃ restore r, (commitMove geo viewNet op offset undoList).calls =
        [Callback.setMoveShape restore, Callback.commitMoveShape r undoList]) := by
  rw [moveElement_geometryPoints geo viewNet op offset hlane hne,
    commitMove_geometryPoints geo viewNet op offset undoList hlane hne]
  constructor
  · intro r u hr
    cases hm : moveGeometryPoints geo viewNet offset op.geometryPointsToMove op.shapeToMove with
    | error e => rw [hm] at hr; simp at hr
    | ok s =>
      rw [hm] at hr
      simp only [List.mem_cons, Callback.commitMoveShape.injEq, List.mem_singleton,
        List.not_mem_nil, or_false, false_or, reduceCtorEq] at hr
      obtain ⟨hr, _⟩ := hr
      subst hr
      have hlen := moveGeometryPoints_length geo viewNet offset _ _ _ hm
      refine ⟨rfl, _, rfl, hlen, ?_, ?_⟩
      · intro i hi
        simp only at hi ⊢
        rw [hlen]; exact hbound i hi
      · intro hkeep i hi
        simp only at hi hkeep ⊢
        have hi' := hbound i hi
        rcases hkeep with h2 | hsame
        · have : ¬ s.length > 2 := by omega
          simp only [this, if_false]
          omega
        · by_cases h3 : s.length > 2
          · simp only [h3, if_true]
            omega
          · simp only [h3, if_false]
            omega
  · intro hnd
    obtain ⟨s, hs⟩ := moveGeometryPoints_of_valid geo viewNet offset _ _ hnd hbound hvalid
    rw [hs]
    exact ⟨_, _, rfl⟩

/-- Witness of C19 as amended: a shape `[(0,0,0), (10,0,0)]` of two points, of which the second
is moved; no duplicate removal is applied. -/
theorem C19_indices_in_bounds_witness :
    (GNEMoveOperation.ofGeometryPoints [⟨0, 0, 0⟩, ⟨10, 0, 0⟩] [1]
      [⟨0, 0, 0⟩, ⟨10, 0, 0⟩] [1]).lane = none ∧
    (∃ restore r, (commitMove Scene.geometry (Scene.view ⟨0, 0, 0⟩)
        (GNEMoveOperation.ofGeometryPoints [⟨0, 0, 0⟩, ⟨10, 0, 0⟩] [1]
          [⟨0, 0, 0⟩, ⟨10, 0, 0⟩] [1])
        (GNEMoveOffset.planar (-10) 0) ⟨0⟩).calls =
        [Callback.setMoveShape restore, Callback.commitMoveShape r ⟨0⟩]) :=
  ⟨rfl,
    (C19_indices_in_bounds Scene.geometry (Scene.view ⟨0, 0, 0⟩)
      (GNEMoveOperation.ofGeometryPoints [⟨0, 0, 0⟩, ⟨10, 0, 0⟩] [1]
        [⟨0, 0, 0⟩, ⟨10, 0, 0⟩] [1])
      (GNEMoveOffset.planar (-10) 0) ⟨0⟩ rfl
      (by simp [GNEMoveOperation.ofGeometryPoints])
      (by simp [GNEMoveOperation.ofGeometryPoints])
      (by simp [GNEMoveOperation.ofGeometryPoints, Scene.geometry])).2
      (by simp [GNEMoveOperation.ofGeometryPoints])⟩

end GNEMove
